import Mathlib

/-! A shallow embedding of graphene-matrix.c.

The 4x4 matrix code of `src/graphene-matrix.c`, embedded over an arbitrary
linearly ordered field `K` that stands for `float` in exact arithmetic.

* Every C function of the file becomes a function of the same name.
* Out parameters become explicit state: a function that writes through a
  pointer takes the value the pointee held before the call and returns the
  value it holds after the call.  Locals that the C code reads without having
  initialised them are inputs of the embedding as well.
* The C library (`sqrtf`, `atan2f`, `sin`, `cos`) and the quaternion module
  are collaborators that the file only calls; they are parameters.
* The SIMD backend (`graphene-simd4f.h`, `graphene-simd4x4f.h`) and the point
  and rectangle value types are not part of the file either; they are
  modelled from the interface description of the specification.
* Division in a field is total, with x / 0 = 0, where the division of `float`
  gives an infinity or a value that is not a number.  The functions ending in
  `_checked` make the division by zero of the projection visible: they return
  `none` where the divisor is 0.
* Where the rounding of `float` matters, the functions concerned are embedded a
  second time in the namespace `rounded`, with a rounding function applied to
  the result of every arithmetic operation.  With the identity as rounding
  function they are the functions of the exact embedding; with `round_f32`,
  the rounding of IEEE 754 binary32 over the rationals, they compute what the
  C code computes on finite floats.
-/

namespace Graphene

/-! ## Collaborators that are parameters -/

/-- The functions of the C mathematics library that the matrix code calls. -/
structure libm (K : Type) where
  sqrtf : K → K
  atan2f : K → K → K
  sin : K → K
  cos : K → K
  tanf : K → K

/-- The value type `graphene_quaternion_t`: four floats. -/
structure graphene_quaternion_t (K : Type) where
  x : K
  y : K
  z : K
  w : K
deriving DecidableEq

/-! ## The 4-wide vector primitive -/

/-- The value type `graphene_simd4f_t`: four float lanes. -/
structure graphene_simd4f_t (K : Type) where
  x : K
  y : K
  z : K
  w : K
deriving DecidableEq

section simd4f

variable {K : Type} [LinearOrderedField K]

/-- Modelled from the spec: `graphene_simd4f_init` of graphene-simd4f.h, the
per-lane construction of a vector (section 6). -/
def graphene_simd4f_init (x y z w : K) : graphene_simd4f_t K := ⟨x, y, z, w⟩

/-- Modelled from the spec: `graphene_simd4f_splat` of graphene-simd4f.h,
broadcast of a scalar to the 4 lanes (section 6). -/
def graphene_simd4f_splat (v : K) : graphene_simd4f_t K := ⟨v, v, v, v⟩

/-- Modelled from the spec: `graphene_simd4f_get_x` of graphene-simd4f.h,
per-lane extraction (section 6). -/
def graphene_simd4f_get_x (v : graphene_simd4f_t K) : K := v.x

/-- Modelled from the spec: `graphene_simd4f_get_y` of graphene-simd4f.h. -/
def graphene_simd4f_get_y (v : graphene_simd4f_t K) : K := v.y

/-- Modelled from the spec: `graphene_simd4f_get_z` of graphene-simd4f.h. -/
def graphene_simd4f_get_z (v : graphene_simd4f_t K) : K := v.z

/-- Modelled from the spec: `graphene_simd4f_get_w` of graphene-simd4f.h. -/
def graphene_simd4f_get_w (v : graphene_simd4f_t K) : K := v.w

/-- Modelled from the spec: `graphene_simd4f_add` of graphene-simd4f.h,
elementwise addition (section 6). -/
def graphene_simd4f_add (a b : graphene_simd4f_t K) : graphene_simd4f_t K :=
  ⟨a.x + b.x, a.y + b.y, a.z + b.z, a.w + b.w⟩

/-- Modelled from the spec: `graphene_simd4f_sub` of graphene-simd4f.h,
elementwise subtraction (section 6). -/
def graphene_simd4f_sub (a b : graphene_simd4f_t K) : graphene_simd4f_t K :=
  ⟨a.x - b.x, a.y - b.y, a.z - b.z, a.w - b.w⟩

/-- Modelled from the spec: `graphene_simd4f_mul` of graphene-simd4f.h,
elementwise multiplication (section 6). -/
def graphene_simd4f_mul (a b : graphene_simd4f_t K) : graphene_simd4f_t K :=
  ⟨a.x * b.x, a.y * b.y, a.z * b.z, a.w * b.w⟩

/-- Modelled from the spec: `graphene_simd4f_div` of graphene-simd4f.h,
elementwise division (section 6). -/
def graphene_simd4f_div (a b : graphene_simd4f_t K) : graphene_simd4f_t K :=
  ⟨a.x / b.x, a.y / b.y, a.z / b.z, a.w / b.w⟩

/-- Modelled from the spec: `graphene_simd4f_sum` of graphene-simd4f.h, the
horizontal sum of the 4 lanes, held in every lane of the result (section 6). -/
def graphene_simd4f_sum (v : graphene_simd4f_t K) : graphene_simd4f_t K :=
  graphene_simd4f_splat (v.x + v.y + v.z + v.w)

/-- Modelled from the spec: `graphene_simd4f_dot4` of graphene-simd4f.h, the
4-component dot product, held in every lane of the result (section 6). -/
def graphene_simd4f_dot4 (a b : graphene_simd4f_t K) : graphene_simd4f_t K :=
  graphene_simd4f_sum (graphene_simd4f_mul a b)

/-- Modelled from the spec: `graphene_simd4f_cross3` of graphene-simd4f.h, the
3-component cross product (section 6); the fourth lane of the result is 0. -/
def graphene_simd4f_cross3 (a b : graphene_simd4f_t K) : graphene_simd4f_t K :=
  ⟨a.y * b.z - a.z * b.y, a.z * b.x - a.x * b.z, a.x * b.y - a.y * b.x, 0⟩

/-- Modelled from the spec: `graphene_simd4f_length4` of graphene-simd4f.h, the
4-component Euclidean length, held in every lane of the result (section 6). -/
def graphene_simd4f_length4 (L : libm K) (v : graphene_simd4f_t K) : graphene_simd4f_t K :=
  graphene_simd4f_splat (L.sqrtf (graphene_simd4f_get_x (graphene_simd4f_dot4 v v)))

/-- Modelled from the spec: `graphene_simd4f_is_zero3` of graphene-simd4f.h, the
zero test on the first 3 lanes (section 6), exact in exact arithmetic. -/
def graphene_simd4f_is_zero3 (v : graphene_simd4f_t K) : Bool :=
  decide (v.x = 0) && decide (v.y = 0) && decide (v.z = 0)

/-- Modelled from the spec: `graphene_simd4f_interpolate` of graphene-simd4f.h,
the linear interpolation of two vectors by a factor (section 4.3, step 1). -/
def graphene_simd4f_interpolate (a b : graphene_simd4f_t K) (f : K) : graphene_simd4f_t K :=
  graphene_simd4f_add a
    (graphene_simd4f_mul (graphene_simd4f_sub b a) (graphene_simd4f_splat f))

end simd4f

/-! ## Point, rectangle and vector value types -/

/-- The value type `graphene_point_t`. -/
structure graphene_point_t (K : Type) where
  x : K
  y : K
deriving DecidableEq

/-- The value type `graphene_point3d_t`. -/
structure graphene_point3d_t (K : Type) where
  x : K
  y : K
  z : K
deriving DecidableEq

/-- The value type `graphene_size_t`. -/
structure graphene_size_t (K : Type) where
  width : K
  height : K
deriving DecidableEq

/-- The value type `graphene_rect_t`: an origin and a size. -/
structure graphene_rect_t (K : Type) where
  origin : graphene_point_t K
  size : graphene_size_t K
deriving DecidableEq

/-- The value type `graphene_quad_t`: four vertices. -/
structure graphene_quad_t (K : Type) where
  p0 : graphene_point_t K
  p1 : graphene_point_t K
  p2 : graphene_point_t K
  p3 : graphene_point_t K
deriving DecidableEq

/-- The value type `graphene_vec3_t`, a wrapper of a 4-lane vector. -/
structure graphene_vec3_t (K : Type) where
  value : graphene_simd4f_t K
deriving DecidableEq

/-- The value type `graphene_vec4_t`, a wrapper of a 4-lane vector. -/
structure graphene_vec4_t (K : Type) where
  value : graphene_simd4f_t K
deriving DecidableEq

/-- The value type `graphene_simd4x4f_t`: four row vectors. -/
structure graphene_simd4x4f_t (K : Type) where
  x : graphene_simd4f_t K
  y : graphene_simd4f_t K
  z : graphene_simd4f_t K
  w : graphene_simd4f_t K
deriving DecidableEq

/-- The value type `graphene_matrix_t`, a wrapper of the four rows. -/
structure graphene_matrix_t (K : Type) where
  value : graphene_simd4x4f_t K
deriving DecidableEq

/-- The quaternion module (graphene-quaternion.c) as the matrix code uses it:
spherical interpolation, conversion to a matrix, extraction from a matrix.
Each writes the whole of its out parameter. -/
structure quaternion_ops (K : Type) where
  graphene_quaternion_slerp :
    graphene_quaternion_t K → graphene_quaternion_t K → K → graphene_quaternion_t K
  graphene_quaternion_to_matrix : graphene_quaternion_t K → graphene_matrix_t K
  graphene_quaternion_init_from_matrix : graphene_matrix_t K → graphene_quaternion_t K

section values

variable {K : Type} [LinearOrderedField K]

/-- Modelled from the spec: `graphene_quaternion_init` of graphene-quaternion.c,
which stores the four given components (section 4.2). -/
def graphene_quaternion_init (x y z w : K) : graphene_quaternion_t K := ⟨x, y, z, w⟩

/-- Modelled from the spec: `graphene_point_init` of graphene-point.c. -/
def graphene_point_init (x y : K) : graphene_point_t K := ⟨x, y⟩

/-- Modelled from the spec: `graphene_point3d_init` of graphene-point3d.c. -/
def graphene_point3d_init (x y z : K) : graphene_point3d_t K := ⟨x, y, z⟩

/-- Modelled from the spec: `graphene_point3d_interpolate` of graphene-point3d.c,
the component-wise linear interpolation (section 4.3, steps 2 and 5). -/
def graphene_point3d_interpolate (a b : graphene_point3d_t K) (factor : K) :
    graphene_point3d_t K :=
  ⟨a.x + (b.x - a.x) * factor, a.y + (b.y - a.y) * factor, a.z + (b.z - a.z) * factor⟩

/-- Modelled from the spec: `graphene_vec3_init` of graphene-vectors.c. -/
def graphene_vec3_init (x y z : K) : graphene_vec3_t K := ⟨graphene_simd4f_init x y z 0⟩

/-- Modelled from the spec: `graphene_vec3_subtract` of graphene-vectors.c. -/
def graphene_vec3_subtract (a b : graphene_vec3_t K) : graphene_vec3_t K :=
  ⟨graphene_simd4f_sub a.value b.value⟩

/-- Modelled from the spec: `graphene_vec3_get_x` of graphene-vectors.c. -/
def graphene_vec3_get_x (v : graphene_vec3_t K) : K := graphene_simd4f_get_x v.value

/-- Modelled from the spec: `graphene_vec3_get_y` of graphene-vectors.c. -/
def graphene_vec3_get_y (v : graphene_vec3_t K) : K := graphene_simd4f_get_y v.value

/-- Modelled from the spec: `graphene_vec3_get_z` of graphene-vectors.c. -/
def graphene_vec3_get_z (v : graphene_vec3_t K) : K := graphene_simd4f_get_z v.value

/-- Modelled from the spec: `graphene_vec4_init` of graphene-vectors.c. -/
def graphene_vec4_init (x y z w : K) : graphene_vec4_t K := ⟨graphene_simd4f_init x y z w⟩

/-- Modelled from the spec: `graphene_rect_init` of graphene-rect.c. -/
def graphene_rect_init (x y width height : K) : graphene_rect_t K :=
  ⟨⟨x, y⟩, ⟨width, height⟩⟩

/-- Modelled from the spec: `graphene_rect_get_top_left` of graphene-rect.c,
the corner TL of section 4.4. -/
def graphene_rect_get_top_left (r : graphene_rect_t K) : graphene_point_t K :=
  ⟨r.origin.x, r.origin.y⟩

/-- Modelled from the spec: `graphene_rect_get_top_right` of graphene-rect.c,
the corner TR of section 4.4. -/
def graphene_rect_get_top_right (r : graphene_rect_t K) : graphene_point_t K :=
  ⟨r.origin.x + r.size.width, r.origin.y⟩

/-- Modelled from the spec: `graphene_rect_get_bottom_right` of graphene-rect.c,
the corner BR of section 4.4. -/
def graphene_rect_get_bottom_right (r : graphene_rect_t K) : graphene_point_t K :=
  ⟨r.origin.x + r.size.width, r.origin.y + r.size.height⟩

/-- Modelled from the spec: `graphene_rect_get_bottom_left` of graphene-rect.c,
the corner BL of section 4.4. -/
def graphene_rect_get_bottom_left (r : graphene_rect_t K) : graphene_point_t K :=
  ⟨r.origin.x, r.origin.y + r.size.height⟩

/-- Modelled from the spec: `graphene_rect_contains_point` of graphene-rect.c,
the containment test of section 4.4: the point lies between the edges of the
rectangle, edges included. -/
def graphene_rect_contains_point (r : graphene_rect_t K) (p : graphene_point_t K) : Bool :=
  decide (r.origin.x ≤ p.x) && decide (p.x ≤ r.origin.x + r.size.width) &&
    decide (r.origin.y ≤ p.y) && decide (p.y ≤ r.origin.y + r.size.height)

/-- Modelled from the spec: `graphene_quad_init` of graphene-quad.c. -/
def graphene_quad_init (p1 p2 p3 p4 : graphene_point_t K) : graphene_quad_t K :=
  ⟨p1, p2, p3, p4⟩

end values

/-! ## The matrix backend -/

section simd4x4f

variable {K : Type} [LinearOrderedField K]

/-- Modelled from the spec: `graphene_simd4x4f_init` of graphene-simd4x4f.h, the
construction of a matrix from its four rows (section 3). -/
def graphene_simd4x4f_init (x y z w : graphene_simd4f_t K) : graphene_simd4x4f_t K :=
  ⟨x, y, z, w⟩

/-- Modelled from the spec: `graphene_simd4x4f_init_identity` of
graphene-simd4x4f.h, the identity constructor (section 6). -/
def graphene_simd4x4f_init_identity : graphene_simd4x4f_t K :=
  graphene_simd4x4f_init (graphene_simd4f_init 1 0 0 0) (graphene_simd4f_init 0 1 0 0)
    (graphene_simd4f_init 0 0 1 0) (graphene_simd4f_init 0 0 0 1)

/-- Modelled from the spec: `graphene_simd4x4f_translation` of graphene-simd4x4f.h,
the translation constructor (section 6), laid out as `graphene_matrix_init_translate`
of the source lays it out. -/
def graphene_simd4x4f_translation (x y z : K) : graphene_simd4x4f_t K :=
  graphene_simd4x4f_init (graphene_simd4f_init 1 0 0 0) (graphene_simd4f_init 0 1 0 0)
    (graphene_simd4f_init 0 0 1 0) (graphene_simd4f_init x y z 1)

/-- Modelled from the spec: `graphene_simd4x4f_scale` of graphene-simd4x4f.h, the
scale constructor (section 6), laid out as `graphene_matrix_init_scale` of the
source lays it out. -/
def graphene_simd4x4f_scale (x y z : K) : graphene_simd4x4f_t K :=
  graphene_simd4x4f_init (graphene_simd4f_init x 0 0 0) (graphene_simd4f_init 0 y 0 0)
    (graphene_simd4f_init 0 0 z 0) (graphene_simd4f_init 0 0 0 1)

/-- Modelled from the spec: `graphene_simd4x4f_vec4_mul` of graphene-simd4x4f.h,
matrix times vector in the row-vector convention (section 6): the combination of
the four rows weighted by the four lanes of the vector. -/
def graphene_simd4x4f_vec4_mul (m : graphene_simd4x4f_t K) (v : graphene_simd4f_t K) :
    graphene_simd4f_t K :=
  graphene_simd4f_add
    (graphene_simd4f_add (graphene_simd4f_mul m.x (graphene_simd4f_splat v.x))
      (graphene_simd4f_mul m.y (graphene_simd4f_splat v.y)))
    (graphene_simd4f_add (graphene_simd4f_mul m.z (graphene_simd4f_splat v.z))
      (graphene_simd4f_mul m.w (graphene_simd4f_splat v.w)))

/-- Modelled from the spec: `graphene_simd4x4f_vec3_mul` of graphene-simd4x4f.h,
the 3-component transform of section 4.4: matrix times vector with implicit
w = 1, so the fourth row is added with weight 1. -/
def graphene_simd4x4f_vec3_mul (m : graphene_simd4x4f_t K) (v : graphene_simd4f_t K) :
    graphene_simd4f_t K :=
  graphene_simd4f_add
    (graphene_simd4f_add (graphene_simd4f_mul m.x (graphene_simd4f_splat v.x))
      (graphene_simd4f_mul m.y (graphene_simd4f_splat v.y)))
    (graphene_simd4f_add (graphene_simd4f_mul m.z (graphene_simd4f_splat v.z)) m.w)

/-- Modelled from the spec: `graphene_simd4x4f_matrix_mul` of graphene-simd4x4f.h,
the 4x4 multiply of section 6: row-vector convention, and the result applies
`b` first and then `a`; so each row of `b` is transformed by `a`. -/
def graphene_simd4x4f_matrix_mul (a b : graphene_simd4x4f_t K) : graphene_simd4x4f_t K :=
  ⟨graphene_simd4x4f_vec4_mul a b.x, graphene_simd4x4f_vec4_mul a b.y,
   graphene_simd4x4f_vec4_mul a b.z, graphene_simd4x4f_vec4_mul a b.w⟩

/-- The six 2x2 minors of rows x and y (columns 01, 02, 03, 12, 13, 23). -/
def minors_xy (m : graphene_simd4x4f_t K) : K × K × K × K × K × K :=
  (m.x.x * m.y.y - m.y.x * m.x.y, m.x.x * m.y.z - m.y.x * m.x.z,
   m.x.x * m.y.w - m.y.x * m.x.w, m.x.y * m.y.z - m.y.y * m.x.z,
   m.x.y * m.y.w - m.y.y * m.x.w, m.x.z * m.y.w - m.y.z * m.x.w)

/-- The six 2x2 minors of rows z and w (columns 01, 02, 03, 12, 13, 23). -/
def minors_zw (m : graphene_simd4x4f_t K) : K × K × K × K × K × K :=
  (m.z.x * m.w.y - m.w.x * m.z.y, m.z.x * m.w.z - m.w.x * m.z.z,
   m.z.x * m.w.w - m.w.x * m.z.w, m.z.y * m.w.z - m.w.y * m.z.z,
   m.z.y * m.w.w - m.w.y * m.z.w, m.z.z * m.w.w - m.w.z * m.z.w)

/-- The determinant of the four rows, by Laplace expansion along the row pairs
(x, y) and (z, w). -/
def det4 (m : graphene_simd4x4f_t K) : K :=
  match minors_xy m, minors_zw m with
  | (s0, s1, s2, s3, s4, s5), (c0, c1, c2, c3, c4, c5) =>
    s0 * c5 - s1 * c4 + s2 * c3 + s3 * c2 - s4 * c1 + s5 * c0

/-- Modelled from the spec: `graphene_simd4x4f_determinant` of graphene-simd4x4f.h,
the determinant of section 6, held in every lane of the result (the optional
second output is not requested by the matrix code). -/
def graphene_simd4x4f_determinant (m : graphene_simd4x4f_t K) : graphene_simd4f_t K :=
  graphene_simd4f_splat (det4 m)

/-- Modelled from the spec: `graphene_simd4x4f_inverse` of graphene-simd4x4f.h,
the inverse of section 6: the transposed cofactors divided by the determinant. -/
def graphene_simd4x4f_inverse (m : graphene_simd4x4f_t K) : graphene_simd4x4f_t K :=
  match minors_xy m, minors_zw m with
  | (s0, s1, s2, s3, s4, s5), (c0, c1, c2, c3, c4, c5) =>
    let n := graphene_simd4f_splat (det4 m)
    ⟨graphene_simd4f_div
       ⟨m.y.y * c5 - m.y.z * c4 + m.y.w * c3, -m.x.y * c5 + m.x.z * c4 - m.x.w * c3,
        m.w.y * s5 - m.w.z * s4 + m.w.w * s3, -m.z.y * s5 + m.z.z * s4 - m.z.w * s3⟩ n,
     graphene_simd4f_div
       ⟨-m.y.x * c5 + m.y.z * c2 - m.y.w * c1, m.x.x * c5 - m.x.z * c2 + m.x.w * c1,
        -m.w.x * s5 + m.w.z * s2 - m.w.w * s1, m.z.x * s5 - m.z.z * s2 + m.z.w * s1⟩ n,
     graphene_simd4f_div
       ⟨m.y.x * c4 - m.y.y * c2 + m.y.w * c0, -m.x.x * c4 + m.x.y * c2 - m.x.w * c0,
        m.w.x * s4 - m.w.y * s2 + m.w.w * s0, -m.z.x * s4 + m.z.y * s2 - m.z.w * s0⟩ n,
     graphene_simd4f_div
       ⟨-m.y.x * c3 + m.y.y * c1 - m.y.z * c0, m.x.x * c3 - m.x.y * c1 + m.x.z * c0,
        -m.w.x * s3 + m.w.y * s1 - m.w.z * s0, m.z.x * s3 - m.z.y * s1 + m.z.z * s0⟩ n⟩

/-- Modelled from the spec: `graphene_simd4x4f_is_identity` of graphene-simd4x4f.h,
the `isIdentity` query of section 6, exact in exact arithmetic. -/
def graphene_simd4x4f_is_identity (m : graphene_simd4x4f_t K) : Bool :=
  decide (m = graphene_simd4x4f_init_identity)

/-- Modelled from the spec: `graphene_simd4x4f_is_2d` of graphene-simd4x4f.h, the
`is2D` predicate of section 4.2 and the glossary: the third row and the third
column are those of the identity and the matrix is affine (fourth column
(0, 0, 0, 1)), exact in exact arithmetic. -/
def graphene_simd4x4f_is_2d (m : graphene_simd4x4f_t K) : Bool :=
  decide (m.x.z = 0) && decide (m.x.w = 0) &&
  decide (m.y.z = 0) && decide (m.y.w = 0) &&
  decide (m.z.x = 0) && decide (m.z.y = 0) && decide (m.z.z = 1) && decide (m.z.w = 0) &&
  decide (m.w.z = 0) && decide (m.w.w = 1)

end simd4x4f

/-! ## graphene-matrix.c -/

section matrix

variable {K : Type} [LinearOrderedField K]

/-- The glib macro `MIN`. -/
def MIN (a b : K) : K := if a < b then a else b

/-- The glib macro `MAX`. -/
def MAX (a b : K) : K := if a > b then a else b

/-- The function `graphene_matrix_init_identity`. -/
def graphene_matrix_init_identity : graphene_matrix_t K :=
  ⟨graphene_simd4x4f_init_identity⟩

/-- The function `graphene_matrix_init_from_matrix`. -/
def graphene_matrix_init_from_matrix (src : graphene_matrix_t K) : graphene_matrix_t K :=
  ⟨src.value⟩

/-- The function `graphene_matrix_init_scale`. -/
def graphene_matrix_init_scale (x y z : K) : graphene_matrix_t K :=
  ⟨graphene_simd4x4f_init (graphene_simd4f_init x 0 0 0) (graphene_simd4f_init 0 y 0 0)
    (graphene_simd4f_init 0 0 z 0) (graphene_simd4f_init 0 0 0 1)⟩

/-- The function `graphene_matrix_init_translate`. -/
def graphene_matrix_init_translate (p : graphene_point3d_t K) : graphene_matrix_t K :=
  ⟨graphene_simd4x4f_init (graphene_simd4f_init 1 0 0 0) (graphene_simd4f_init 0 1 0 0)
    (graphene_simd4f_init 0 0 1 0) (graphene_simd4f_init p.x p.y p.z 1)⟩

/-- The function `graphene_matrix_init_skew`. -/
def graphene_matrix_init_skew (L : libm K) (x_skew y_skew : K) : graphene_matrix_t K :=
  let t_x := L.tanf x_skew
  let t_y := L.tanf y_skew
  ⟨graphene_simd4x4f_init (graphene_simd4f_init 1 t_y 0 0) (graphene_simd4f_init t_x 1 0 0)
    (graphene_simd4f_init 0 0 1 0) (graphene_simd4f_init 0 0 0 1)⟩

/-- The function `graphene_matrix_is_identity`. -/
def graphene_matrix_is_identity (m : graphene_matrix_t K) : Bool :=
  graphene_simd4x4f_is_identity m.value

/-- The function `graphene_matrix_is_2d`. -/
def graphene_matrix_is_2d (m : graphene_matrix_t K) : Bool :=
  graphene_simd4x4f_is_2d m.value

/-- How a call of `graphene_matrix_get_value` ends. -/
inductive get_value_outcome (K : Type) where
  /-- The statement `return c` is reached. -/
  | returned (c : K)
  /-- A `g_return_val_if_fail` guard fails: the call returns `0.f`. -/
  | guard_failed
  /-- A `default: g_assert_not_reached ()` branch is entered. -/
  | not_reached
deriving DecidableEq

/-- The float a call of `graphene_matrix_get_value` hands to its caller (the
initial value `0.f` of `c` where no entry was read). -/
def get_value_outcome.val : get_value_outcome K → K
  | .returned c => c
  | .guard_failed => 0
  | .not_reached => 0

/-- The function `graphene_matrix_get_value`; `row` and `col` are `unsigned int`.
The second guard tests `col >= 0 && row < 4`, as the source does. -/
def graphene_matrix_get_value (m : graphene_matrix_t K) (row col : Nat) :
    get_value_outcome K :=
  if ¬ (row ≥ 0 ∧ row < 4) then .guard_failed
  else if ¬ (col ≥ 0 ∧ row < 4) then .guard_failed
  else
    match (match row with
      | 0 => some m.value.x
      | 1 => some m.value.y
      | 2 => some m.value.z
      | 3 => some m.value.w
      | _ => none) with
    | none => .not_reached
    | some r =>
      match col with
      | 0 => .returned (graphene_simd4f_get_x r)
      | 1 => .returned (graphene_simd4f_get_y r)
      | 2 => .returned (graphene_simd4f_get_z r)
      | 3 => .returned (graphene_simd4f_get_w r)
      | _ => .not_reached

/-- The function `graphene_matrix_multiply`. -/
def graphene_matrix_multiply (a b : graphene_matrix_t K) : graphene_matrix_t K :=
  ⟨graphene_simd4x4f_matrix_mul a.value b.value⟩

/-- The function `graphene_matrix_determinant`. -/
def graphene_matrix_determinant (m : graphene_matrix_t K) : K :=
  let det := graphene_simd4x4f_determinant m.value
  graphene_simd4f_get_x det

/-- The function `graphene_matrix_is_singular`. -/
def graphene_matrix_is_singular (m : graphene_matrix_t K) : Bool :=
  decide (graphene_matrix_determinant m = 0)

/-- The function `graphene_matrix_transform_vec3`. -/
def graphene_matrix_transform_vec3 (m : graphene_matrix_t K) (v : graphene_vec3_t K) :
    graphene_vec3_t K :=
  ⟨graphene_simd4x4f_vec3_mul m.value v.value⟩

/-- The function `graphene_matrix_transform_vec4`. -/
def graphene_matrix_transform_vec4 (m : graphene_matrix_t K) (v : graphene_vec4_t K) :
    graphene_vec4_t K :=
  ⟨graphene_simd4x4f_vec4_mul m.value v.value⟩

/-- The function `graphene_matrix_transform_point`. -/
def graphene_matrix_transform_point (m : graphene_matrix_t K) (p : graphene_point_t K) :
    graphene_point_t K :=
  let vec3 := graphene_simd4f_init p.x p.y 0 0
  let vec3 := graphene_simd4x4f_vec3_mul m.value vec3
  ⟨graphene_simd4f_get_x vec3, graphene_simd4f_get_y vec3⟩

/-- The function `graphene_matrix_transform_rect`. -/
def graphene_matrix_transform_rect (m : graphene_matrix_t K) (r : graphene_rect_t K) :
    graphene_quad_t K :=
  let points0 := graphene_rect_get_top_left r
  let points1 := graphene_rect_get_top_right r
  let points2 := graphene_rect_get_bottom_right r
  let points3 := graphene_rect_get_bottom_left r
  let ret0 := graphene_matrix_transform_point m points0
  let ret1 := graphene_matrix_transform_point m points1
  let ret2 := graphene_matrix_transform_point m points2
  let ret3 := graphene_matrix_transform_point m points3
  graphene_quad_init ret0 ret1 ret2 ret3

/-- The loop `for (i = 1; i < 4; i += 1)` shared by the two bounds functions,
unrolled, followed by the final `graphene_rect_init`. -/
def bounds_of_points (ret0 ret1 ret2 ret3 : graphene_point_t K) : graphene_rect_t K :=
  let min_x := ret0.x
  let max_x := ret0.x
  let min_y := ret0.y
  let max_y := ret0.y
  let min_x := MIN ret1.x min_x
  let min_y := MIN ret1.y min_y
  let max_x := MAX ret1.x max_x
  let max_y := MAX ret1.y max_y
  let min_x := MIN ret2.x min_x
  let min_y := MIN ret2.y min_y
  let max_x := MAX ret2.x max_x
  let max_y := MAX ret2.y max_y
  let min_x := MIN ret3.x min_x
  let min_y := MIN ret3.y min_y
  let max_x := MAX ret3.x max_x
  let max_y := MAX ret3.y max_y
  graphene_rect_init min_x min_y (max_x - min_x) (max_y - min_y)

/-- The function `graphene_matrix_transform_bounds`. -/
def graphene_matrix_transform_bounds (m : graphene_matrix_t K) (r : graphene_rect_t K) :
    graphene_rect_t K :=
  let points0 := graphene_rect_get_top_left r
  let points1 := graphene_rect_get_top_right r
  let points2 := graphene_rect_get_bottom_left r
  let points3 := graphene_rect_get_bottom_right r
  let ret0 := graphene_matrix_transform_point m points0
  let ret1 := graphene_matrix_transform_point m points1
  let ret2 := graphene_matrix_transform_point m points2
  let ret3 := graphene_matrix_transform_point m points3
  bounds_of_points ret0 ret1 ret2 ret3

/-- The function `graphene_matrix_project_point`. -/
def graphene_matrix_project_point (m : graphene_matrix_t K) (p : graphene_point_t K) :
    graphene_point_t K :=
  let pa := graphene_vec3_init p.x p.y 0
  let qa := graphene_vec3_init p.x p.y 1
  let pback := graphene_matrix_transform_vec3 m pa
  let qback := graphene_matrix_transform_vec3 m qa
  let uback := graphene_vec3_subtract qback pback
  let p_z := graphene_vec3_get_z pback
  let u_z := graphene_vec3_get_z uback
  let t := -p_z / u_z
  graphene_point_init (graphene_vec3_get_x pback + t * graphene_vec3_get_x uback)
    (graphene_vec3_get_y pback + t * graphene_vec3_get_y uback)

/-- The function `graphene_matrix_project_rect_bounds`. -/
def graphene_matrix_project_rect_bounds (m : graphene_matrix_t K) (r : graphene_rect_t K) :
    graphene_rect_t K :=
  let points0 := graphene_rect_get_top_left r
  let points1 := graphene_rect_get_top_right r
  let points2 := graphene_rect_get_bottom_left r
  let points3 := graphene_rect_get_bottom_right r
  let ret0 := graphene_matrix_project_point m points0
  let ret1 := graphene_matrix_project_point m points1
  let ret2 := graphene_matrix_project_point m points2
  let ret3 := graphene_matrix_project_point m points3
  bounds_of_points ret0 ret1 ret2 ret3

/-- The function `graphene_matrix_inverse`. -/
def graphene_matrix_inverse (m : graphene_matrix_t K) : graphene_matrix_t K :=
  ⟨graphene_simd4x4f_inverse m.value⟩

/-- The function `graphene_matrix_untransform_point`: the returned flag, and the
contents of `*res` after the call given its contents `res` before the call. -/
def graphene_matrix_untransform_point (m : graphene_matrix_t K) (p : graphene_point_t K)
    (bounds : graphene_rect_t K) (res : graphene_point_t K) : Bool × graphene_point_t K :=
  if graphene_matrix_is_2d m then
    let inverse := graphene_matrix_inverse m
    (true, graphene_matrix_transform_point inverse p)
  else
    let bounds_t := graphene_matrix_transform_bounds m bounds
    if !graphene_rect_contains_point bounds_t p then (false, res)
    else
      let inverse := graphene_matrix_inverse m
      (true, graphene_matrix_project_point inverse p)

/-- The function `graphene_matrix_translate`, mutating `m` in place. -/
def graphene_matrix_translate (m : graphene_matrix_t K) (pos : graphene_point3d_t K) :
    graphene_matrix_t K :=
  let trans_m := graphene_simd4x4f_translation pos.x pos.y pos.z
  ⟨graphene_simd4x4f_matrix_mul trans_m m.value⟩

/-- The function `graphene_matrix_scale`, mutating `m` in place. -/
def graphene_matrix_scale (m : graphene_matrix_t K) (factor_x factor_y factor_z : K) :
    graphene_matrix_t K :=
  let scale_m := graphene_simd4x4f_scale factor_x factor_y factor_z
  ⟨graphene_simd4x4f_matrix_mul scale_m m.value⟩

/-- The function `graphene_matrix_skew_xy`, mutating `m` in place. -/
def graphene_matrix_skew_xy (m : graphene_matrix_t K) (factor : K) : graphene_matrix_t K :=
  let m_x := m.value.x
  let m_y := m.value.y
  ⟨⟨m.value.x,
    graphene_simd4f_add m_y (graphene_simd4f_mul m_x (graphene_simd4f_splat factor)),
    m.value.z, m.value.w⟩⟩

/-- The function `graphene_matrix_skew_xz`, mutating `m` in place. -/
def graphene_matrix_skew_xz (m : graphene_matrix_t K) (factor : K) : graphene_matrix_t K :=
  let m_x := m.value.x
  let m_z := m.value.z
  ⟨⟨m.value.x, m.value.y,
    graphene_simd4f_add m_z (graphene_simd4f_mul m_x (graphene_simd4f_splat factor)),
    m.value.w⟩⟩

/-- The function `graphene_matrix_skew_yz`, mutating `m` in place. -/
def graphene_matrix_skew_yz (m : graphene_matrix_t K) (factor : K) : graphene_matrix_t K :=
  let m_y := m.value.y
  let m_z := m.value.z
  ⟨⟨m.value.x, m.value.y,
    graphene_simd4f_add m_z (graphene_simd4f_mul m_y (graphene_simd4f_splat factor)),
    m.value.w⟩⟩

/-- The function `graphene_matrix_transpose_transform_vec4`. -/
def graphene_matrix_transpose_transform_vec4 (m : graphene_matrix_t K)
    (v : graphene_vec4_t K) : graphene_vec4_t K :=
  let x := graphene_simd4f_get_x (graphene_simd4f_sum (graphene_simd4f_mul m.value.x v.value))
  let y := graphene_simd4f_get_x (graphene_simd4f_sum (graphene_simd4f_mul m.value.y v.value))
  let z := graphene_simd4f_get_x (graphene_simd4f_sum (graphene_simd4f_mul m.value.z v.value))
  let w := graphene_simd4f_get_x (graphene_simd4f_sum (graphene_simd4f_mul m.value.w v.value))
  graphene_vec4_init x y z w

/-- The function `graphene_matrix_normalize`. -/
def graphene_matrix_normalize (m : graphene_matrix_t K) : graphene_matrix_t K :=
  let ww := (graphene_matrix_get_value m 3 3).val
  let n := graphene_simd4f_splat ww
  ⟨⟨graphene_simd4f_div m.value.x n, graphene_simd4f_div m.value.y n,
    graphene_simd4f_div m.value.z n, graphene_simd4f_div m.value.w n⟩⟩

/-- The call `graphene_matrix_normalize (m, res)` on the memory of the caller,
statement by statement: the contents of `*m` and of `*res` after the call,
given their contents before it.  With `aliased` the two pointers are the same,
as in the call `graphene_matrix_normalize (&local, &local)` of
`matrix_decompose_3d`: `*res` is then `*m`, and every write through `res`
changes what is read through `m` afterwards. -/
def graphene_matrix_normalize_call (aliased : Bool) (m res : graphene_matrix_t K) :
    graphene_matrix_t K × graphene_matrix_t K :=
  let res := if aliased then m else res
  let ww := (graphene_matrix_get_value m 3 3).val
  let n := graphene_simd4f_splat ww
  let res : graphene_matrix_t K :=
    ⟨⟨graphene_simd4f_div m.value.x n, res.value.y, res.value.z, res.value.w⟩⟩
  let m := if aliased then res else m
  let res : graphene_matrix_t K :=
    ⟨⟨res.value.x, graphene_simd4f_div m.value.y n, res.value.z, res.value.w⟩⟩
  let m := if aliased then res else m
  let res : graphene_matrix_t K :=
    ⟨⟨res.value.x, res.value.y, graphene_simd4f_div m.value.z n, res.value.w⟩⟩
  let m := if aliased then res else m
  let res : graphene_matrix_t K :=
    ⟨⟨res.value.x, res.value.y, res.value.z, graphene_simd4f_div m.value.w n⟩⟩
  let m := if aliased then res else m
  (m, res)

/-- The function `graphene_matrix_untransform_bounds`.  The collaborator
`graphene_rect_intersection` of graphene-rect.c is a parameter: it gives the
returned flag and the rectangle it stores in its out parameter. -/
def graphene_matrix_untransform_bounds
    (graphene_rect_intersection : graphene_rect_t K → graphene_rect_t K →
      Bool × graphene_rect_t K)
    (m : graphene_matrix_t K) (r : graphene_rect_t K) (bounds : graphene_rect_t K) :
    graphene_rect_t K :=
  if graphene_matrix_is_2d m then
    let inverse := graphene_matrix_inverse m
    graphene_matrix_transform_bounds inverse r
  else
    let bounds_t := graphene_matrix_transform_bounds m bounds
    let i := graphene_rect_intersection r bounds_t
    if !i.1 then graphene_rect_init 0 0 0 0
    else
      let rect := i.2
      let inverse := graphene_matrix_inverse m
      graphene_matrix_project_rect_bounds inverse rect

/-! ### Decomposition and interpolation -/

/-- The array `float shear_r[3]`, indexed by `XY_SHEAR` (0), `XZ_SHEAR` (1) and
`YZ_SHEAR` (2). -/
structure shear_array (K : Type) where
  xy_shear : K
  xz_shear : K
  yz_shear : K
deriving DecidableEq

/-- The four out parameters of `matrix_decompose_2d`. -/
structure decompose_2d_out (K : Type) where
  scale_r : graphene_point3d_t K
  shear_r : shear_array K
  rotate_r : graphene_quaternion_t K
  translate_r : graphene_point3d_t K
deriving DecidableEq

/-- The five out parameters of `matrix_decompose_3d`. -/
structure decompose_3d_out (K : Type) where
  scale_r : graphene_point3d_t K
  shear_r : shear_array K
  rotate_r : graphene_quaternion_t K
  translate_r : graphene_point3d_t K
  perspective_r : graphene_vec4_t K
deriving DecidableEq

/-- The function `matrix_decompose_2d`: the returned flag, and the contents of the
out parameters after the call given their contents `o` before the call. -/
def matrix_decompose_2d (L : libm K) (m : graphene_matrix_t K) (o : decompose_2d_out K) :
    Bool × decompose_2d_out K :=
  let A := (graphene_matrix_get_value m 0 0).val
  let B := (graphene_matrix_get_value m 1 0).val
  let C := (graphene_matrix_get_value m 0 1).val
  let D := (graphene_matrix_get_value m 1 1).val
  if A * D = B * C then (false, o)
  else
    let scale_x := L.sqrtf (A * A + B * B)
    let A := A / scale_x
    let B := B / scale_x
    let shear_xy := A * C + B * D
    let C := C - A * shear_xy
    let D := D - B * shear_xy
    let scale_y := L.sqrtf (C * C + D * D)
    let C := C / scale_y
    let D := D / scale_y
    let shear_xy := shear_xy / scale_y
    let flip : Bool := decide (A * D < B * C)
    let A := if flip then -A else A
    let B := if flip then -B else B
    let _C := if flip then -C else C
    let _D := if flip then -D else D
    let shear_xy := if flip then -shear_xy else shear_xy
    let scale_x := if flip then -scale_x else scale_x
    let rotate := L.atan2f B A
    let rotate_r := graphene_quaternion_init 0 0 (L.sin (rotate / 2)) (L.cos (rotate / 2))
    let shear_r : shear_array K := ⟨shear_xy, o.shear_r.xz_shear, o.shear_r.yz_shear⟩
    let scale_r := graphene_point3d_init scale_x scale_y 1
    let translate_r :=
      graphene_point3d_init (graphene_matrix_get_value m 3 0).val
        (graphene_matrix_get_value m 3 1).val 0
    (true, ⟨scale_r, shear_r, rotate_r, translate_r⟩)

/-- The function `matrix_decompose_3d`: the returned flag, and the contents of the
out parameters after the call given their contents `o` before the call.  The
three `graphene_simd4f_mul` calls of the flip branch discard their result and
leave the rows as they are. -/
def matrix_decompose_3d (L : libm K) (Q : quaternion_ops K) (m : graphene_matrix_t K)
    (o : decompose_3d_out K) : Bool × decompose_3d_out K :=
  if (graphene_matrix_get_value m 3 3).val = 0 then (false, o)
  else
    let local_m := graphene_matrix_normalize m
    let perspective : graphene_matrix_t K :=
      ⟨⟨local_m.value.x, local_m.value.y, local_m.value.z, graphene_simd4f_init 0 0 0 1⟩⟩
    if graphene_matrix_determinant perspective = 0 then (false, o)
    else
      let isolate : Bool := graphene_simd4f_is_zero3 local_m.value.w
      let perspective_r : graphene_vec4_t K :=
        if isolate then
          let tmp := graphene_matrix_inverse perspective
          graphene_matrix_transpose_transform_vec4 tmp ⟨local_m.value.w⟩
        else graphene_vec4_init 0 0 0 1
      let local_w := if isolate then graphene_simd4f_init 0 0 0 1 else local_m.value.w
      let translate_r : graphene_point3d_t K :=
        ⟨graphene_simd4f_get_x local_w, graphene_simd4f_get_y local_w,
         graphene_simd4f_get_z local_w⟩
      let local_w := graphene_simd4f_init 0 0 0 (graphene_simd4f_get_w local_w)
      let scale_x := graphene_simd4f_get_x (graphene_simd4f_length4 L local_m.value.x)
      let local_x := graphene_simd4f_div local_m.value.x (graphene_simd4f_splat scale_x)
      let shear_xy := graphene_simd4f_get_x (graphene_simd4f_dot4 local_x local_m.value.y)
      let local_y :=
        graphene_simd4f_sub local_m.value.y
          (graphene_simd4f_mul local_x (graphene_simd4f_splat shear_xy))
      let scale_y := graphene_simd4f_get_x (graphene_simd4f_length4 L local_y)
      let local_y := graphene_simd4f_div local_y (graphene_simd4f_splat scale_y)
      let shear_xy := shear_xy / scale_y
      let shear_xz := graphene_simd4f_get_x (graphene_simd4f_dot4 local_x local_m.value.z)
      let local_z :=
        graphene_simd4f_sub local_m.value.z
          (graphene_simd4f_mul local_x (graphene_simd4f_splat shear_xz))
      let shear_yz := graphene_simd4f_get_x (graphene_simd4f_dot4 local_y local_z)
      let local_z :=
        graphene_simd4f_sub local_z (graphene_simd4f_mul local_y (graphene_simd4f_splat shear_yz))
      let scale_z := graphene_simd4f_get_x (graphene_simd4f_length4 L local_z)
      let local_z := graphene_simd4f_div local_z (graphene_simd4f_splat scale_z)
      let shear_xz := shear_xz / scale_z
      let shear_yz := shear_yz / scale_z
      let shear_r : shear_array K := ⟨shear_xy, shear_xz, shear_yz⟩
      let dot := graphene_simd4f_cross3 local_y local_z
      let cross := graphene_simd4f_dot4 local_x dot
      let flip : Bool := decide (graphene_simd4f_get_x cross < 0)
      let scale_x := if flip then scale_x * (-1) else scale_x
      let scale_y := if flip then scale_y * (-1) else scale_y
      let scale_z := if flip then scale_z * (-1) else scale_z
      let scale_r := graphene_point3d_init scale_x scale_y scale_z
      let rotate_r := Q.graphene_quaternion_init_from_matrix ⟨⟨local_x, local_y, local_z, local_w⟩⟩
      (true, ⟨scale_r, shear_r, rotate_r, translate_r, perspective_r⟩)

/-- The locals of `matrix_decompose_3d` where its comment says `at this point,
the matrix is orthonormal`, on the path on which both checks have passed: the
four rows of `local`, the three scale factors and the three shear factors. -/
structure decompose_3d_locals (K : Type) where
  local_x : graphene_simd4f_t K
  local_y : graphene_simd4f_t K
  local_z : graphene_simd4f_t K
  local_w : graphene_simd4f_t K
  scale_x : K
  scale_y : K
  scale_z : K
  shear_xy : K
  shear_xz : K
  shear_yz : K

/-- The statements of `matrix_decompose_3d` from `local = *m` to the assignment
of `shear_r[YZ_SHEAR]`, without the two early returns and without the writes to
`perspective_r` and `translate_r`: the values of the locals after them. -/
def matrix_decompose_3d_locals (L : libm K) (m : graphene_matrix_t K) :
    decompose_3d_locals K :=
  let local_m := graphene_matrix_normalize m
  let isolate : Bool := graphene_simd4f_is_zero3 local_m.value.w
  let local_w := if isolate then graphene_simd4f_init 0 0 0 1 else local_m.value.w
  let local_w := graphene_simd4f_init 0 0 0 (graphene_simd4f_get_w local_w)
  let scale_x := graphene_simd4f_get_x (graphene_simd4f_length4 L local_m.value.x)
  let local_x := graphene_simd4f_div local_m.value.x (graphene_simd4f_splat scale_x)
  let shear_xy := graphene_simd4f_get_x (graphene_simd4f_dot4 local_x local_m.value.y)
  let local_y :=
    graphene_simd4f_sub local_m.value.y
      (graphene_simd4f_mul local_x (graphene_simd4f_splat shear_xy))
  let scale_y := graphene_simd4f_get_x (graphene_simd4f_length4 L local_y)
  let local_y := graphene_simd4f_div local_y (graphene_simd4f_splat scale_y)
  let shear_xy := shear_xy / scale_y
  let shear_xz := graphene_simd4f_get_x (graphene_simd4f_dot4 local_x local_m.value.z)
  let local_z :=
    graphene_simd4f_sub local_m.value.z
      (graphene_simd4f_mul local_x (graphene_simd4f_splat shear_xz))
  let shear_yz := graphene_simd4f_get_x (graphene_simd4f_dot4 local_y local_z)
  let local_z :=
    graphene_simd4f_sub local_z (graphene_simd4f_mul local_y (graphene_simd4f_splat shear_yz))
  let scale_z := graphene_simd4f_get_x (graphene_simd4f_length4 L local_z)
  let local_z := graphene_simd4f_div local_z (graphene_simd4f_splat scale_z)
  let shear_xz := shear_xz / scale_z
  let shear_yz := shear_yz / scale_z
  ⟨local_x, local_y, local_z, local_w, scale_x, scale_y, scale_z, shear_xy, shear_xz, shear_yz⟩

/-- The memory that `graphene_matrix_interpolate` reads without having written
it: the locals declared without an initialiser that a decomposition may leave
untouched, and the matrix `*res` of the caller. -/
structure interpolate_frame (K : Type) where
  translate_a : graphene_point3d_t K
  perspective_a : graphene_vec4_t K
  rotate_a : graphene_quaternion_t K
  translate_b : graphene_point3d_t K
  perspective_b : graphene_vec4_t K
  rotate_b : graphene_quaternion_t K
  res : graphene_matrix_t K

/-- The decomposition step of `graphene_matrix_interpolate` (the `if`/`else` on
`graphene_matrix_is_2d`): the values of the locals `scale`, `shear`, `rotate`,
`translate` and `perspective` of either input after it.  The flags returned by
the decomposition functions are dropped, as in the source. -/
def interpolate_decompose (L : libm K) (Q : quaternion_ops K) (a b : graphene_matrix_t K)
    (u : interpolate_frame K) : decompose_3d_out K × decompose_3d_out K :=
  let scale_a : graphene_point3d_t K := ⟨1, 1, 1⟩
  let shear_a : shear_array K := ⟨0, 0, 0⟩
  let scale_b : graphene_point3d_t K := ⟨1, 1, 1⟩
  let shear_b : shear_array K := ⟨0, 0, 0⟩
  if graphene_matrix_is_2d a && graphene_matrix_is_2d b then
    let perspective_a : graphene_vec4_t K := graphene_vec4_init 0 0 0 1
    let perspective_b : graphene_vec4_t K := graphene_vec4_init 0 0 0 1
    let da := (matrix_decompose_2d L a ⟨scale_a, shear_a, u.rotate_a, u.translate_a⟩).2
    let db := (matrix_decompose_2d L b ⟨scale_b, shear_b, u.rotate_b, u.translate_b⟩).2
    (⟨da.scale_r, da.shear_r, da.rotate_r, da.translate_r, perspective_a⟩,
     ⟨db.scale_r, db.shear_r, db.rotate_r, db.translate_r, perspective_b⟩)
  else
    ((matrix_decompose_3d L Q a
        ⟨scale_a, shear_a, u.rotate_a, u.translate_a, u.perspective_a⟩).2,
     (matrix_decompose_3d L Q b
        ⟨scale_b, shear_b, u.rotate_b, u.translate_b, u.perspective_b⟩).2)

/-- The recomposition of `graphene_matrix_interpolate` from the assignment of
`res->value.w` up to and including the three skews, given the decomposed locals
and the contents `res` of the result matrix before the call. -/
def interpolate_unscaled (Q : quaternion_ops K) (da db : decompose_3d_out K) (factor : K)
    (res : graphene_matrix_t K) : graphene_matrix_t K :=
  let res : graphene_matrix_t K :=
    ⟨⟨res.value.x, res.value.y, res.value.z,
      graphene_simd4f_interpolate da.perspective_r.value db.perspective_r.value factor⟩⟩
  let translate_r := graphene_point3d_interpolate da.translate_r db.translate_r factor
  let res := graphene_matrix_translate res translate_r
  let rotate_r := Q.graphene_quaternion_slerp da.rotate_r db.rotate_r factor
  let tmp := Q.graphene_quaternion_to_matrix rotate_r
  let res := if !graphene_matrix_is_identity tmp then graphene_matrix_multiply tmp res else res
  let shear := da.shear_r.yz_shear + (db.shear_r.yz_shear - da.shear_r.yz_shear) * factor
  let res := if shear ≠ 0 then graphene_matrix_skew_yz res shear else res
  let shear := da.shear_r.xz_shear + (db.shear_r.xz_shear - da.shear_r.xz_shear) * factor
  let res := if shear ≠ 0 then graphene_matrix_skew_xz res shear else res
  let shear := da.shear_r.xy_shear + (db.shear_r.xy_shear - da.shear_r.xy_shear) * factor
  if shear ≠ 0 then graphene_matrix_skew_xy res shear else res

/-- The recomposition step of `graphene_matrix_interpolate`: the steps of
`interpolate_unscaled`, then the guarded scale. -/
def interpolate_recompose (Q : quaternion_ops K) (da db : decompose_3d_out K) (factor : K)
    (res : graphene_matrix_t K) : graphene_matrix_t K :=
  let res := interpolate_unscaled Q da db factor res
  let scale_r := graphene_point3d_interpolate da.scale_r db.scale_r factor
  if scale_r.x ≠ 1 ∧ scale_r.y ≠ 1 ∧ scale_r.z ≠ 1 then
    graphene_matrix_scale res scale_r.x scale_r.y scale_r.z
  else res

/-- The function `graphene_matrix_interpolate`: the contents of `*res` after the
call, given the memory `u` that the function reads without having written it. -/
def graphene_matrix_interpolate (L : libm K) (Q : quaternion_ops K)
    (a b : graphene_matrix_t K) (factor : K) (u : interpolate_frame K) :
    graphene_matrix_t K :=
  let d := interpolate_decompose L Q a b u
  interpolate_recompose Q d.1 d.2 factor u.res

end matrix

/-! ## The arithmetic of `float` -/

/-- The integer nearest to the quotient n / d of two natural numbers, and the
even one of the two nearest integers when the quotient lies halfway between
them. -/
def round_half_even (n d : Nat) : Nat :=
  let q := n / d
  let r := n % d
  if 2 * r < d then q else if d < 2 * r then q + 1 else if q % 2 = 0 then q else q + 1

/-- The greatest k with 2 ^ k ≤ n, for n ≥ 1, by at most `fuel` halvings. -/
def floor_log2 : Nat → Nat → Nat
  | 0, _ => 0
  | fuel + 1, n => if n < 2 then 0 else floor_log2 fuel (n / 2) + 1

/-- The rounding of the exact result of an arithmetic operation to the C type
`float`, IEEE 754 binary32 in the default rounding mode: the nearest number
m * 2 ^ e with a significand m of at most 24 bits and an exponent e of at least
-149, and the one with the even significand when two are nearest.  Here `fl` is
the exponent of the leading bit of |q|, and `e` the exponent of the last bit
kept.  Results of magnitude 2 ^ 128 and more, which a float operation turns
into an infinity, are outside the model. -/
def round_f32 (q : ℚ) : ℚ :=
  let n := q.num.natAbs
  let d := q.den
  if n = 0 then 0
  else
    let lg : Int := (floor_log2 n n : Int) - (floor_log2 d d : Int)
    let fl : Int := if d * 2 ^ lg.toNat ≤ n * 2 ^ (-lg).toNat then lg else lg - 1
    let e : Int := max (fl - 23) (-149)
    let m := round_half_even (n * 2 ^ (-e).toNat) (d * 2 ^ e.toNat)
    mkRat (q.num.sign * (m * 2 ^ e.toNat : Nat)) (2 ^ (-e).toNat)

/-- Whether a rational is a float: `round_f32` leaves it as it is. -/
def is_f32 (q : ℚ) : Bool := decide (round_f32 q = q)

/-- Whether the 16 entries of a matrix are floats. -/
def is_f32_matrix (m : graphene_matrix_t ℚ) : Bool :=
  is_f32 m.value.x.x && is_f32 m.value.x.y && is_f32 m.value.x.z && is_f32 m.value.x.w &&
  is_f32 m.value.y.x && is_f32 m.value.y.y && is_f32 m.value.y.z && is_f32 m.value.y.w &&
  is_f32 m.value.z.x && is_f32 m.value.z.y && is_f32 m.value.z.z && is_f32 m.value.z.w &&
  is_f32 m.value.w.x && is_f32 m.value.w.y && is_f32 m.value.w.z && is_f32 m.value.w.w

/-- Whether the origin and the size of a rectangle are floats. -/
def is_f32_rect (r : graphene_rect_t ℚ) : Bool :=
  is_f32 r.origin.x && is_f32 r.origin.y && is_f32 r.size.width && is_f32 r.size.height

namespace rounded

variable {K : Type} [LinearOrderedField K]

/-- Modelled from the spec: `graphene_simd4f_add` of graphene-simd4f.h,
elementwise addition (section 6), each lane rounded by `fl`. -/
def graphene_simd4f_add (fl : K → K) (a b : graphene_simd4f_t K) : graphene_simd4f_t K :=
  ⟨fl (a.x + b.x), fl (a.y + b.y), fl (a.z + b.z), fl (a.w + b.w)⟩

/-- Modelled from the spec: `graphene_simd4f_mul` of graphene-simd4f.h,
elementwise multiplication (section 6), each lane rounded by `fl`. -/
def graphene_simd4f_mul (fl : K → K) (a b : graphene_simd4f_t K) : graphene_simd4f_t K :=
  ⟨fl (a.x * b.x), fl (a.y * b.y), fl (a.z * b.z), fl (a.w * b.w)⟩

/-- Modelled from the spec: `graphene_simd4x4f_vec3_mul` of graphene-simd4x4f.h,
the 3-component transform of section 4.4 with implicit w = 1, every product and
every sum rounded by `fl`. -/
def graphene_simd4x4f_vec3_mul (fl : K → K) (m : graphene_simd4x4f_t K)
    (v : graphene_simd4f_t K) : graphene_simd4f_t K :=
  graphene_simd4f_add fl
    (graphene_simd4f_add fl (graphene_simd4f_mul fl m.x (graphene_simd4f_splat v.x))
      (graphene_simd4f_mul fl m.y (graphene_simd4f_splat v.y)))
    (graphene_simd4f_add fl (graphene_simd4f_mul fl m.z (graphene_simd4f_splat v.z)) m.w)

/-- Modelled from the spec: `graphene_rect_get_top_right` of graphene-rect.c,
the corner TR of section 4.4, the sum rounded by `fl`. -/
def graphene_rect_get_top_right (fl : K → K) (r : graphene_rect_t K) : graphene_point_t K :=
  ⟨fl (r.origin.x + r.size.width), r.origin.y⟩

/-- Modelled from the spec: `graphene_rect_get_bottom_right` of graphene-rect.c,
the corner BR of section 4.4, the sums rounded by `fl`. -/
def graphene_rect_get_bottom_right (fl : K → K) (r : graphene_rect_t K) : graphene_point_t K :=
  ⟨fl (r.origin.x + r.size.width), fl (r.origin.y + r.size.height)⟩

/-- Modelled from the spec: `graphene_rect_get_bottom_left` of graphene-rect.c,
the corner BL of section 4.4, the sum rounded by `fl`. -/
def graphene_rect_get_bottom_left (fl : K → K) (r : graphene_rect_t K) : graphene_point_t K :=
  ⟨r.origin.x, fl (r.origin.y + r.size.height)⟩

/-- The function `graphene_matrix_transform_point`, in arithmetic rounded by
`fl`. -/
def graphene_matrix_transform_point (fl : K → K) (m : graphene_matrix_t K)
    (p : graphene_point_t K) : graphene_point_t K :=
  let vec3 := graphene_simd4f_init p.x p.y 0 0
  let vec3 := graphene_simd4x4f_vec3_mul fl m.value vec3
  ⟨graphene_simd4f_get_x vec3, graphene_simd4f_get_y vec3⟩

/-- The function `graphene_matrix_transform_rect`, in arithmetic rounded by
`fl`. -/
def graphene_matrix_transform_rect (fl : K → K) (m : graphene_matrix_t K)
    (r : graphene_rect_t K) : graphene_quad_t K :=
  let points0 := graphene_rect_get_top_left r
  let points1 := graphene_rect_get_top_right fl r
  let points2 := graphene_rect_get_bottom_right fl r
  let points3 := graphene_rect_get_bottom_left fl r
  let ret0 := graphene_matrix_transform_point fl m points0
  let ret1 := graphene_matrix_transform_point fl m points1
  let ret2 := graphene_matrix_transform_point fl m points2
  let ret3 := graphene_matrix_transform_point fl m points3
  graphene_quad_init ret0 ret1 ret2 ret3

/-- The loop `for (i = 1; i < 4; i += 1)` of the bounds functions, unrolled,
followed by the final `graphene_rect_init`, whose two differences are rounded
by `fl`; the comparisons of `MIN` and `MAX` do not round. -/
def bounds_of_points (fl : K → K) (ret0 ret1 ret2 ret3 : graphene_point_t K) :
    graphene_rect_t K :=
  let min_x := ret0.x
  let max_x := ret0.x
  let min_y := ret0.y
  let max_y := ret0.y
  let min_x := MIN ret1.x min_x
  let min_y := MIN ret1.y min_y
  let max_x := MAX ret1.x max_x
  let max_y := MAX ret1.y max_y
  let min_x := MIN ret2.x min_x
  let min_y := MIN ret2.y min_y
  let max_x := MAX ret2.x max_x
  let max_y := MAX ret2.y max_y
  let min_x := MIN ret3.x min_x
  let min_y := MIN ret3.y min_y
  let max_x := MAX ret3.x max_x
  let max_y := MAX ret3.y max_y
  graphene_rect_init min_x min_y (fl (max_x - min_x)) (fl (max_y - min_y))

/-- The function `graphene_matrix_transform_bounds`, in arithmetic rounded by
`fl`. -/
def graphene_matrix_transform_bounds (fl : K → K) (m : graphene_matrix_t K)
    (r : graphene_rect_t K) : graphene_rect_t K :=
  let points0 := graphene_rect_get_top_left r
  let points1 := graphene_rect_get_top_right fl r
  let points2 := graphene_rect_get_bottom_left fl r
  let points3 := graphene_rect_get_bottom_right fl r
  let ret0 := graphene_matrix_transform_point fl m points0
  let ret1 := graphene_matrix_transform_point fl m points1
  let ret2 := graphene_matrix_transform_point fl m points2
  let ret3 := graphene_matrix_transform_point fl m points3
  bounds_of_points fl ret0 ret1 ret2 ret3

/-- The function `graphene_matrix_skew_xz`, mutating `m` in place, in arithmetic
rounded by `fl`. -/
def graphene_matrix_skew_xz (fl : K → K) (m : graphene_matrix_t K) (factor : K) :
    graphene_matrix_t K :=
  let m_x := m.value.x
  let m_z := m.value.z
  ⟨⟨m.value.x, m.value.y,
    graphene_simd4f_add fl m_z (graphene_simd4f_mul fl m_x (graphene_simd4f_splat factor)),
    m.value.w⟩⟩

/-- The function `graphene_matrix_skew_yz`, mutating `m` in place, in arithmetic
rounded by `fl`. -/
def graphene_matrix_skew_yz (fl : K → K) (m : graphene_matrix_t K) (factor : K) :
    graphene_matrix_t K :=
  let m_y := m.value.y
  let m_z := m.value.z
  ⟨⟨m.value.x, m.value.y,
    graphene_simd4f_add fl m_z (graphene_simd4f_mul fl m_y (graphene_simd4f_splat factor)),
    m.value.w⟩⟩

end rounded

/-! ## Readings of the specification, and concrete collaborators -/

section readings

variable {K : Type} [LinearOrderedField K]

/-- The matrix `perspectiveCheck` as the specification words it (section 4.2,
3D path, step 2): every entry of the first three rows divided by the (3,3)
entry, the fourth row forced to (0, 0, 0, 1). -/
def perspectiveCheck (m : graphene_matrix_t K) : graphene_matrix_t K :=
  let ww := m.value.w.w
  ⟨⟨⟨m.value.x.x / ww, m.value.x.y / ww, m.value.x.z / ww, m.value.x.w / ww⟩,
    ⟨m.value.y.x / ww, m.value.y.y / ww, m.value.y.z / ww, m.value.y.w / ww⟩,
    ⟨m.value.z.x / ww, m.value.z.y / ww, m.value.z.z / ww, m.value.z.w / ww⟩,
    ⟨0, 0, 0, 1⟩⟩⟩

/-- The 4-component dot product of two rows, as a number. -/
def dot4 (a b : graphene_simd4f_t K) : K :=
  a.x * b.x + a.y * b.y + a.z * b.z + a.w * b.w

/-- The triple product dot(x, cross(y, z)) that `matrix_decompose_3d` tests for a
coordinate-system flip. -/
def triple_product (x y z : graphene_simd4f_t K) : K :=
  graphene_simd4f_get_x (graphene_simd4f_dot4 x (graphene_simd4f_cross3 y z))

/-- The reflection that swaps the x and y axes. -/
def swap_example : graphene_matrix_t K :=
  ⟨⟨⟨0, 1, 0, 0⟩, ⟨1, 0, 0, 0⟩, ⟨0, 0, 1, 0⟩, ⟨0, 0, 0, 1⟩⟩⟩

/-- The mirror matrix diag(1, 1, -1, 1). -/
def mirror_example : graphene_matrix_t K :=
  ⟨⟨⟨1, 0, 0, 0⟩, ⟨0, 1, 0, 0⟩, ⟨0, 0, -1, 0⟩, ⟨0, 0, 0, 1⟩⟩⟩

/-- The all-zero matrix, as a possible content of uninitialised memory. -/
def zero_matrix : graphene_matrix_t K :=
  ⟨⟨⟨0, 0, 0, 0⟩, ⟨0, 0, 0, 0⟩, ⟨0, 0, 0, 0⟩, ⟨0, 0, 0, 0⟩⟩⟩

/-- The identity quaternion (0, 0, 0, 1). -/
def quaternion_identity : graphene_quaternion_t K := ⟨0, 0, 0, 1⟩

/-- The decomposed components of the identity transform: scale (1, 1, 1), zero
shear, identity rotation, zero translation, perspective (0, 0, 0, 1). -/
def identity_components : decompose_3d_out K :=
  ⟨⟨1, 1, 1⟩, ⟨0, 0, 0⟩, quaternion_identity, ⟨0, 0, 0⟩, ⟨⟨0, 0, 0, 1⟩⟩⟩

/-- A frame in which the result matrix holds `res` and the other cells hold the
contents of `u`. -/
def interpolate_frame.with_res (u : interpolate_frame K) (res : graphene_matrix_t K) :
    interpolate_frame K :=
  ⟨u.translate_a, u.perspective_a, u.rotate_a, u.translate_b, u.perspective_b, u.rotate_b, res⟩

/-- A content of the uninitialised memory of `graphene_matrix_interpolate`:
translations (5, 6, 7), perspectives (1, 2, 3, 4), rotations (1, 0, 0, 0) and an
all-zero result matrix. -/
def stale_frame : interpolate_frame K :=
  ⟨⟨5, 6, 7⟩, ⟨⟨1, 2, 3, 4⟩⟩, ⟨1, 0, 0, 0⟩, ⟨5, 6, 7⟩, ⟨⟨1, 2, 3, 4⟩⟩, ⟨1, 0, 0, 0⟩, zero_matrix⟩

/-- A 2D-affine matrix over the rationals: scale (2, 3), translation (5, 7). -/
def affine_example : graphene_matrix_t ℚ :=
  ⟨⟨⟨2, 0, 0, 0⟩, ⟨0, 3, 0, 0⟩, ⟨0, 0, 1, 0⟩, ⟨5, 7, 0, 1⟩⟩⟩

/-- The 4-lane vector (x, y, 0, 1) that `graphene_matrix_transform_point` makes
of a point: z = 0 and the implicit w = 1. -/
def point_as_vec4 (p : graphene_point_t K) : graphene_simd4f_t K := ⟨p.x, p.y, 0, 1⟩

/-- The identity matrix with entry (0,3) set to 1: its fourth row is (0, 0, 0, 1)
and its fourth column is not. -/
def perspective_column_example : graphene_matrix_t K :=
  ⟨⟨⟨1, 0, 0, 1⟩, ⟨0, 1, 0, 0⟩, ⟨0, 0, 1, 0⟩, ⟨0, 0, 0, 1⟩⟩⟩
/-- A rotation about the X axis over the rationals, with cosine 3/5 and sine
4/5. -/
def rotate_x_example : graphene_matrix_t ℚ :=
  ⟨⟨⟨1, 0, 0, 0⟩, ⟨0, 3 / 5, 4 / 5, 0⟩, ⟨0, -4 / 5, 3 / 5, 0⟩, ⟨0, 0, 0, 1⟩⟩⟩

/-- A matrix over the rationals that is not 2D-affine, with determinant 1: rows
x and y reach into the z column and row w translates by (3, 4, 0). -/
def shear_3d_example : graphene_matrix_t ℚ :=
  ⟨⟨⟨1, 2, 1, 0⟩, ⟨0, 1, -1, 0⟩, ⟨0, 0, 1, 0⟩, ⟨3, 4, 0, 1⟩⟩⟩

/-- The matrix over the rationals with 2 on the diagonal, entry (3, 3)
included. -/
def double_example : graphene_matrix_t ℚ :=
  ⟨⟨⟨2, 0, 0, 0⟩, ⟨0, 2, 0, 0⟩, ⟨0, 0, 2, 0⟩, ⟨0, 0, 0, 2⟩⟩⟩

/-- A matrix of floats with rows x = (1, 0, 0, 0), y = (1, 1, 0, 0),
z = (0.1f, 0, 1, 0) and w = (0, 0, 0, 1), where 0.1f is the float nearest to
1/10. -/
def skew_order_example : graphene_matrix_t ℚ :=
  ⟨⟨⟨1, 0, 0, 0⟩, ⟨1, 1, 0, 0⟩, ⟨round_f32 (1 / 10), 0, 1, 0⟩, ⟨0, 0, 0, 1⟩⟩⟩

/-- The matrix `graphene_matrix_init_scale (0.1f, 1.f, 1.f)`, where 0.1f is the
float nearest to 1/10. -/
def scale_tenth_example : graphene_matrix_t ℚ :=
  graphene_matrix_init_scale (round_f32 (1 / 10)) 1 1

/-- The rectangle of origin (-3, 0) and size (2.5, 1), all four of them
floats. -/
def bounds_rect_example : graphene_rect_t ℚ := ⟨⟨-3, 0⟩, ⟨5 / 2, 1⟩⟩

end readings

/-- The C mathematics library over the real numbers. -/
noncomputable def libm_real : libm ℝ where
  sqrtf := Real.sqrt
  atan2f := fun y x => Complex.arg ⟨x, y⟩
  sin := Real.sin
  cos := Real.cos
  tanf := Real.tan

/-- A quaternion module over the real numbers, by the textbook formulas: the
shortest-arc spherical interpolation, the rotation matrix of a quaternion, and
the quaternion of the diagonal and the off-diagonal signs of a rotation matrix.
It instantiates the results below that hold for every quaternion module with
the stated properties. -/
noncomputable def quaternion_real : quaternion_ops ℝ where
  graphene_quaternion_slerp := fun a b factor =>
    let dot := a.x * b.x + a.y * b.y + a.z * b.z + a.w * b.w
    let sgn : ℝ := if dot < 0 then -1 else 1
    let dot := sgn * dot
    if 1 ≤ dot then a
    else
      let theta := Real.arccos dot
      let left_v := Real.sin ((1 - factor) * theta) / Real.sin theta
      let right_v := sgn * Real.sin (factor * theta) / Real.sin theta
      ⟨left_v * a.x + right_v * b.x, left_v * a.y + right_v * b.y,
       left_v * a.z + right_v * b.z, left_v * a.w + right_v * b.w⟩
  graphene_quaternion_to_matrix := fun q =>
    ⟨⟨⟨1 - 2 * (q.y * q.y + q.z * q.z), 2 * (q.x * q.y + q.w * q.z),
        2 * (q.x * q.z - q.w * q.y), 0⟩,
      ⟨2 * (q.x * q.y - q.w * q.z), 1 - 2 * (q.x * q.x + q.z * q.z),
        2 * (q.y * q.z + q.w * q.x), 0⟩,
      ⟨2 * (q.x * q.z + q.w * q.y), 2 * (q.y * q.z - q.w * q.x),
        1 - 2 * (q.x * q.x + q.y * q.y), 0⟩,
      ⟨0, 0, 0, 1⟩⟩⟩
  graphene_quaternion_init_from_matrix := fun m =>
    let xx := m.value.x.x
    let yy := m.value.y.y
    let zz := m.value.z.z
    let w := Real.sqrt (max (1 + xx + yy + zz) 0) / 2
    let x := Real.sqrt (max (1 + xx - yy - zz) 0) / 2
    let y := Real.sqrt (max (1 - xx + yy - zz) 0) / 2
    let z := Real.sqrt (max (1 - xx - yy + zz) 0) / 2
    ⟨if m.value.z.y > m.value.y.z then -x else x,
     if m.value.x.z > m.value.z.x then -y else y,
     if m.value.y.x > m.value.x.y then -z else z, w⟩

/-! ## Results -/

section results

variable {K : Type} [LinearOrderedField K]

/-- Entry (0,0), (1,0), (0,1) and (1,1) through `graphene_matrix_get_value`. -/
theorem get_value_upper_left (m : graphene_matrix_t K) :
    (graphene_matrix_get_value m 0 0).val = m.value.x.x ∧
    (graphene_matrix_get_value m 1 0).val = m.value.y.x ∧
    (graphene_matrix_get_value m 0 1).val = m.value.x.y ∧
    (graphene_matrix_get_value m 1 1).val = m.value.y.y := by
  refine ⟨rfl, rfl, rfl, rfl⟩

/-- C4: `matrix_decompose_2d` returns FALSE exactly when A*D == B*C, for
A = m[0][0], B = m[1][0], C = m[0][1], D = m[1][1]; and when it returns FALSE
the four out parameters hold what they held before the call. -/
theorem decompose_2d_fails_iff (L : libm K) (m : graphene_matrix_t K)
    (o : decompose_2d_out K) :
    ((matrix_decompose_2d L m o).1 = false ↔
      m.value.x.x * m.value.y.y = m.value.y.x * m.value.x.y) ∧
    ((matrix_decompose_2d L m o).1 = false → (matrix_decompose_2d L m o).2 = o) := by
  obtain ⟨hA, hB, hC, hD⟩ := get_value_upper_left m
  by_cases h : m.value.x.x * m.value.y.y = m.value.y.x * m.value.x.y
  · have h2 : matrix_decompose_2d L m o = (false, o) := by
      unfold matrix_decompose_2d
      simp only [hA, hB, hC, hD, h, if_true]
    simp [h2, h]
  · have h2 : (matrix_decompose_2d L m o).1 = true := by
      unfold matrix_decompose_2d
      simp only [hA, hB, hC, hD, h, if_false]
    simp [h2, h]

/-- The matrix whose determinant `matrix_decompose_3d` tests is the matrix
`perspectiveCheck` of the specification. -/
theorem perspective_eq_perspectiveCheck (m : graphene_matrix_t K) :
    (⟨⟨(graphene_matrix_normalize m).value.x, (graphene_matrix_normalize m).value.y,
        (graphene_matrix_normalize m).value.z, graphene_simd4f_init 0 0 0 1⟩⟩ :
      graphene_matrix_t K) = perspectiveCheck m := by
  rfl

/-- C5: `matrix_decompose_3d` returns FALSE exactly when m[3][3] == 0 or the
determinant of `perspectiveCheck` is 0; and when it returns FALSE the five out
parameters hold what they held before the call. -/
theorem decompose_3d_fails_iff (L : libm K) (Q : quaternion_ops K) (m : graphene_matrix_t K)
    (o : decompose_3d_out K) :
    ((matrix_decompose_3d L Q m o).1 = false ↔
      (m.value.w.w = 0 ∨ graphene_matrix_determinant (perspectiveCheck m) = 0)) ∧
    ((matrix_decompose_3d L Q m o).1 = false → (matrix_decompose_3d L Q m o).2 = o) := by
  have hww : (graphene_matrix_get_value m 3 3).val = m.value.w.w := rfl
  by_cases h : m.value.w.w = 0
  · have h2 : matrix_decompose_3d L Q m o = (false, o) := by
      unfold matrix_decompose_3d
      simp only [hww, h, if_true]
    simp [h2, h]
  · by_cases hd : graphene_matrix_determinant (perspectiveCheck m) = 0
    · have h2 : matrix_decompose_3d L Q m o = (false, o) := by
        unfold matrix_decompose_3d
        simp only [hww, h, if_false, perspective_eq_perspectiveCheck, hd, if_true]
      simp [h2, hd]
    · have h2 : (matrix_decompose_3d L Q m o).1 = true := by
        unfold matrix_decompose_3d
        simp only [hww, h, if_false, perspective_eq_perspectiveCheck, hd]
      simp [h2, h, hd]

/-- C9: `graphene_matrix_untransform_point` returns FALSE exactly when the matrix
is not 2D-affine and the point is not contained in the transformed bounds; when
it returns FALSE the out parameter holds what it held before the call; and for
a 2D-affine matrix it returns TRUE whatever the point and the bounds are. -/
theorem untransform_point_fails_iff (m : graphene_matrix_t K) (p : graphene_point_t K)
    (bounds : graphene_rect_t K) (res : graphene_point_t K) :
    ((graphene_matrix_untransform_point m p bounds res).1 = false ↔
      (graphene_matrix_is_2d m = false ∧
        graphene_rect_contains_point (graphene_matrix_transform_bounds m bounds) p = false)) ∧
    ((graphene_matrix_untransform_point m p bounds res).1 = false →
      (graphene_matrix_untransform_point m p bounds res).2 = res) ∧
    (graphene_matrix_is_2d m = true →
      ∀ (p1 : graphene_point_t K) (bounds1 : graphene_rect_t K) (res1 : graphene_point_t K),
        (graphene_matrix_untransform_point m p1 bounds1 res1).1 = true) := by
  refine ⟨?_, ?_, ?_⟩
  · unfold graphene_matrix_untransform_point
    cases h2 : graphene_matrix_is_2d m <;>
      cases hc : graphene_rect_contains_point (graphene_matrix_transform_bounds m bounds) p <;>
      simp [hc]
  · unfold graphene_matrix_untransform_point
    cases h2 : graphene_matrix_is_2d m <;>
      cases hc : graphene_rect_contains_point (graphene_matrix_transform_bounds m bounds) p <;>
      simp [hc]
  · intro h2 p1 bounds1 res1
    unfold graphene_matrix_untransform_point
    simp [h2]

/-- C8: in `graphene_matrix_interpolate` the result is the scale composition
applied to the matrix recomposed so far when the three interpolated scale
components are all different from 1, and is that matrix itself, with no scaling
at all, as soon as one of the three equals 1.  The scale composition multiplies
the first three entries of every row of the matrix recomposed so far by the
x, y and z scale and keeps the fourth entry. -/
theorem interpolate_scale_applied_iff (L : libm K) (Q : quaternion_ops K)
    (a b : graphene_matrix_t K) (factor : K) (u : interpolate_frame K) :
    let d := interpolate_decompose L Q a b u
    let s := graphene_point3d_interpolate d.1.scale_r d.2.scale_r factor
    let unscaled := interpolate_unscaled Q d.1 d.2 factor u.res
    ((s.x ≠ 1 ∧ s.y ≠ 1 ∧ s.z ≠ 1) →
      graphene_matrix_interpolate L Q a b factor u = graphene_matrix_scale unscaled s.x s.y s.z ∧
      graphene_matrix_interpolate L Q a b factor u =
        ⟨⟨⟨s.x * unscaled.value.x.x, s.y * unscaled.value.x.y, s.z * unscaled.value.x.z,
            unscaled.value.x.w⟩,
          ⟨s.x * unscaled.value.y.x, s.y * unscaled.value.y.y, s.z * unscaled.value.y.z,
            unscaled.value.y.w⟩,
          ⟨s.x * unscaled.value.z.x, s.y * unscaled.value.z.y, s.z * unscaled.value.z.z,
            unscaled.value.z.w⟩,
          ⟨s.x * unscaled.value.w.x, s.y * unscaled.value.w.y, s.z * unscaled.value.w.z,
            unscaled.value.w.w⟩⟩⟩) ∧
    ((s.x = 1 ∨ s.y = 1 ∨ s.z = 1) →
      graphene_matrix_interpolate L Q a b factor u = unscaled) := by
  intro d s unscaled
  have hscale : ∀ (r : graphene_matrix_t K) (x y z : K), graphene_matrix_scale r x y z =
      ⟨⟨⟨x * r.value.x.x, y * r.value.x.y, z * r.value.x.z, r.value.x.w⟩,
        ⟨x * r.value.y.x, y * r.value.y.y, z * r.value.y.z, r.value.y.w⟩,
        ⟨x * r.value.z.x, y * r.value.z.y, z * r.value.z.z, r.value.z.w⟩,
        ⟨x * r.value.w.x, y * r.value.w.y, z * r.value.w.z, r.value.w.w⟩⟩⟩ := by
    intro r x y z
    simp only [graphene_matrix_scale, graphene_simd4x4f_scale, graphene_simd4x4f_init,
      graphene_simd4f_init, graphene_simd4x4f_matrix_mul, graphene_simd4x4f_vec4_mul,
      graphene_simd4f_add, graphene_simd4f_mul, graphene_simd4f_splat,
      graphene_matrix_t.mk.injEq, graphene_simd4x4f_t.mk.injEq, graphene_simd4f_t.mk.injEq]
    refine ⟨⟨?_, ?_, ?_, ?_⟩, ⟨?_, ?_, ?_, ?_⟩, ⟨?_, ?_, ?_, ?_⟩, ⟨?_, ?_, ?_, ?_⟩⟩ <;> ring
  constructor
  · intro h
    have h1 : graphene_matrix_interpolate L Q a b factor u =
        graphene_matrix_scale unscaled s.x s.y s.z := by
      show interpolate_recompose Q d.1 d.2 factor u.res = _
      unfold interpolate_recompose
      exact if_pos h
    exact ⟨h1, h1.trans (hscale _ _ _ _)⟩
  · intro h
    show interpolate_recompose Q d.1 d.2 factor u.res = _
    unfold interpolate_recompose
    apply if_neg
    rintro ⟨hx, hy, hz⟩
    rcases h with h | h | h
    · exact hx h
    · exact hy h
    · exact hz h

/-- The modelled inverse is a left inverse for the modelled multiply when the
determinant is not 0. -/
theorem inverse_matrix_mul_self (m : graphene_simd4x4f_t K) (h : det4 m ≠ 0) :
    graphene_simd4x4f_matrix_mul (graphene_simd4x4f_inverse m) m =
      graphene_simd4x4f_init_identity := by
  obtain ⟨⟨a00, a01, a02, a03⟩, ⟨a10, a11, a12, a13⟩, ⟨a20, a21, a22, a23⟩,
    ⟨a30, a31, a32, a33⟩⟩ := m
  have hi := mul_inv_cancel₀ h
  simp only [det4, minors_xy, minors_zw] at hi
  simp only [graphene_simd4x4f_matrix_mul, graphene_simd4x4f_vec4_mul, graphene_simd4x4f_inverse,
    graphene_simd4x4f_init_identity, graphene_simd4x4f_init, graphene_simd4f_init,
    graphene_simd4f_add, graphene_simd4f_mul, graphene_simd4f_div, graphene_simd4f_splat,
    det4, minors_xy, minors_zw, graphene_simd4x4f_t.mk.injEq, graphene_simd4f_t.mk.injEq,
    div_eq_mul_inv]
  generalize ((a00 * a11 - a10 * a01) * (a22 * a33 - a32 * a23) -
    (a00 * a12 - a10 * a02) * (a21 * a33 - a31 * a23) +
    (a00 * a13 - a10 * a03) * (a21 * a32 - a31 * a22) +
    (a01 * a12 - a11 * a02) * (a20 * a33 - a30 * a23) -
    (a01 * a13 - a11 * a03) * (a20 * a32 - a30 * a22) +
    (a02 * a13 - a12 * a03) * (a20 * a31 - a30 * a21))⁻¹ = i at hi ⊢
  refine ⟨⟨?_, ?_, ?_, ?_⟩, ⟨?_, ?_, ?_, ?_⟩, ⟨?_, ?_, ?_, ?_⟩, ⟨?_, ?_, ?_, ?_⟩⟩ <;>
    first
    | linear_combination hi
    | linear_combination (0 : K) * hi

/-- The modelled inverse is a right inverse for the modelled multiply when the
determinant is not 0. -/
theorem matrix_mul_inverse_self (m : graphene_simd4x4f_t K) (h : det4 m ≠ 0) :
    graphene_simd4x4f_matrix_mul m (graphene_simd4x4f_inverse m) =
      graphene_simd4x4f_init_identity := by
  obtain ⟨⟨a00, a01, a02, a03⟩, ⟨a10, a11, a12, a13⟩, ⟨a20, a21, a22, a23⟩,
    ⟨a30, a31, a32, a33⟩⟩ := m
  have hi := mul_inv_cancel₀ h
  simp only [det4, minors_xy, minors_zw] at hi
  simp only [graphene_simd4x4f_matrix_mul, graphene_simd4x4f_vec4_mul, graphene_simd4x4f_inverse,
    graphene_simd4x4f_init_identity, graphene_simd4x4f_init, graphene_simd4f_init,
    graphene_simd4f_add, graphene_simd4f_mul, graphene_simd4f_div, graphene_simd4f_splat,
    det4, minors_xy, minors_zw, graphene_simd4x4f_t.mk.injEq, graphene_simd4f_t.mk.injEq,
    div_eq_mul_inv]
  generalize ((a00 * a11 - a10 * a01) * (a22 * a33 - a32 * a23) -
    (a00 * a12 - a10 * a02) * (a21 * a33 - a31 * a23) +
    (a00 * a13 - a10 * a03) * (a21 * a32 - a31 * a22) +
    (a01 * a12 - a11 * a02) * (a20 * a33 - a30 * a23) -
    (a01 * a13 - a11 * a03) * (a20 * a32 - a30 * a22) +
    (a02 * a13 - a12 * a03) * (a20 * a31 - a30 * a21))⁻¹ = i at hi ⊢
  refine ⟨⟨?_, ?_, ?_, ?_⟩, ⟨?_, ?_, ?_, ?_⟩, ⟨?_, ?_, ?_, ?_⟩, ⟨?_, ?_, ?_, ?_⟩⟩ <;>
    first
    | linear_combination hi
    | linear_combination (0 : K) * hi

/-- The entries that `graphene_simd4x4f_is_2d` fixes. -/
theorem is_2d_entries (m : graphene_matrix_t K) (h : graphene_matrix_is_2d m = true) :
    m.value.x.z = 0 ∧ m.value.x.w = 0 ∧ m.value.y.z = 0 ∧ m.value.y.w = 0 ∧
    m.value.z.x = 0 ∧ m.value.z.y = 0 ∧ m.value.z.z = 1 ∧ m.value.z.w = 0 ∧
    m.value.w.z = 0 ∧ m.value.w.w = 1 := by
  simpa [graphene_matrix_is_2d, graphene_simd4x4f_is_2d, and_assoc] using h

/-- The determinant of a 2D-affine matrix is that of its upper-left 2x2 block. -/
theorem determinant_of_2d (m : graphene_matrix_t K) (h : graphene_matrix_is_2d m = true) :
    graphene_matrix_determinant m = m.value.x.x * m.value.y.y - m.value.y.x * m.value.x.y := by
  obtain ⟨h1, h2, h3, h4, h5, h6, h7, h8, h9, h10⟩ := is_2d_entries m h
  simp only [graphene_matrix_determinant, graphene_simd4x4f_determinant, graphene_simd4f_get_x,
    graphene_simd4f_splat, det4, minors_xy, minors_zw, h1, h2, h3, h4, h5, h6, h7, h8, h9, h10]
  ring

/-- C10: for a 2D-affine matrix with non-zero determinant,
`graphene_matrix_untransform_point` applied to the transform of a point returns
TRUE and the point itself, whatever the bounds are. -/
theorem untransform_point_transform_point (m : graphene_matrix_t K) (p : graphene_point_t K)
    (bounds : graphene_rect_t K) (res : graphene_point_t K)
    (h2d : graphene_matrix_is_2d m = true) (hdet : graphene_matrix_determinant m ≠ 0) :
    graphene_matrix_untransform_point m (graphene_matrix_transform_point m p) bounds res =
      (true, p) := by
  have hd := determinant_of_2d m h2d
  rw [hd] at hdet
  obtain ⟨h1, h2, h3, h4, h5, h6, h7, h8, h9, h10⟩ := is_2d_entries m h2d
  unfold graphene_matrix_untransform_point
  rw [if_pos h2d]
  obtain ⟨px, py⟩ := p
  simp only [graphene_matrix_transform_point, graphene_matrix_inverse, graphene_simd4x4f_inverse,
    graphene_simd4x4f_vec3_mul, graphene_simd4f_init, graphene_simd4f_add, graphene_simd4f_mul,
    graphene_simd4f_div, graphene_simd4f_splat, graphene_simd4f_get_x, graphene_simd4f_get_y,
    det4, minors_xy, minors_zw, h1, h2, h3, h4, h5, h6, h7, h8, h9, h10,
    Prod.mk.injEq, true_and, graphene_point_t.mk.injEq]
  constructor
  · field_simp
    ring
  · field_simp
    ring

/-- A row that is zero stays zero under `graphene_simd4x4f_vec4_mul`. -/
theorem vec4_mul_zero_row (m : graphene_simd4x4f_t K) :
    graphene_simd4x4f_vec4_mul m ⟨0, 0, 0, 0⟩ = ⟨0, 0, 0, 0⟩ := by
  simp [graphene_simd4x4f_vec4_mul, graphene_simd4f_add, graphene_simd4f_mul,
    graphene_simd4f_splat]

/-- The identity matrix leaves a row as it is under `graphene_simd4x4f_vec4_mul`. -/
theorem vec4_mul_identity (v : graphene_simd4f_t K) :
    graphene_simd4x4f_vec4_mul graphene_simd4x4f_init_identity v = v := by
  obtain ⟨x, y, z, w⟩ := v
  simp [graphene_simd4x4f_vec4_mul, graphene_simd4x4f_init_identity, graphene_simd4x4f_init,
    graphene_simd4f_init, graphene_simd4f_add, graphene_simd4f_mul, graphene_simd4f_splat]

/-- Whatever the inputs are, `graphene_matrix_interpolate` leaves a zero first row
of the result matrix zero: the row is read from the memory of the caller. -/
theorem interpolate_keeps_zero_row (L : libm K) (Q : quaternion_ops K)
    (a b : graphene_matrix_t K) (factor : K) (u : interpolate_frame K)
    (h : u.res.value.x = ⟨0, 0, 0, 0⟩) :
    (graphene_matrix_interpolate L Q a b factor u).value.x = ⟨0, 0, 0, 0⟩ := by
  simp only [graphene_matrix_interpolate, interpolate_recompose, interpolate_unscaled,
    graphene_matrix_translate, graphene_matrix_multiply, graphene_matrix_scale,
    graphene_matrix_skew_xy, graphene_matrix_skew_xz, graphene_matrix_skew_yz,
    graphene_simd4x4f_matrix_mul, h]
  split_ifs <;> simp only [vec4_mul_zero_row]

/-- C1: `graphene_matrix_interpolate` on two identity matrices, called with a
result matrix that holds zeros, returns a matrix whose first row is zero, not
the identity matrix: the rows x, y and z of the result are never initialised. -/
theorem interpolate_identity_stale_result (L : libm K) (Q : quaternion_ops K) (factor : K)
    (u : interpolate_frame K) :
    (graphene_matrix_interpolate L Q graphene_matrix_init_identity
        graphene_matrix_init_identity factor (u.with_res zero_matrix)).value.x = ⟨0, 0, 0, 0⟩ ∧
    graphene_matrix_interpolate L Q graphene_matrix_init_identity
        graphene_matrix_init_identity factor (u.with_res zero_matrix) ≠
      graphene_matrix_init_identity := by
  have h := interpolate_keeps_zero_row L Q graphene_matrix_init_identity
    graphene_matrix_init_identity factor (u.with_res zero_matrix) rfl
  refine ⟨h, fun hne => ?_⟩
  rw [hne] at h
  simp [graphene_matrix_init_identity, graphene_simd4x4f_init_identity, graphene_simd4x4f_init,
    graphene_simd4f_init] at h

/-- The recomposition up to the skews, for components without shear, rotation
or translation and with perspective (0, 0, 0, 1), when the quaternion module
maps the interpolated identity rotation to the identity matrix: the rows x, y
and z of the result matrix are those it held before the call. -/
theorem interpolate_unscaled_plain (Q : quaternion_ops K) (sa sb : graphene_point3d_t K)
    (factor : K) (res : graphene_matrix_t K)
    (hQ : Q.graphene_quaternion_to_matrix
      (Q.graphene_quaternion_slerp quaternion_identity quaternion_identity factor) =
        graphene_matrix_init_identity) :
    interpolate_unscaled Q ⟨sa, ⟨0, 0, 0⟩, quaternion_identity, ⟨0, 0, 0⟩, ⟨⟨0, 0, 0, 1⟩⟩⟩
      ⟨sb, ⟨0, 0, 0⟩, quaternion_identity, ⟨0, 0, 0⟩, ⟨⟨0, 0, 0, 1⟩⟩⟩ factor res =
    ⟨⟨res.value.x, res.value.y, res.value.z, ⟨0, 0, 0, 1⟩⟩⟩ := by
  have hT : graphene_simd4x4f_translation (0 : K) 0 0 = graphene_simd4x4f_init_identity := rfl
  have hI : graphene_matrix_is_identity (graphene_matrix_init_identity : graphene_matrix_t K) =
      true := by
    simp [graphene_matrix_is_identity, graphene_simd4x4f_is_identity,
      graphene_matrix_init_identity]
  have hw : graphene_simd4f_interpolate (⟨0, 0, 0, 1⟩ : graphene_simd4f_t K) ⟨0, 0, 0, 1⟩ factor =
      ⟨0, 0, 0, 1⟩ := by
    simp [graphene_simd4f_interpolate, graphene_simd4f_add, graphene_simd4f_mul,
      graphene_simd4f_sub, graphene_simd4f_splat]
  simp only [interpolate_unscaled, hQ, hI, hw, graphene_point3d_interpolate,
    graphene_matrix_translate, graphene_simd4x4f_matrix_mul, sub_self, zero_mul, add_zero, hT,
    vec4_mul_identity, Bool.not_true, ne_eq, not_true_eq_false, if_false, Bool.false_eq_true]

/-- The matrix `graphene_matrix_init_scale x y 1` is 2D-affine. -/
theorem is_2d_init_scale (sx sy : K) :
    graphene_matrix_is_2d (graphene_matrix_init_scale sx sy 1) = true := by
  simp [graphene_matrix_is_2d, graphene_simd4x4f_is_2d, graphene_matrix_init_scale,
    graphene_simd4x4f_init, graphene_simd4f_init]

/-- The instance of C10 at the matrix with scale (2, 3) and translation (5, 7),
the point (1, 1) and the unit square as bounds. -/
theorem untransform_point_transform_point_witness :
    graphene_matrix_is_2d affine_example = true ∧
    graphene_matrix_determinant affine_example ≠ 0 ∧
    graphene_matrix_untransform_point affine_example
        (graphene_matrix_transform_point affine_example ⟨1, 1⟩) ⟨⟨0, 0⟩, ⟨1, 1⟩⟩ ⟨0, 0⟩ =
      (true, ⟨1, 1⟩) :=
  ⟨by simp [graphene_matrix_is_2d, graphene_simd4x4f_is_2d, affine_example],
   by norm_num [graphene_matrix_determinant, graphene_simd4x4f_determinant, det4, minors_xy,
     minors_zw, graphene_simd4f_splat, graphene_simd4f_get_x, affine_example],
   untransform_point_transform_point affine_example ⟨1, 1⟩ ⟨⟨0, 0⟩, ⟨1, 1⟩⟩ ⟨0, 0⟩
    (by simp [graphene_matrix_is_2d, graphene_simd4x4f_is_2d, affine_example])
    (by norm_num [graphene_matrix_determinant, graphene_simd4x4f_determinant, det4, minors_xy,
      minors_zw, graphene_simd4f_splat, graphene_simd4f_get_x, affine_example])⟩

/-- C7: when the decomposition of the first input fails,
`graphene_matrix_interpolate` goes on with scale (1, 1, 1) and zero shear, but
with the rotation and the translation that the uninitialised locals happened
to hold, not with the identity rotation and the zero translation.  On the 2D
path (both inputs `graphene_matrix_init_scale 0 0 1`) the perspective is
(0, 0, 0, 1); on the 3D path (both inputs the zero matrix) the perspective is
what its uninitialised local held as well. -/
theorem interpolate_failed_decomposition_components (L : libm K) (Q : quaternion_ops K)
    (u : interpolate_frame K) :
    (interpolate_decompose L Q (graphene_matrix_init_scale 0 0 1)
        (graphene_matrix_init_scale 0 0 1) u).1 =
      ⟨⟨1, 1, 1⟩, ⟨0, 0, 0⟩, u.rotate_a, u.translate_a, ⟨⟨0, 0, 0, 1⟩⟩⟩ ∧
    (interpolate_decompose L Q zero_matrix zero_matrix u).1 =
      ⟨⟨1, 1, 1⟩, ⟨0, 0, 0⟩, u.rotate_a, u.translate_a, u.perspective_a⟩ ∧
    (interpolate_decompose L Q (graphene_matrix_init_scale 0 0 1)
        (graphene_matrix_init_scale 0 0 1) stale_frame).1 ≠ identity_components ∧
    (interpolate_decompose L Q zero_matrix zero_matrix stale_frame).1 ≠ identity_components := by
  have h2 : ∀ v : interpolate_frame K,
      (interpolate_decompose L Q (graphene_matrix_init_scale 0 0 1)
        (graphene_matrix_init_scale 0 0 1) v).1 =
      ⟨⟨1, 1, 1⟩, ⟨0, 0, 0⟩, v.rotate_a, v.translate_a, ⟨⟨0, 0, 0, 1⟩⟩⟩ := by
    intro v
    have hf : ∀ o : decompose_2d_out K,
        matrix_decompose_2d L (graphene_matrix_init_scale 0 0 1) o = (false, o) := by
      intro o
      have hA : (graphene_matrix_get_value
          (graphene_matrix_init_scale (0 : K) 0 1) 0 0).val = 0 := rfl
      have hB : (graphene_matrix_get_value
          (graphene_matrix_init_scale (0 : K) 0 1) 1 0).val = 0 := rfl
      unfold matrix_decompose_2d
      simp only [hA, hB, zero_mul, if_true]
    unfold interpolate_decompose
    simp only [is_2d_init_scale, Bool.and_self, if_true, hf, graphene_vec4_init,
      graphene_simd4f_init]
  have h3 : ∀ v : interpolate_frame K,
      (interpolate_decompose L Q zero_matrix zero_matrix v).1 =
      ⟨⟨1, 1, 1⟩, ⟨0, 0, 0⟩, v.rotate_a, v.translate_a, v.perspective_a⟩ := by
    intro v
    have hf : ∀ o : decompose_3d_out K, matrix_decompose_3d L Q zero_matrix o = (false, o) := by
      intro o
      have hw : (graphene_matrix_get_value (zero_matrix : graphene_matrix_t K) 3 3).val = 0 := rfl
      unfold matrix_decompose_3d
      simp only [hw, if_true]
    have hn : graphene_matrix_is_2d (zero_matrix : graphene_matrix_t K) = false := by
      simp [graphene_matrix_is_2d, graphene_simd4x4f_is_2d, zero_matrix]
    unfold interpolate_decompose
    simp only [hn, Bool.and_self, hf, Bool.false_eq_true, if_false]
  refine ⟨h2 u, h3 u, ?_, ?_⟩
  · rw [h2]
    simp [stale_frame, identity_components, quaternion_identity]
  · rw [h3]
    simp [stale_frame, identity_components, quaternion_identity]

/-- C20: `graphene_matrix_skew_xy` replaces row y by row y + factor * row x,
`graphene_matrix_skew_xz` replaces row z by row z + factor * row x, and
`graphene_matrix_skew_yz` replaces row z by row z + factor * row y; each leaves
the three other rows unchanged. -/
theorem skew_rows (m : graphene_matrix_t K) (f : K) :
    (graphene_matrix_skew_xy m f =
      ⟨⟨m.value.x,
        ⟨m.value.y.x + f * m.value.x.x, m.value.y.y + f * m.value.x.y,
         m.value.y.z + f * m.value.x.z, m.value.y.w + f * m.value.x.w⟩,
        m.value.z, m.value.w⟩⟩) ∧
    (graphene_matrix_skew_xz m f =
      ⟨⟨m.value.x, m.value.y,
        ⟨m.value.z.x + f * m.value.x.x, m.value.z.y + f * m.value.x.y,
         m.value.z.z + f * m.value.x.z, m.value.z.w + f * m.value.x.w⟩,
        m.value.w⟩⟩) ∧
    (graphene_matrix_skew_yz m f =
      ⟨⟨m.value.x, m.value.y,
        ⟨m.value.z.x + f * m.value.y.x, m.value.z.y + f * m.value.y.y,
         m.value.z.z + f * m.value.y.z, m.value.z.w + f * m.value.y.w⟩,
        m.value.w⟩⟩) := by
  simp [graphene_matrix_skew_xy, graphene_matrix_skew_xz, graphene_matrix_skew_yz,
    graphene_simd4f_add, graphene_simd4f_mul, graphene_simd4f_splat, mul_comm]

/-- The macro `MIN` is the minimum. -/
theorem MIN_eq_min (a b : K) : MIN a b = min a b := by
  unfold MIN
  rcases lt_trichotomy a b with h | h | h
  · rw [if_pos h, min_eq_left h.le]
  · rw [if_neg (by rw [h]; exact lt_irrefl b), h, min_self]
  · rw [if_neg (not_lt.mpr h.le), min_eq_right h.le]

/-- The macro `MAX` is the maximum. -/
theorem MAX_eq_max (a b : K) : MAX a b = max a b := by
  unfold MAX
  rcases lt_trichotomy a b with h | h | h
  · rw [if_neg (not_lt.mpr h.le), max_eq_right h.le]
  · rw [if_neg (by rw [h]; exact lt_irrefl b), h, max_self]
  · rw [if_pos h, max_eq_left h.le]

/-- The rectangle that the bounds loop computes from four points. -/
theorem bounds_of_points_eq (r0 r1 r2 r3 : graphene_point_t K) :
    bounds_of_points r0 r1 r2 r3 =
      ⟨⟨min r3.x (min r2.x (min r1.x r0.x)), min r3.y (min r2.y (min r1.y r0.y))⟩,
       ⟨max r3.x (max r2.x (max r1.x r0.x)) - min r3.x (min r2.x (min r1.x r0.x)),
        max r3.y (max r2.y (max r1.y r0.y)) - min r3.y (min r2.y (min r1.y r0.y))⟩⟩ := by
  simp only [bounds_of_points, MIN_eq_min, MAX_eq_max, graphene_rect_init]

/-- C15 as amended: in exact arithmetic `graphene_matrix_transform_bounds`
returns the rectangle (minX, minY, maxX - minX, maxY - minY) over the four
transformed corners; its width and height are not negative, and each of the
four vertices of the quad that `graphene_matrix_transform_rect` returns lies
inside it. -/
theorem transform_bounds_contains_transform_rect (m : graphene_matrix_t K)
    (r : graphene_rect_t K) :
    let b := graphene_matrix_transform_bounds m r
    let q := graphene_matrix_transform_rect m r
    let tl := graphene_matrix_transform_point m (graphene_rect_get_top_left r)
    let tr := graphene_matrix_transform_point m (graphene_rect_get_top_right r)
    let bl := graphene_matrix_transform_point m (graphene_rect_get_bottom_left r)
    let br := graphene_matrix_transform_point m (graphene_rect_get_bottom_right r)
    b.origin.x = min br.x (min bl.x (min tr.x tl.x)) ∧
    b.origin.y = min br.y (min bl.y (min tr.y tl.y)) ∧
    b.size.width = max br.x (max bl.x (max tr.x tl.x)) - min br.x (min bl.x (min tr.x tl.x)) ∧
    b.size.height = max br.y (max bl.y (max tr.y tl.y)) - min br.y (min bl.y (min tr.y tl.y)) ∧
    0 ≤ b.size.width ∧ 0 ≤ b.size.height ∧
    q = ⟨tl, tr, br, bl⟩ ∧
    (∀ v, v = q.p0 ∨ v = q.p1 ∨ v = q.p2 ∨ v = q.p3 →
      b.origin.x ≤ v.x ∧ v.x ≤ b.origin.x + b.size.width ∧
      b.origin.y ≤ v.y ∧ v.y ≤ b.origin.y + b.size.height) := by
  intro b q tl tr bl br
  have hb : b = bounds_of_points tl tr bl br := rfl
  have hq : q = ⟨tl, tr, br, bl⟩ := rfl
  rw [bounds_of_points_eq] at hb
  simp only [hb, hq]
  refine ⟨trivial, trivial, trivial, trivial, ?_, ?_, trivial, ?_⟩
  · simp only [sub_nonneg, le_max_iff, min_le_iff, le_refl, true_or, or_true]
  · simp only [sub_nonneg, le_max_iff, min_le_iff, le_refl, true_or, or_true]
  · intro v hv
    rcases hv with h | h | h | h <;> subst h <;>
      simp only [add_sub_cancel, le_max_iff, min_le_iff, le_refl, true_or, or_true, and_self]

/-- C16: `graphene_matrix_untransform_bounds` returns the bounds of `r`
transformed by the inverse when the matrix is 2D-affine, whatever `bounds` is;
the zero rectangle when the matrix is not 2D-affine and `r` does not intersect
the transformed bounds; and otherwise the projected bounds, through the inverse,
of the intersection of `r` with the transformed bounds. -/
theorem untransform_bounds_cases
    (inter : graphene_rect_t K → graphene_rect_t K → Bool × graphene_rect_t K)
    (m : graphene_matrix_t K) (r bounds : graphene_rect_t K) :
    (graphene_matrix_is_2d m = true →
      ∀ bounds1, graphene_matrix_untransform_bounds inter m r bounds1 =
        graphene_matrix_transform_bounds (graphene_matrix_inverse m) r) ∧
    (graphene_matrix_is_2d m = false →
      (inter r (graphene_matrix_transform_bounds m bounds)).1 = false →
      graphene_matrix_untransform_bounds inter m r bounds = ⟨⟨0, 0⟩, ⟨0, 0⟩⟩) ∧
    (graphene_matrix_is_2d m = false →
      (inter r (graphene_matrix_transform_bounds m bounds)).1 = true →
      graphene_matrix_untransform_bounds inter m r bounds =
        graphene_matrix_project_rect_bounds (graphene_matrix_inverse m)
          (inter r (graphene_matrix_transform_bounds m bounds)).2) := by
  refine ⟨?_, ?_, ?_⟩
  · intro h bounds1
    unfold graphene_matrix_untransform_bounds
    simp [h]
  · intro h hi
    unfold graphene_matrix_untransform_bounds
    simp [h, hi, graphene_rect_init]
  · intro h hi
    unfold graphene_matrix_untransform_bounds
    simp [h, hi]

/-- Transforming by `b` and then by `a` is transforming by the product. -/
theorem vec4_mul_vec4_mul (a b : graphene_simd4x4f_t K) (v : graphene_simd4f_t K) :
    graphene_simd4x4f_vec4_mul a (graphene_simd4x4f_vec4_mul b v) =
      graphene_simd4x4f_vec4_mul (graphene_simd4x4f_matrix_mul a b) v := by
  simp only [graphene_simd4x4f_vec4_mul, graphene_simd4x4f_matrix_mul, graphene_simd4f_add,
    graphene_simd4f_mul, graphene_simd4f_splat, graphene_simd4f_t.mk.injEq]
  refine ⟨?_, ?_, ?_, ?_⟩ <;> ring

/-- The 3-component transform of (x, y, 0) is the 4-component transform of
(x, y, 0, 1). -/
theorem transform_point_eq_vec4_mul (m : graphene_matrix_t K) (p : graphene_point_t K) :
    graphene_matrix_transform_point m p =
      ⟨(graphene_simd4x4f_vec4_mul m.value (point_as_vec4 p)).x,
       (graphene_simd4x4f_vec4_mul m.value (point_as_vec4 p)).y⟩ := by
  simp [graphene_matrix_transform_point, graphene_simd4x4f_vec3_mul, graphene_simd4x4f_vec4_mul,
    point_as_vec4, graphene_simd4f_init, graphene_simd4f_add, graphene_simd4f_mul,
    graphene_simd4f_splat, graphene_simd4f_get_x, graphene_simd4f_get_y]

/-- C11 as amended: for a matrix with non-zero determinant and a point whose
transform stays in the plane z = 0 with w = 1, transforming by the matrix and
then by its inverse gives the point back. -/
theorem transform_point_inverse_round_trip (m : graphene_matrix_t K) (p : graphene_point_t K)
    (hdet : graphene_matrix_determinant m ≠ 0)
    (hz : p.x * m.value.x.z + p.y * m.value.y.z + m.value.w.z = 0)
    (hw : p.x * m.value.x.w + p.y * m.value.y.w + m.value.w.w = 1) :
    graphene_matrix_transform_point (graphene_matrix_inverse m)
      (graphene_matrix_transform_point m p) = p := by
  have hd : det4 m.value ≠ 0 := hdet
  have hv : point_as_vec4 (graphene_matrix_transform_point m p) =
      graphene_simd4x4f_vec4_mul m.value (point_as_vec4 p) := by
    simp only [graphene_matrix_transform_point, graphene_simd4x4f_vec3_mul,
      graphene_simd4x4f_vec4_mul, point_as_vec4, graphene_simd4f_init, graphene_simd4f_add,
      graphene_simd4f_mul, graphene_simd4f_splat, graphene_simd4f_get_x, graphene_simd4f_get_y,
      graphene_simd4f_t.mk.injEq]
    refine ⟨by ring, by ring, by linear_combination -hz, by linear_combination -hw⟩
  rw [transform_point_eq_vec4_mul (graphene_matrix_inverse m), hv]
  show (⟨(graphene_simd4x4f_vec4_mul (graphene_simd4x4f_inverse m.value) _).x,
    (graphene_simd4x4f_vec4_mul (graphene_simd4x4f_inverse m.value) _).y⟩ : graphene_point_t K) = p
  rw [vec4_mul_vec4_mul, inverse_matrix_mul_self _ hd, vec4_mul_identity]
  rfl

/-- C11 fails for a rotation about the X axis: the determinant is 1, and the
point (0, 1) comes back as (0, 9/25). -/
theorem transform_point_round_trip_fails :
    graphene_matrix_determinant rotate_x_example ≠ 0 ∧
    graphene_matrix_transform_point (graphene_matrix_inverse rotate_x_example)
      (graphene_matrix_transform_point rotate_x_example ⟨0, 1⟩) ≠ ⟨0, 1⟩ := by
  constructor
  · norm_num [graphene_matrix_determinant, graphene_simd4x4f_determinant, det4, minors_xy,
      minors_zw, graphene_simd4f_splat, graphene_simd4f_get_x, rotate_x_example]
  · norm_num [graphene_matrix_transform_point, graphene_matrix_inverse, graphene_simd4x4f_inverse,
      graphene_simd4x4f_vec3_mul, graphene_simd4f_init, graphene_simd4f_add, graphene_simd4f_mul,
      graphene_simd4f_div, graphene_simd4f_splat, graphene_simd4f_get_x, graphene_simd4f_get_y,
      det4, minors_xy, minors_zw, rotate_x_example]

/-- The instance of the amended C11 at a matrix that is not 2D-affine and the
point (2, 2), whose transform stays in the plane z = 0: the matrix moves the
point to (5, 10) and the inverse brings it back. -/
theorem transform_point_inverse_round_trip_witness :
    graphene_matrix_determinant shear_3d_example ≠ 0 ∧
    (2 : ℚ) * shear_3d_example.value.x.z + 2 * shear_3d_example.value.y.z +
      shear_3d_example.value.w.z = 0 ∧
    (2 : ℚ) * shear_3d_example.value.x.w + 2 * shear_3d_example.value.y.w +
      shear_3d_example.value.w.w = 1 ∧
    graphene_matrix_is_2d shear_3d_example = false ∧
    graphene_matrix_transform_point shear_3d_example ⟨2, 2⟩ = ⟨5, 10⟩ ∧
    graphene_matrix_transform_point (graphene_matrix_inverse shear_3d_example) ⟨5, 10⟩ = ⟨2, 2⟩ :=
  ⟨by norm_num [graphene_matrix_determinant, graphene_simd4x4f_determinant, det4, minors_xy,
     minors_zw, graphene_simd4f_splat, graphene_simd4f_get_x, shear_3d_example],
   by norm_num [shear_3d_example], by norm_num [shear_3d_example],
   by decide,
   by norm_num [graphene_matrix_transform_point, graphene_simd4x4f_vec3_mul, graphene_simd4f_init,
     graphene_simd4f_add, graphene_simd4f_mul, graphene_simd4f_splat, graphene_simd4f_get_x,
     graphene_simd4f_get_y, shear_3d_example],
   (congrArg (graphene_matrix_transform_point (graphene_matrix_inverse shear_3d_example))
     (show (⟨5, 10⟩ : graphene_point_t ℚ) = graphene_matrix_transform_point shear_3d_example ⟨2, 2⟩
       by norm_num [graphene_matrix_transform_point, graphene_simd4x4f_vec3_mul,
         graphene_simd4f_init, graphene_simd4f_add, graphene_simd4f_mul, graphene_simd4f_splat,
         graphene_simd4f_get_x, graphene_simd4f_get_y, shear_3d_example])).trans
    (transform_point_inverse_round_trip shear_3d_example ⟨2, 2⟩
      (by norm_num [graphene_matrix_determinant, graphene_simd4x4f_determinant, det4, minors_xy,
        minors_zw, graphene_simd4f_splat, graphene_simd4f_get_x, shear_3d_example])
      (by norm_num [shear_3d_example]) (by norm_num [shear_3d_example]))⟩

/-- C17: the test of `matrix_decompose_3d` that guards the perspective step is
the wrong way round.  On the translation by (5, 0, 0), whose fourth row has a
non-zero component among its first three, the stored perspective is
(0, 0, 0, 1) and not the vector (5, 0, 0, 1) that inverting `perspectiveCheck`
and transpose-multiplying it against that row gives.  On the identity matrix
with entry (0,3) set to 1, whose fourth row is (0, 0, 0, 1), the stored
perspective is the solved vector (-1, 0, 0, 1) and not (0, 0, 0, 1). -/
theorem decompose_3d_perspective_test_inverted (L : libm K) (Q : quaternion_ops K)
    (o : decompose_3d_out K) :
    ((matrix_decompose_3d L Q (graphene_matrix_init_translate ⟨5, 0, 0⟩) o).1 = true ∧
      (matrix_decompose_3d L Q (graphene_matrix_init_translate ⟨5, 0, 0⟩) o).2.perspective_r =
        ⟨⟨0, 0, 0, 1⟩⟩ ∧
      graphene_matrix_transpose_transform_vec4
        (graphene_matrix_inverse (perspectiveCheck (graphene_matrix_init_translate ⟨5, 0, 0⟩)))
        ⟨(graphene_matrix_normalize (graphene_matrix_init_translate ⟨5, 0, 0⟩)).value.w⟩ =
        (⟨⟨5, 0, 0, 1⟩⟩ : graphene_vec4_t K)) ∧
    ((matrix_decompose_3d L Q perspective_column_example o).1 = true ∧
      (matrix_decompose_3d L Q perspective_column_example o).2.perspective_r =
        ⟨⟨-1, 0, 0, 1⟩⟩ ∧
      graphene_simd4f_is_zero3
        (graphene_matrix_normalize (perspective_column_example : graphene_matrix_t K)).value.w =
        true) := by
  have h5 : (5 : K) ≠ 0 := by norm_num
  refine ⟨⟨?_, ?_, ?_⟩, ⟨?_, ?_, ?_⟩⟩
  · simp [matrix_decompose_3d, graphene_matrix_init_translate, graphene_matrix_get_value,
      get_value_outcome.val, graphene_matrix_normalize, graphene_simd4x4f_init,
      graphene_simd4f_init, graphene_simd4f_div, graphene_simd4f_splat, graphene_simd4f_get_w,
      graphene_matrix_determinant, graphene_simd4x4f_determinant, det4, minors_xy, minors_zw,
      graphene_simd4f_get_x]
  · simp [matrix_decompose_3d, graphene_matrix_init_translate, graphene_matrix_get_value,
      get_value_outcome.val, graphene_matrix_normalize, graphene_simd4x4f_init,
      graphene_simd4f_init, graphene_simd4f_div, graphene_simd4f_splat, graphene_simd4f_get_w,
      graphene_matrix_determinant, graphene_simd4x4f_determinant, det4, minors_xy, minors_zw,
      graphene_simd4f_get_x, graphene_simd4f_is_zero3, graphene_vec4_init, h5]
  · simp [perspectiveCheck, graphene_matrix_init_translate, graphene_matrix_get_value,
      get_value_outcome.val, graphene_matrix_normalize, graphene_simd4x4f_init,
      graphene_simd4f_init, graphene_simd4f_div, graphene_simd4f_splat, graphene_simd4f_get_w,
      graphene_matrix_inverse, graphene_simd4x4f_inverse, det4, minors_xy, minors_zw,
      graphene_simd4f_get_x, graphene_matrix_transpose_transform_vec4, graphene_simd4f_sum,
      graphene_simd4f_mul, graphene_vec4_init]
  · simp [matrix_decompose_3d, perspective_column_example, graphene_matrix_get_value,
      get_value_outcome.val, graphene_matrix_normalize, graphene_simd4x4f_init,
      graphene_simd4f_init, graphene_simd4f_div, graphene_simd4f_splat, graphene_simd4f_get_w,
      graphene_matrix_determinant, graphene_simd4x4f_determinant, det4, minors_xy, minors_zw,
      graphene_simd4f_get_x]
  · simp [matrix_decompose_3d, perspective_column_example, graphene_matrix_get_value,
      get_value_outcome.val, graphene_matrix_normalize, graphene_simd4x4f_init,
      graphene_simd4f_init, graphene_simd4f_div, graphene_simd4f_splat, graphene_simd4f_get_w,
      graphene_matrix_determinant, graphene_simd4x4f_determinant, det4, minors_xy, minors_zw,
      graphene_simd4f_get_x, graphene_simd4f_is_zero3, graphene_vec4_init,
      graphene_matrix_inverse, graphene_simd4x4f_inverse, graphene_matrix_transpose_transform_vec4,
      graphene_simd4f_sum, graphene_simd4f_mul]
  · simp [perspective_column_example, graphene_matrix_get_value,
      get_value_outcome.val, graphene_matrix_normalize, graphene_simd4f_div,
      graphene_simd4f_splat, graphene_simd4f_is_zero3]

/-- In exact arithmetic `graphene_matrix_skew_xz` and `graphene_matrix_skew_yz`
commute, both orders give row z + f * row x + g * row y: the two orders can
differ by rounding only.  In exact arithmetic the order matters for
`graphene_matrix_skew_xy` and `graphene_matrix_skew_yz`, where the second reads
the row that the first has changed. -/
theorem skew_xz_yz_commute (m : graphene_matrix_t K) (f g : K) :
    graphene_matrix_skew_yz (graphene_matrix_skew_xz m f) g =
      graphene_matrix_skew_xz (graphene_matrix_skew_yz m g) f ∧
    (graphene_matrix_skew_yz (graphene_matrix_skew_xz m f) g).value.z =
      ⟨m.value.z.x + f * m.value.x.x + g * m.value.y.x,
       m.value.z.y + f * m.value.x.y + g * m.value.y.y,
       m.value.z.z + f * m.value.x.z + g * m.value.y.z,
       m.value.z.w + f * m.value.x.w + g * m.value.y.w⟩ ∧
    (graphene_matrix_skew_yz (graphene_matrix_skew_xy graphene_matrix_init_identity 1) 1 :
        graphene_matrix_t K).value.z ≠
      (graphene_matrix_skew_xy (graphene_matrix_skew_yz graphene_matrix_init_identity 1) 1 :
        graphene_matrix_t K).value.z := by
  refine ⟨?_, ?_, ?_⟩
  · simp only [graphene_matrix_skew_yz, graphene_matrix_skew_xz, graphene_simd4f_add,
      graphene_simd4f_mul, graphene_simd4f_splat, graphene_matrix_t.mk.injEq,
      graphene_simd4x4f_t.mk.injEq, graphene_simd4f_t.mk.injEq, true_and, and_true]
    refine ⟨?_, ?_, ?_, ?_⟩ <;> ring
  · simp only [graphene_matrix_skew_yz, graphene_matrix_skew_xz, graphene_simd4f_add,
      graphene_simd4f_mul, graphene_simd4f_splat, graphene_simd4f_t.mk.injEq]
    refine ⟨?_, ?_, ?_, ?_⟩ <;> ring
  · simp [graphene_matrix_skew_yz, graphene_matrix_skew_xy, graphene_simd4f_add,
      graphene_simd4f_mul, graphene_simd4f_splat, graphene_matrix_init_identity,
      graphene_simd4x4f_init_identity, graphene_simd4x4f_init, graphene_simd4f_init]

/-- C22 as amended: `graphene_matrix_normalize` divides each of the 16 entries by
m[3][3]: entry (i, j) of the result is entry (i, j) of the input divided by
entry (3, 3), for all i, j below 4; so entry (3, 3) of the result is 1 when
m[3][3] is not 0.  A call with a result matrix that is another object than the
input leaves the input as it was; a call in place, with the input as result
matrix, leaves the result in the input. -/
theorem normalize_entries (m res : graphene_matrix_t K) :
    (∀ i j : Nat, i < 4 → j < 4 →
      (graphene_matrix_get_value (graphene_matrix_normalize m) i j).val =
        (graphene_matrix_get_value m i j).val / (graphene_matrix_get_value m 3 3).val) ∧
    (m.value.w.w ≠ 0 → (graphene_matrix_normalize m).value.w.w = 1) ∧
    graphene_matrix_normalize m =
      ⟨⟨⟨m.value.x.x / m.value.w.w, m.value.x.y / m.value.w.w, m.value.x.z / m.value.w.w,
          m.value.x.w / m.value.w.w⟩,
        ⟨m.value.y.x / m.value.w.w, m.value.y.y / m.value.w.w, m.value.y.z / m.value.w.w,
          m.value.y.w / m.value.w.w⟩,
        ⟨m.value.z.x / m.value.w.w, m.value.z.y / m.value.w.w, m.value.z.z / m.value.w.w,
          m.value.z.w / m.value.w.w⟩,
        ⟨m.value.w.x / m.value.w.w, m.value.w.y / m.value.w.w, m.value.w.z / m.value.w.w,
          m.value.w.w / m.value.w.w⟩⟩⟩ ∧
    graphene_matrix_normalize_call false m res = (m, graphene_matrix_normalize m) ∧
    graphene_matrix_normalize_call true m res =
      (graphene_matrix_normalize m, graphene_matrix_normalize m) := by
  refine ⟨?_, ?_, rfl, rfl, rfl⟩
  · intro i j hi hj
    interval_cases i <;> interval_cases j <;> rfl
  · intro h
    show m.value.w.w / m.value.w.w = 1
    exact div_self h

/-- C23: for every y and z the matrix `graphene_matrix_init_scale 0 y z` has
determinant 0, `graphene_matrix_is_singular` is TRUE on it and
`matrix_decompose_2d` returns FALSE on it. -/
theorem init_scale_zero_singular (L : libm K) (y z : K) (o : decompose_2d_out K) :
    graphene_matrix_determinant (graphene_matrix_init_scale 0 y z) = 0 ∧
    graphene_matrix_is_singular (graphene_matrix_init_scale 0 y z) = true ∧
    (matrix_decompose_2d L (graphene_matrix_init_scale 0 y z) o).1 = false := by
  have hdet : graphene_matrix_determinant (graphene_matrix_init_scale 0 y z) = 0 := by
    simp [graphene_matrix_determinant, graphene_simd4x4f_determinant, det4, minors_xy,
      minors_zw, graphene_simd4f_splat, graphene_simd4f_get_x, graphene_matrix_init_scale,
      graphene_simd4x4f_init, graphene_simd4f_init]
  refine ⟨hdet, ?_, ?_⟩
  · simp [graphene_matrix_is_singular, hdet]
  · have hA : (graphene_matrix_get_value (graphene_matrix_init_scale 0 y z) 0 0).val = 0 := rfl
    have hB : (graphene_matrix_get_value (graphene_matrix_init_scale 0 y z) 1 0).val = 0 := rfl
    unfold matrix_decompose_2d
    simp only [hA, hB, zero_mul, if_true]

/-- After `matrix_decompose_2d` the z scale is 1 when it was 1 before the call:
the function stores 1 on success and nothing on failure. -/
theorem decompose_2d_scale_z (L : libm K) (m : graphene_matrix_t K) (o : decompose_2d_out K)
    (h : o.scale_r.z = 1) : (matrix_decompose_2d L m o).2.scale_r.z = 1 := by
  unfold matrix_decompose_2d
  by_cases hc : (graphene_matrix_get_value m 0 0).val * (graphene_matrix_get_value m 1 1).val =
      (graphene_matrix_get_value m 1 0).val * (graphene_matrix_get_value m 0 1).val
  · simp only [hc, if_true, h]
  · simp only [hc, if_false, graphene_point3d_init]

/-- C28: when both inputs are 2D-affine, `graphene_matrix_interpolate` applies no
scale composition, at any factor: both decomposed z scales are 1, so is the
interpolated one, and the result is the matrix recomposed up to the skews; the
result is the same whatever x and y scales are put in the place of the
decomposed ones. -/
theorem interpolate_2d_never_scales (L : libm K) (Q : quaternion_ops K)
    (a b : graphene_matrix_t K) (factor : K) (u : interpolate_frame K)
    (ha : graphene_matrix_is_2d a = true) (hb : graphene_matrix_is_2d b = true) :
    let d := interpolate_decompose L Q a b u
    d.1.scale_r.z = 1 ∧ d.2.scale_r.z = 1 ∧
    (graphene_point3d_interpolate d.1.scale_r d.2.scale_r factor).z = 1 ∧
    graphene_matrix_interpolate L Q a b factor u = interpolate_unscaled Q d.1 d.2 factor u.res ∧
    ∀ sx sy tx ty : K,
      interpolate_recompose Q
        ⟨⟨sx, sy, 1⟩, d.1.shear_r, d.1.rotate_r, d.1.translate_r, d.1.perspective_r⟩
        ⟨⟨tx, ty, 1⟩, d.2.shear_r, d.2.rotate_r, d.2.translate_r, d.2.perspective_r⟩
        factor u.res = graphene_matrix_interpolate L Q a b factor u := by
  intro d
  have h1 : d.1.scale_r.z = 1 := by
    simp only [d, interpolate_decompose, ha, hb, Bool.and_self, if_true]
    exact decompose_2d_scale_z L a _ rfl
  have h2 : d.2.scale_r.z = 1 := by
    simp only [d, interpolate_decompose, ha, hb, Bool.and_self, if_true]
    exact decompose_2d_scale_z L b _ rfl
  have h3 : (graphene_point3d_interpolate d.1.scale_r d.2.scale_r factor).z = 1 := by
    simp [graphene_point3d_interpolate, h1, h2]
  have h4 : graphene_matrix_interpolate L Q a b factor u =
      interpolate_unscaled Q d.1 d.2 factor u.res := by
    show interpolate_recompose Q d.1 d.2 factor u.res = _
    unfold interpolate_recompose
    apply if_neg
    rintro ⟨-, -, hz⟩
    exact hz h3
  refine ⟨h1, h2, h3, h4, ?_⟩
  intro sx sy tx ty
  rw [h4]
  unfold interpolate_recompose
  rw [if_neg]
  · rfl
  · rintro ⟨-, -, hz⟩
    apply hz
    simp [graphene_point3d_interpolate]

/-- The dot product that the code reads from lane x of `graphene_simd4f_dot4`. -/
theorem get_x_dot4 (a b : graphene_simd4f_t K) :
    graphene_simd4f_get_x (graphene_simd4f_dot4 a b) = dot4 a b := rfl

/-- The dot product is symmetric. -/
theorem dot4_comm (a b : graphene_simd4f_t K) : dot4 a b = dot4 b a := by
  simp only [dot4]
  ring

/-- The dot product of a row divided by a scalar. -/
theorem dot4_div_left (a b : graphene_simd4f_t K) (s : K) :
    dot4 (graphene_simd4f_div a (graphene_simd4f_splat s)) b = dot4 a b / s := by
  simp only [dot4, graphene_simd4f_div, graphene_simd4f_splat]
  ring

/-- The dot product of a difference of rows. -/
theorem dot4_sub_left (a b c : graphene_simd4f_t K) :
    dot4 (graphene_simd4f_sub a b) c = dot4 a c - dot4 b c := by
  simp only [dot4, graphene_simd4f_sub]
  ring

/-- The dot product of a row multiplied by a scalar. -/
theorem dot4_mul_left (a b : graphene_simd4f_t K) (k : K) :
    dot4 (graphene_simd4f_mul a (graphene_simd4f_splat k)) b = k * dot4 a b := by
  simp only [dot4, graphene_simd4f_mul, graphene_simd4f_splat]
  ring

/-- A row whose dot product with itself is 0 is the zero row. -/
theorem eq_zero_of_dot4_self (v : graphene_simd4f_t K) (h : dot4 v v = 0) :
    v = ⟨0, 0, 0, 0⟩ := by
  obtain ⟨a, b, c, d⟩ := v
  simp only [dot4] at h
  have ha := mul_self_nonneg a
  have hb := mul_self_nonneg b
  have hc := mul_self_nonneg c
  have hd := mul_self_nonneg d
  have a0 : a = 0 := mul_self_eq_zero.mp (by linarith)
  have b0 : b = 0 := mul_self_eq_zero.mp (by linarith)
  have c0 : c = 0 := mul_self_eq_zero.mp (by linarith)
  have d0 : d = 0 := mul_self_eq_zero.mp (by linarith)
  rw [a0, b0, c0, d0]

/-- The dot product of a row with itself is not negative. -/
theorem dot4_self_nonneg (v : graphene_simd4f_t K) : 0 ≤ dot4 v v := by
  simp only [dot4]
  have ha := mul_self_nonneg v.x
  have hb := mul_self_nonneg v.y
  have hc := mul_self_nonneg v.z
  have hd := mul_self_nonneg v.w
  linarith

/-- The determinant is 0 when the first row is zero. -/
theorem det4_zero_row_x (y z w : graphene_simd4f_t K) : det4 ⟨⟨0, 0, 0, 0⟩, y, z, w⟩ = 0 := by
  simp only [det4, minors_xy, minors_zw]
  ring

/-- The determinant is 0 when the second row minus a multiple of the scaled first
row is zero. -/
theorem det4_zero_of_parallel (x y z w : graphene_simd4f_t K) (s k : K)
    (h : graphene_simd4f_sub y
      (graphene_simd4f_mul (graphene_simd4f_div x (graphene_simd4f_splat s))
        (graphene_simd4f_splat k)) = ⟨0, 0, 0, 0⟩) :
    det4 ⟨x, y, z, w⟩ = 0 := by
  obtain ⟨x0, x1, x2, x3⟩ := x
  obtain ⟨y0, y1, y2, y3⟩ := y
  simp only [graphene_simd4f_sub, graphene_simd4f_mul, graphene_simd4f_div,
    graphene_simd4f_splat, graphene_simd4f_t.mk.injEq] at h
  obtain ⟨h0, h1, h2, h3⟩ := h
  have e0 : y0 = x0 / s * k := by linarith
  have e1 : y1 = x1 / s * k := by linarith
  have e2 : y2 = x2 / s * k := by linarith
  have e3 : y3 = x3 / s * k := by linarith
  simp only [det4, minors_xy, minors_zw, e0, e1, e2, e3]
  ring

/-- The determinant is 0 when the third row minus multiples of the two rows that
Gram-Schmidt makes of the first two is zero. -/
theorem det4_zero_of_span (x y z w : graphene_simd4f_t K) (sx sy al be ga : K)
    (h : graphene_simd4f_sub
      (graphene_simd4f_sub z
        (graphene_simd4f_mul (graphene_simd4f_div x (graphene_simd4f_splat sx))
          (graphene_simd4f_splat al)))
      (graphene_simd4f_mul
        (graphene_simd4f_div
          (graphene_simd4f_sub y
            (graphene_simd4f_mul (graphene_simd4f_div x (graphene_simd4f_splat sx))
              (graphene_simd4f_splat ga)))
          (graphene_simd4f_splat sy))
        (graphene_simd4f_splat be)) = ⟨0, 0, 0, 0⟩) :
    det4 ⟨x, y, z, w⟩ = 0 := by
  obtain ⟨x0, x1, x2, x3⟩ := x
  obtain ⟨y0, y1, y2, y3⟩ := y
  obtain ⟨z0, z1, z2, z3⟩ := z
  simp only [graphene_simd4f_sub, graphene_simd4f_mul, graphene_simd4f_div,
    graphene_simd4f_splat, graphene_simd4f_t.mk.injEq] at h
  obtain ⟨h0, h1, h2, h3⟩ := h
  have e0 : z0 = x0 / sx * al + (y0 - x0 / sx * ga) / sy * be := by linarith
  have e1 : z1 = x1 / sx * al + (y1 - x1 / sx * ga) / sy * be := by linarith
  have e2 : z2 = x2 / sx * al + (y2 - x2 / sx * ga) / sy * be := by linarith
  have e3 : z3 = x3 / sx * al + (y3 - x3 / sx * ga) / sy * be := by linarith
  simp only [det4, minors_xy, minors_zw, e0, e1, e2, e3]
  ring

/-- The outputs of `matrix_decompose_3d` on a matrix that passes both checks, in
terms of its locals: the scales are the three scale factors, all three negated
when the triple product of the rows of `local` is negative; the shears are the
three shear factors; the rotation is what the quaternion module makes of the
rows of `local`, which the flip does not touch. -/
theorem decompose_3d_outputs_of_locals (L : libm K) (Q : quaternion_ops K)
    (m : graphene_matrix_t K) (o : decompose_3d_out K) (h1 : m.value.w.w ≠ 0)
    (h2 : graphene_matrix_determinant (perspectiveCheck m) ≠ 0) :
    let l := matrix_decompose_3d_locals L m
    (matrix_decompose_3d L Q m o).1 = true ∧
    (matrix_decompose_3d L Q m o).2.scale_r =
      ⟨if triple_product l.local_x l.local_y l.local_z < 0 then l.scale_x * -1 else l.scale_x,
       if triple_product l.local_x l.local_y l.local_z < 0 then l.scale_y * -1 else l.scale_y,
       if triple_product l.local_x l.local_y l.local_z < 0 then l.scale_z * -1 else l.scale_z⟩ ∧
    (matrix_decompose_3d L Q m o).2.shear_r = ⟨l.shear_xy, l.shear_xz, l.shear_yz⟩ ∧
    (matrix_decompose_3d L Q m o).2.rotate_r =
      Q.graphene_quaternion_init_from_matrix
        ⟨⟨l.local_x, l.local_y, l.local_z, l.local_w⟩⟩ := by
  intro l
  have hww : (graphene_matrix_get_value m 3 3).val = m.value.w.w := rfl
  simp only [l]
  unfold matrix_decompose_3d matrix_decompose_3d_locals triple_product
  simp only [hww, h1, if_false, perspective_eq_perspectiveCheck, h2, decide_eq_true_eq,
    graphene_point3d_init, true_and]

/-- C32: repeated skews along the same axis pair add up: a skew by f followed by
a skew by g is the skew by f + g, for `graphene_matrix_skew_xy`,
`graphene_matrix_skew_xz` and `graphene_matrix_skew_yz`; the skew by 0 leaves
the matrix unchanged and the skew by -f undoes the skew by f. -/
theorem skew_additive (m : graphene_matrix_t K) (f g : K) :
    (graphene_matrix_skew_xy (graphene_matrix_skew_xy m f) g = graphene_matrix_skew_xy m (f + g) ∧
     graphene_matrix_skew_xz (graphene_matrix_skew_xz m f) g = graphene_matrix_skew_xz m (f + g) ∧
     graphene_matrix_skew_yz (graphene_matrix_skew_yz m f) g =
       graphene_matrix_skew_yz m (f + g)) ∧
    (graphene_matrix_skew_xy m 0 = m ∧ graphene_matrix_skew_xz m 0 = m ∧
     graphene_matrix_skew_yz m 0 = m) ∧
    (graphene_matrix_skew_xy (graphene_matrix_skew_xy m f) (-f) = m ∧
     graphene_matrix_skew_xz (graphene_matrix_skew_xz m f) (-f) = m ∧
     graphene_matrix_skew_yz (graphene_matrix_skew_yz m f) (-f) = m) := by
  obtain ⟨⟨⟨x0, x1, x2, x3⟩, ⟨y0, y1, y2, y3⟩, ⟨z0, z1, z2, z3⟩, w⟩⟩ := m
  refine ⟨⟨?_, ?_, ?_⟩, ⟨?_, ?_, ?_⟩, ⟨?_, ?_, ?_⟩⟩ <;>
    simp only [graphene_matrix_skew_xy, graphene_matrix_skew_xz, graphene_matrix_skew_yz,
      graphene_simd4f_add, graphene_simd4f_mul, graphene_simd4f_splat,
      graphene_matrix_t.mk.injEq, graphene_simd4x4f_t.mk.injEq, graphene_simd4f_t.mk.injEq,
      true_and, and_true] <;>
    refine ⟨?_, ?_, ?_, ?_⟩ <;> ring

end results

/-- C31: the guards of `graphene_matrix_get_value` do not keep the column switch
away from its `g_assert_not_reached` branch.  The second guard tests
`col >= 0 && row < 4`, so a column index of 4 or more with a row index below 4
passes both guards and enters the default branch of the column switch; row 0,
column 4 is such a call.  A row index of 4 or more is rejected by the first
guard, the default branch of the row switch is never entered, and for row and
column both below 4 the entry is returned. -/
theorem get_value_column_guard {K : Type} (m : graphene_matrix_t K) :
    graphene_matrix_get_value m 0 4 = get_value_outcome.not_reached ∧
    (∀ row col : Nat, row < 4 → 4 ≤ col →
      graphene_matrix_get_value m row col = get_value_outcome.not_reached) ∧
    (∀ row col : Nat, 4 ≤ row →
      graphene_matrix_get_value m row col = get_value_outcome.guard_failed) ∧
    (graphene_matrix_get_value m 0 0 = get_value_outcome.returned m.value.x.x ∧
     graphene_matrix_get_value m 0 1 = get_value_outcome.returned m.value.x.y ∧
     graphene_matrix_get_value m 0 2 = get_value_outcome.returned m.value.x.z ∧
     graphene_matrix_get_value m 0 3 = get_value_outcome.returned m.value.x.w ∧
     graphene_matrix_get_value m 1 0 = get_value_outcome.returned m.value.y.x ∧
     graphene_matrix_get_value m 1 1 = get_value_outcome.returned m.value.y.y ∧
     graphene_matrix_get_value m 1 2 = get_value_outcome.returned m.value.y.z ∧
     graphene_matrix_get_value m 1 3 = get_value_outcome.returned m.value.y.w ∧
     graphene_matrix_get_value m 2 0 = get_value_outcome.returned m.value.z.x ∧
     graphene_matrix_get_value m 2 1 = get_value_outcome.returned m.value.z.y ∧
     graphene_matrix_get_value m 2 2 = get_value_outcome.returned m.value.z.z ∧
     graphene_matrix_get_value m 2 3 = get_value_outcome.returned m.value.z.w ∧
     graphene_matrix_get_value m 3 0 = get_value_outcome.returned m.value.w.x ∧
     graphene_matrix_get_value m 3 1 = get_value_outcome.returned m.value.w.y ∧
     graphene_matrix_get_value m 3 2 = get_value_outcome.returned m.value.w.z ∧
     graphene_matrix_get_value m 3 3 = get_value_outcome.returned m.value.w.w) := by
  refine ⟨rfl, ?_, ?_, ⟨rfl, rfl, rfl, rfl, rfl, rfl, rfl, rfl, rfl, rfl, rfl, rfl, rfl, rfl,
    rfl, rfl⟩⟩
  · intro row col hr hc
    obtain ⟨k, rfl⟩ : ∃ k, col = k + 4 := ⟨col - 4, by omega⟩
    interval_cases row <;> rfl
  · intro row col hr
    unfold graphene_matrix_get_value
    rw [if_pos]
    omega

/-! ### Results over the real numbers -/

/-- The angle of the point (1, 0) is 0. -/
theorem atan2f_zero_one : libm_real.atan2f 0 1 = 0 := by
  show Complex.arg ⟨1, 0⟩ = 0
  have h : (⟨1, 0⟩ : ℂ) = 1 := by
    apply Complex.ext <;> simp
  rw [h, Complex.arg_one]

/-- The 2D decomposition of `graphene_matrix_init_scale` with positive x and y
factors: it succeeds with scale (x, y, 1), no XY shear, the identity rotation
and no translation. -/
theorem decompose_2d_init_scale (sx sy sz : ℝ) (hx : 0 < sx) (hy : 0 < sy)
    (o : decompose_2d_out ℝ) :
    matrix_decompose_2d libm_real (graphene_matrix_init_scale sx sy sz) o =
      (true, ⟨⟨sx, sy, 1⟩, ⟨0, o.shear_r.xz_shear, o.shear_r.yz_shear⟩, quaternion_identity,
        ⟨0, 0, 0⟩⟩) := by
  have hA : (graphene_matrix_get_value (graphene_matrix_init_scale sx sy sz) 0 0).val = sx := rfl
  have hB : (graphene_matrix_get_value (graphene_matrix_init_scale sx sy sz) 1 0).val = 0 := rfl
  have hC : (graphene_matrix_get_value (graphene_matrix_init_scale sx sy sz) 0 1).val = 0 := rfl
  have hD : (graphene_matrix_get_value (graphene_matrix_init_scale sx sy sz) 1 1).val = sy := rfl
  have hT0 : (graphene_matrix_get_value (graphene_matrix_init_scale sx sy sz) 3 0).val = 0 := rfl
  have hT1 : (graphene_matrix_get_value (graphene_matrix_init_scale sx sy sz) 3 1).val = 0 := rfl
  have hne : ¬ (sx * sy = 0 * 0) := by
    have := mul_pos hx hy
    linarith
  have hsx : Real.sqrt (sx * sx + 0 * 0) = sx := by
    rw [mul_zero, add_zero, Real.sqrt_mul_self hx.le]
  have hxx : sx / sx = 1 := div_self hx.ne.symm
  have hsy : Real.sqrt ((0 - 1 * (1 * 0 + 0 / sx * sy)) * (0 - 1 * (1 * 0 + 0 / sx * sy)) +
      (sy - 0 / sx * (1 * 0 + 0 / sx * sy)) * (sy - 0 / sx * (1 * 0 + 0 / sx * sy))) = sy := by
    have : (0 - 1 * (1 * 0 + 0 / sx * sy)) * (0 - 1 * (1 * 0 + 0 / sx * sy)) +
      (sy - 0 / sx * (1 * 0 + 0 / sx * sy)) * (sy - 0 / sx * (1 * 0 + 0 / sx * sy)) = sy * sy := by
      simp
    rw [this, Real.sqrt_mul_self hy.le]
  unfold matrix_decompose_2d
  simp only [hA, hB, hC, hD, hT0, hT1, hne, if_false]
  simp only [libm_real, hsx, hxx, hsy]
  have hyy : sy / sy = 1 := div_self hy.ne.symm
  have harg := atan2f_zero_one
  simp only [libm_real] at harg
  have h10 : ¬ ((1 : ℝ) < 0) := by norm_num
  simp [graphene_quaternion_init, graphene_point3d_init, quaternion_identity, hyy, h10, harg]

/-- The decomposition step of `graphene_matrix_interpolate` on two matrices built
by `graphene_matrix_init_scale` with positive x and y factors and z factor 1:
the 2D path yields their scales and otherwise the components of the identity. -/
theorem interpolate_decompose_init_scale (Q : quaternion_ops ℝ) (ax ay bx b_y : ℝ)
    (hax : 0 < ax) (hay : 0 < ay) (hbx : 0 < bx) (hby : 0 < b_y) (u : interpolate_frame ℝ) :
    interpolate_decompose libm_real Q (graphene_matrix_init_scale ax ay 1)
        (graphene_matrix_init_scale bx b_y 1) u =
      (⟨⟨ax, ay, 1⟩, ⟨0, 0, 0⟩, quaternion_identity, ⟨0, 0, 0⟩, ⟨⟨0, 0, 0, 1⟩⟩⟩,
       ⟨⟨bx, b_y, 1⟩, ⟨0, 0, 0⟩, quaternion_identity, ⟨0, 0, 0⟩, ⟨⟨0, 0, 0, 1⟩⟩⟩) := by
  unfold interpolate_decompose
  simp only [is_2d_init_scale, Bool.and_self, if_true, decompose_2d_init_scale _ _ _ hax hay,
    decompose_2d_init_scale _ _ _ hbx hby, graphene_vec4_init, graphene_simd4f_init]

/-- With a result matrix that holds the identity before the call, and a
quaternion module that maps the interpolated identity rotation to the identity
matrix, `graphene_matrix_interpolate` on two identity matrices returns the
identity matrix. -/
theorem interpolate_identity_of_identity_result (Q : quaternion_ops ℝ) (factor : ℝ)
    (u : interpolate_frame ℝ) (res : graphene_matrix_t ℝ)
    (hQ : Q.graphene_quaternion_to_matrix
      (Q.graphene_quaternion_slerp quaternion_identity quaternion_identity factor) =
        graphene_matrix_init_identity) :
    graphene_matrix_interpolate libm_real Q graphene_matrix_init_identity
        graphene_matrix_init_identity factor (u.with_res res) =
      ⟨⟨res.value.x, res.value.y, res.value.z, ⟨0, 0, 0, 1⟩⟩⟩ := by
  have hd := interpolate_decompose_init_scale Q 1 1 1 1 one_pos one_pos one_pos one_pos
    (u.with_res res)
  have hI : (graphene_matrix_init_scale 1 1 1 : graphene_matrix_t ℝ) =
      graphene_matrix_init_identity := rfl
  rw [hI] at hd
  unfold graphene_matrix_interpolate
  simp only [hd]
  simp only [interpolate_recompose, interpolate_unscaled_plain Q _ _ factor _ hQ,
    graphene_point3d_interpolate, sub_self, zero_mul, add_zero, ne_eq, not_true_eq_false,
    false_and, and_false, if_false, interpolate_frame.with_res]

/-- The textbook quaternion module maps the interpolated identity rotation to the
identity matrix, at every factor. -/
theorem quaternion_real_identity (factor : ℝ) :
    quaternion_real.graphene_quaternion_to_matrix
      (quaternion_real.graphene_quaternion_slerp quaternion_identity quaternion_identity factor) =
        graphene_matrix_init_identity := by
  have h10 : ¬ ((1 : ℝ) < 0) := by norm_num
  simp [quaternion_real, quaternion_identity, graphene_matrix_init_identity,
    graphene_simd4x4f_init_identity, graphene_simd4x4f_init, graphene_simd4f_init, h10]

/-- C2: the matrix produced by `graphene_matrix_interpolate` depends on what the
result matrix held before the call: on two identity matrices, with a quaternion
module that maps the interpolated identity rotation to the identity matrix, a
result matrix that held the identity and one that held zeros come out
different. -/
theorem interpolate_depends_on_prior_result (Q : quaternion_ops ℝ) (factor : ℝ)
    (u : interpolate_frame ℝ)
    (hQ : Q.graphene_quaternion_to_matrix
      (Q.graphene_quaternion_slerp quaternion_identity quaternion_identity factor) =
        graphene_matrix_init_identity) :
    graphene_matrix_interpolate libm_real Q graphene_matrix_init_identity
        graphene_matrix_init_identity factor (u.with_res graphene_matrix_init_identity) ≠
      graphene_matrix_interpolate libm_real Q graphene_matrix_init_identity
        graphene_matrix_init_identity factor (u.with_res zero_matrix) := by
  rw [interpolate_identity_of_identity_result Q factor u _ hQ,
    interpolate_identity_of_identity_result Q factor u _ hQ]
  simp [graphene_matrix_init_identity, graphene_simd4x4f_init_identity, graphene_simd4x4f_init,
    graphene_simd4f_init, zero_matrix]

/-- The instance of C2 at the textbook quaternion module, factor 1/2. -/
theorem interpolate_depends_on_prior_result_witness :
    quaternion_real.graphene_quaternion_to_matrix
      (quaternion_real.graphene_quaternion_slerp quaternion_identity quaternion_identity (1 / 2)) =
        graphene_matrix_init_identity ∧
    graphene_matrix_interpolate libm_real quaternion_real graphene_matrix_init_identity
        graphene_matrix_init_identity (1 / 2) (stale_frame.with_res graphene_matrix_init_identity) ≠
      graphene_matrix_interpolate libm_real quaternion_real graphene_matrix_init_identity
        graphene_matrix_init_identity (1 / 2) (stale_frame.with_res zero_matrix) :=
  ⟨quaternion_real_identity (1 / 2),
   interpolate_depends_on_prior_result quaternion_real (1 / 2) stale_frame
    (quaternion_real_identity (1 / 2))⟩

/-- C3: `graphene_matrix_interpolate` does not reproduce
`graphene_matrix_init_scale 2 1 1` from itself, at factor 0, at factor 1 or at
any other factor: even with a result matrix that held the identity before the
call, and a quaternion module that maps the interpolated identity rotation to
the identity matrix, it returns the identity matrix, because the decomposed
scale (2, 1, 1) has a component equal to 1 and the scale step is skipped. -/
theorem interpolate_init_scale_not_reproduced (Q : quaternion_ops ℝ) (factor : ℝ)
    (u : interpolate_frame ℝ)
    (hQ : Q.graphene_quaternion_to_matrix
      (Q.graphene_quaternion_slerp quaternion_identity quaternion_identity factor) =
        graphene_matrix_init_identity) :
    graphene_matrix_interpolate libm_real Q (graphene_matrix_init_scale 2 1 1)
        (graphene_matrix_init_scale 2 1 1) factor (u.with_res graphene_matrix_init_identity) =
      graphene_matrix_init_identity ∧
    graphene_matrix_interpolate libm_real Q (graphene_matrix_init_scale 2 1 1)
        (graphene_matrix_init_scale 2 1 1) factor (u.with_res graphene_matrix_init_identity) ≠
      graphene_matrix_init_scale 2 1 1 := by
  have hd := interpolate_decompose_init_scale Q 2 1 2 1 two_pos one_pos two_pos one_pos
    (u.with_res graphene_matrix_init_identity)
  have h : graphene_matrix_interpolate libm_real Q (graphene_matrix_init_scale 2 1 1)
      (graphene_matrix_init_scale 2 1 1) factor (u.with_res graphene_matrix_init_identity) =
      graphene_matrix_init_identity := by
    unfold graphene_matrix_interpolate
    simp only [hd]
    simp only [interpolate_recompose, interpolate_unscaled_plain Q _ _ factor _ hQ,
      graphene_point3d_interpolate, sub_self, zero_mul, add_zero, ne_eq, not_true_eq_false,
      false_and, and_false, if_false, interpolate_frame.with_res]
    rfl
  refine ⟨h, ?_⟩
  rw [h]
  simp [graphene_matrix_init_identity, graphene_simd4x4f_init_identity, graphene_simd4x4f_init,
    graphene_simd4f_init, graphene_matrix_init_scale]

/-- The instance of C3 at the textbook quaternion module, factor 0. -/
theorem interpolate_init_scale_not_reproduced_witness :
    quaternion_real.graphene_quaternion_to_matrix
      (quaternion_real.graphene_quaternion_slerp quaternion_identity quaternion_identity 0) =
        graphene_matrix_init_identity ∧
    graphene_matrix_interpolate libm_real quaternion_real (graphene_matrix_init_scale 2 1 1)
        (graphene_matrix_init_scale 2 1 1) 0 (stale_frame.with_res graphene_matrix_init_identity) =
      graphene_matrix_init_identity ∧
    graphene_matrix_interpolate libm_real quaternion_real (graphene_matrix_init_scale 2 1 1)
        (graphene_matrix_init_scale 2 1 1) 0 (stale_frame.with_res graphene_matrix_init_identity) ≠
      graphene_matrix_init_scale 2 1 1 :=
  ⟨quaternion_real_identity 0,
   interpolate_init_scale_not_reproduced quaternion_real 0 stale_frame
    (quaternion_real_identity 0)⟩

/-- The 3D decomposition of the identity matrix, up to the rotation that it asks
of the quaternion module: it succeeds with unit scale, no shear, no translation
and perspective (0, 0, 0, 1), and hands the identity matrix to the quaternion
module. -/
theorem decompose_3d_identity (Q : quaternion_ops ℝ) (o : decompose_3d_out ℝ) :
    matrix_decompose_3d libm_real Q graphene_matrix_init_identity o =
      (true, ⟨⟨1, 1, 1⟩, ⟨0, 0, 0⟩,
        Q.graphene_quaternion_init_from_matrix graphene_matrix_init_identity, ⟨0, 0, 0⟩,
        ⟨⟨0, 0, 0, 1⟩⟩⟩) := by
  have h10 : ¬ ((1 : ℝ) < 0) := by norm_num
  simp [matrix_decompose_3d, graphene_matrix_normalize, graphene_matrix_get_value,
    get_value_outcome.val, graphene_matrix_init_identity, graphene_simd4x4f_init_identity,
    graphene_simd4x4f_init, graphene_simd4f_init, graphene_simd4f_div, graphene_simd4f_splat,
    graphene_simd4f_get_x, graphene_simd4f_get_y, graphene_simd4f_get_z, graphene_simd4f_get_w,
    graphene_matrix_determinant, graphene_simd4x4f_determinant, det4, minors_xy, minors_zw,
    graphene_simd4f_is_zero3, graphene_matrix_inverse, graphene_simd4x4f_inverse,
    graphene_matrix_transpose_transform_vec4, graphene_simd4f_sum, graphene_simd4f_mul,
    graphene_vec4_init, graphene_simd4f_length4, graphene_simd4f_dot4, graphene_simd4f_sub,
    graphene_simd4f_cross3, graphene_point3d_init, libm_real, h10]

/-- The textbook quaternion module extracts the identity quaternion from the
identity matrix. -/
theorem quaternion_real_of_identity :
    quaternion_real.graphene_quaternion_init_from_matrix graphene_matrix_init_identity =
      quaternion_identity := by
  have h4 : Real.sqrt (1 + 1 + 1 + 1) = 2 := by
    have h : (1 + 1 + 1 + 1 : ℝ) = 2 * 2 := by norm_num
    rw [h, Real.sqrt_mul_self (by norm_num)]
  have hm : max (1 + 1 + 1 + 1 : ℝ) 0 = 1 + 1 + 1 + 1 := max_eq_left (by norm_num)
  have h00 : ¬ ((0 : ℝ) < 0) := lt_irrefl 0
  simp [quaternion_real, quaternion_identity, graphene_matrix_init_identity,
    graphene_simd4x4f_init_identity, graphene_simd4x4f_init, graphene_simd4f_init, hm, h4, h00]

/-- C6: decomposing the identity matrix succeeds and yields translation
(0, 0, 0), scale (1, 1, 1), shear (0, 0, 0), the identity rotation (0, 0, 0, 1)
and perspective (0, 0, 0, 1): on the 2D path, where `matrix_decompose_2d`
writes the XY shear and the caller `graphene_matrix_interpolate` supplies the
two other shear cells and the perspective, and on the 3D path, for a
quaternion module that extracts the identity quaternion from the identity
matrix. -/
theorem decompose_identity (Q : quaternion_ops ℝ)
    (hQ : Q.graphene_quaternion_init_from_matrix graphene_matrix_init_identity =
      quaternion_identity)
    (o2 : decompose_2d_out ℝ) (o3 : decompose_3d_out ℝ) (u : interpolate_frame ℝ) :
    matrix_decompose_2d libm_real graphene_matrix_init_identity o2 =
      (true, ⟨⟨1, 1, 1⟩, ⟨0, o2.shear_r.xz_shear, o2.shear_r.yz_shear⟩, quaternion_identity,
        ⟨0, 0, 0⟩⟩) ∧
    interpolate_decompose libm_real Q graphene_matrix_init_identity
        graphene_matrix_init_identity u = (identity_components, identity_components) ∧
    matrix_decompose_3d libm_real Q graphene_matrix_init_identity o3 =
      (true, identity_components) := by
  refine ⟨?_, ?_, ?_⟩
  · exact decompose_2d_init_scale 1 1 1 one_pos one_pos o2
  · exact interpolate_decompose_init_scale Q 1 1 1 1 one_pos one_pos one_pos one_pos u
  · rw [decompose_3d_identity, hQ]
    rfl

/-- The instance of C6 at the textbook quaternion module. -/
theorem decompose_identity_witness :
    quaternion_real.graphene_quaternion_init_from_matrix graphene_matrix_init_identity =
      quaternion_identity ∧
    matrix_decompose_3d libm_real quaternion_real graphene_matrix_init_identity
      ⟨⟨5, 6, 7⟩, ⟨1, 2, 3⟩, ⟨1, 0, 0, 0⟩, ⟨5, 6, 7⟩, ⟨⟨1, 2, 3, 4⟩⟩⟩ =
      (true, identity_components) :=
  ⟨quaternion_real_of_identity,
   (decompose_identity quaternion_real quaternion_real_of_identity
      ⟨⟨5, 6, 7⟩, ⟨1, 2, 3⟩, ⟨1, 0, 0, 0⟩, ⟨5, 6, 7⟩⟩
      ⟨⟨5, 6, 7⟩, ⟨1, 2, 3⟩, ⟨1, 0, 0, 0⟩, ⟨5, 6, 7⟩, ⟨⟨1, 2, 3, 4⟩⟩⟩ stale_frame).2.2⟩

/-- The 3D decomposition of `graphene_matrix_init_scale 2 3 4`, up to the
rotation that it asks of the quaternion module: it succeeds with scale
(2, 3, 4), no shear, no translation and perspective (0, 0, 0, 1), and hands the
identity matrix to the quaternion module. -/
theorem decompose_3d_init_scale (Q : quaternion_ops ℝ) (o : decompose_3d_out ℝ) :
    matrix_decompose_3d libm_real Q (graphene_matrix_init_scale 2 3 4) o =
      (true, ⟨⟨2, 3, 4⟩, ⟨0, 0, 0⟩,
        Q.graphene_quaternion_init_from_matrix graphene_matrix_init_identity, ⟨0, 0, 0⟩,
        ⟨⟨0, 0, 0, 1⟩⟩⟩) := by
  have h10 : ¬ ((1 : ℝ) < 0) := by norm_num
  have s2 : Real.sqrt (2 * 2) = 2 := Real.sqrt_mul_self (by norm_num)
  have s3 : Real.sqrt (3 * 3) = 3 := Real.sqrt_mul_self (by norm_num)
  have s4 : Real.sqrt (4 * 4) = 4 := Real.sqrt_mul_self (by norm_num)
  simp [matrix_decompose_3d, graphene_matrix_normalize, graphene_matrix_get_value,
    get_value_outcome.val, graphene_matrix_init_identity, graphene_simd4x4f_init_identity,
    graphene_matrix_init_scale,
    graphene_simd4x4f_init, graphene_simd4f_init, graphene_simd4f_div, graphene_simd4f_splat,
    graphene_simd4f_get_x, graphene_simd4f_get_y, graphene_simd4f_get_z, graphene_simd4f_get_w,
    graphene_matrix_determinant, graphene_simd4x4f_determinant, det4, minors_xy, minors_zw,
    graphene_simd4f_is_zero3, graphene_matrix_inverse, graphene_simd4x4f_inverse,
    graphene_matrix_transpose_transform_vec4, graphene_simd4f_sum, graphene_simd4f_mul,
    graphene_vec4_init, graphene_simd4f_length4, graphene_simd4f_dot4, graphene_simd4f_sub,
    graphene_simd4f_cross3, graphene_point3d_init, libm_real, h10, s2, s3, s4]
  norm_num

/-- The decomposition step of `graphene_matrix_interpolate` on
`graphene_matrix_init_scale 2 3 4` and itself, which is not 2D-affine: the 3D
path yields scale (2, 3, 4) and otherwise the components of the identity. -/
theorem interpolate_decompose_init_scale_3d (u : interpolate_frame ℝ) :
    interpolate_decompose libm_real quaternion_real (graphene_matrix_init_scale 2 3 4)
        (graphene_matrix_init_scale 2 3 4) u =
      (⟨⟨2, 3, 4⟩, ⟨0, 0, 0⟩, quaternion_identity, ⟨0, 0, 0⟩, ⟨⟨0, 0, 0, 1⟩⟩⟩,
       ⟨⟨2, 3, 4⟩, ⟨0, 0, 0⟩, quaternion_identity, ⟨0, 0, 0⟩, ⟨⟨0, 0, 0, 1⟩⟩⟩) := by
  have h2d : graphene_matrix_is_2d (graphene_matrix_init_scale 2 3 4 : graphene_matrix_t ℝ) =
      false := by
    simp [graphene_matrix_is_2d, graphene_simd4x4f_is_2d, graphene_matrix_init_scale,
      graphene_simd4x4f_init, graphene_simd4f_init]
  unfold interpolate_decompose
  simp only [h2d, Bool.and_self, Bool.false_eq_true, if_false, decompose_3d_init_scale,
    quaternion_real_of_identity]

/-- The instance of C8 at `graphene_matrix_init_scale 2 3 4` and itself, factor
1/2, with a result matrix that held the identity before the call: the matrix is
not 2D-affine, the interpolated scale is (2, 3, 4), the matrix recomposed before
the scale step is the identity, and the scale composition is applied to it: the
result is `graphene_matrix_init_scale 2 3 4`. -/
theorem interpolate_scale_applied_iff_witness :
    graphene_matrix_is_2d (graphene_matrix_init_scale 2 3 4 : graphene_matrix_t ℝ) = false ∧
    graphene_point3d_interpolate
      (interpolate_decompose libm_real quaternion_real (graphene_matrix_init_scale 2 3 4)
        (graphene_matrix_init_scale 2 3 4)
        (stale_frame.with_res graphene_matrix_init_identity)).1.scale_r
      (interpolate_decompose libm_real quaternion_real (graphene_matrix_init_scale 2 3 4)
        (graphene_matrix_init_scale 2 3 4)
        (stale_frame.with_res graphene_matrix_init_identity)).2.scale_r (1 / 2) = ⟨2, 3, 4⟩ ∧
    interpolate_unscaled quaternion_real
      (interpolate_decompose libm_real quaternion_real (graphene_matrix_init_scale 2 3 4)
        (graphene_matrix_init_scale 2 3 4)
        (stale_frame.with_res graphene_matrix_init_identity)).1
      (interpolate_decompose libm_real quaternion_real (graphene_matrix_init_scale 2 3 4)
        (graphene_matrix_init_scale 2 3 4)
        (stale_frame.with_res graphene_matrix_init_identity)).2 (1 / 2)
      graphene_matrix_init_identity = graphene_matrix_init_identity ∧
    graphene_matrix_interpolate libm_real quaternion_real (graphene_matrix_init_scale 2 3 4)
        (graphene_matrix_init_scale 2 3 4) (1 / 2)
        (stale_frame.with_res graphene_matrix_init_identity) =
      graphene_matrix_init_scale 2 3 4 := by
  have hd := interpolate_decompose_init_scale_3d (stale_frame.with_res graphene_matrix_init_identity)
  have hs : graphene_point3d_interpolate
      (interpolate_decompose libm_real quaternion_real (graphene_matrix_init_scale 2 3 4)
        (graphene_matrix_init_scale 2 3 4)
        (stale_frame.with_res graphene_matrix_init_identity)).1.scale_r
      (interpolate_decompose libm_real quaternion_real (graphene_matrix_init_scale 2 3 4)
        (graphene_matrix_init_scale 2 3 4)
        (stale_frame.with_res graphene_matrix_init_identity)).2.scale_r (1 / 2) = ⟨2, 3, 4⟩ := by
    rw [hd]
    simp [graphene_point3d_interpolate]
  have hu : interpolate_unscaled quaternion_real
      (interpolate_decompose libm_real quaternion_real (graphene_matrix_init_scale 2 3 4)
        (graphene_matrix_init_scale 2 3 4)
        (stale_frame.with_res graphene_matrix_init_identity)).1
      (interpolate_decompose libm_real quaternion_real (graphene_matrix_init_scale 2 3 4)
        (graphene_matrix_init_scale 2 3 4)
        (stale_frame.with_res graphene_matrix_init_identity)).2 (1 / 2)
      graphene_matrix_init_identity = graphene_matrix_init_identity := by
    rw [hd]
    exact interpolate_unscaled_plain quaternion_real _ _ _ _ (quaternion_real_identity (1 / 2))
  refine ⟨?_, hs, hu, ?_⟩
  · simp [graphene_matrix_is_2d, graphene_simd4x4f_is_2d, graphene_matrix_init_scale,
      graphene_simd4x4f_init, graphene_simd4f_init]
  · have h := ((interpolate_scale_applied_iff libm_real quaternion_real
      (graphene_matrix_init_scale 2 3 4) (graphene_matrix_init_scale 2 3 4) (1 / 2)
      (stale_frame.with_res graphene_matrix_init_identity)).1 (by
        show _ ≠ _ ∧ _ ≠ _ ∧ _ ≠ _
        rw [hs]
        norm_num)).1
    have hu2 : interpolate_unscaled quaternion_real
        (interpolate_decompose libm_real quaternion_real (graphene_matrix_init_scale 2 3 4)
          (graphene_matrix_init_scale 2 3 4)
          (stale_frame.with_res graphene_matrix_init_identity)).1
        (interpolate_decompose libm_real quaternion_real (graphene_matrix_init_scale 2 3 4)
          (graphene_matrix_init_scale 2 3 4)
          (stale_frame.with_res graphene_matrix_init_identity)).2 (1 / 2)
        (stale_frame.with_res graphene_matrix_init_identity).res =
        graphene_matrix_init_identity := hu
    rw [h, hu2, hs]
    simp [graphene_matrix_scale, graphene_simd4x4f_scale, graphene_simd4x4f_init,
      graphene_simd4f_init, graphene_simd4x4f_matrix_mul, graphene_simd4x4f_vec4_mul,
      graphene_simd4f_add, graphene_simd4f_mul, graphene_simd4f_splat,
      graphene_matrix_init_identity, graphene_simd4x4f_init_identity, graphene_matrix_init_scale]

/-- Where `matrix_decompose_2d` divides: for a real matrix with A*D different
from B*C, sqrt(A*A + B*B) is positive and so is the length of the second vector
(C, D) after its component along the normalized (A, B) is removed. -/
theorem decompose_2d_divisors_pos (A B C D : ℝ) (h : A * D ≠ B * C) :
    0 < Real.sqrt (A * A + B * B) ∧
    0 < Real.sqrt
      ((C - A / Real.sqrt (A * A + B * B) *
          (A / Real.sqrt (A * A + B * B) * C + B / Real.sqrt (A * A + B * B) * D)) *
        (C - A / Real.sqrt (A * A + B * B) *
          (A / Real.sqrt (A * A + B * B) * C + B / Real.sqrt (A * A + B * B) * D)) +
       (D - B / Real.sqrt (A * A + B * B) *
          (A / Real.sqrt (A * A + B * B) * C + B / Real.sqrt (A * A + B * B) * D)) *
        (D - B / Real.sqrt (A * A + B * B) *
          (A / Real.sqrt (A * A + B * B) * C + B / Real.sqrt (A * A + B * B) * D))) := by
  have hsum : 0 < A * A + B * B := by
    have ha := mul_self_nonneg A
    have hb := mul_self_nonneg B
    by_contra hn
    have hA0 : A = 0 := mul_self_eq_zero.mp (by linarith)
    have hB0 : B = 0 := mul_self_eq_zero.mp (by linarith)
    exact h (by rw [hA0, hB0]; ring)
  have hsx : 0 < Real.sqrt (A * A + B * B) := Real.sqrt_pos.mpr hsum
  refine ⟨hsx, Real.sqrt_pos.mpr ?_⟩
  generalize hs : Real.sqrt (A * A + B * B) = s at hsx ⊢
  have hcross : A / s * (D - B / s * (A / s * C + B / s * D)) -
      B / s * (C - A / s * (A / s * C + B / s * D)) = (A * D - B * C) / s := by
    field_simp
    ring
  generalize C - A / s * (A / s * C + B / s * D) = C1 at hcross ⊢
  generalize D - B / s * (A / s * C + B / s * D) = D1 at hcross ⊢
  have hc := mul_self_nonneg C1
  have hd1 := mul_self_nonneg D1
  by_contra hn
  have hC0 : C1 = 0 := mul_self_eq_zero.mp (by linarith)
  have hD0 : D1 = 0 := mul_self_eq_zero.mp (by linarith)
  rw [hC0, hD0, mul_zero, mul_zero, sub_zero] at hcross
  have := (div_eq_zero_iff.mp hcross.symm).resolve_right hsx.ne.symm
  exact h (sub_eq_zero.mp this)

/-- C29: `matrix_decompose_2d` does not divide by zero on its success path: for a
real matrix with A*D different from B*C, the divisor scale_x = sqrt(A*A + B*B)
is not 0 and the divisor scale_y, the length of (C, D) after the removal of its
component along the normalized (A, B), is not 0; the x and y scales stored are
these divisors, the first up to its sign. -/
theorem decompose_2d_no_division_by_zero (m : graphene_matrix_t ℝ) (o : decompose_2d_out ℝ)
    (h : m.value.x.x * m.value.y.y ≠ m.value.y.x * m.value.x.y) :
    let scale_x := Real.sqrt (m.value.x.x * m.value.x.x + m.value.y.x * m.value.y.x)
    let shear_xy := m.value.x.x / scale_x * m.value.x.y + m.value.y.x / scale_x * m.value.y.y
    let C1 := m.value.x.y - m.value.x.x / scale_x * shear_xy
    let D1 := m.value.y.y - m.value.y.x / scale_x * shear_xy
    let scale_y := Real.sqrt (C1 * C1 + D1 * D1)
    scale_x ≠ 0 ∧ scale_y ≠ 0 ∧
    (matrix_decompose_2d libm_real m o).1 = true ∧
    ((matrix_decompose_2d libm_real m o).2.scale_r.x = scale_x ∨
      (matrix_decompose_2d libm_real m o).2.scale_r.x = -scale_x) ∧
    (matrix_decompose_2d libm_real m o).2.scale_r.y = scale_y := by
  intro scale_x shear_xy C1 D1 scale_y
  obtain ⟨h1, h2⟩ := decompose_2d_divisors_pos _ _ _ _ h
  obtain ⟨hA, hB, hC, hD⟩ := get_value_upper_left m
  refine ⟨h1.ne.symm, h2.ne.symm, ?_, ?_, ?_⟩
  · unfold matrix_decompose_2d
    simp only [hA, hB, hC, hD, h, if_false]
  · unfold matrix_decompose_2d
    simp only [hA, hB, hC, hD, h, if_false, libm_real, graphene_point3d_init]
    split_ifs
    · right; rfl
    · left; rfl
  · unfold matrix_decompose_2d
    simp only [hA, hB, hC, hD, h, if_false, libm_real, graphene_point3d_init]

/-- The instance of C29 at `graphene_matrix_init_scale 2 3 1`. -/
theorem decompose_2d_no_division_by_zero_witness :
    (graphene_matrix_init_scale (2 : ℝ) 3 1).value.x.x *
        (graphene_matrix_init_scale (2 : ℝ) 3 1).value.y.y ≠
      (graphene_matrix_init_scale (2 : ℝ) 3 1).value.y.x *
        (graphene_matrix_init_scale (2 : ℝ) 3 1).value.x.y ∧
    (matrix_decompose_2d libm_real (graphene_matrix_init_scale 2 3 1)
      ⟨⟨5, 6, 7⟩, ⟨1, 2, 3⟩, ⟨1, 0, 0, 0⟩, ⟨5, 6, 7⟩⟩).1 = true :=
  ⟨by norm_num [graphene_matrix_init_scale, graphene_simd4x4f_init, graphene_simd4f_init],
   (decompose_2d_no_division_by_zero (graphene_matrix_init_scale 2 3 1)
      ⟨⟨5, 6, 7⟩, ⟨1, 2, 3⟩, ⟨1, 0, 0, 0⟩, ⟨5, 6, 7⟩⟩
      (by norm_num [graphene_matrix_init_scale, graphene_simd4x4f_init,
        graphene_simd4f_init])).2.2.1⟩

/-- The half-angle quaternion of a point of the unit circle: with t the angle of
(a, b), cos(t/2)^2 - sin(t/2)^2 = a and 2 sin(t/2) cos(t/2) = b. -/
theorem half_angle_of_unit (a b : ℝ) (h : a * a + b * b = 1) :
    Real.cos (libm_real.atan2f b a / 2) * Real.cos (libm_real.atan2f b a / 2) -
      Real.sin (libm_real.atan2f b a / 2) * Real.sin (libm_real.atan2f b a / 2) = a ∧
    2 * Real.sin (libm_real.atan2f b a / 2) * Real.cos (libm_real.atan2f b a / 2) = b := by
  show Real.cos (Complex.arg ⟨a, b⟩ / 2) * Real.cos (Complex.arg ⟨a, b⟩ / 2) -
      Real.sin (Complex.arg ⟨a, b⟩ / 2) * Real.sin (Complex.arg ⟨a, b⟩ / 2) = a ∧
    2 * Real.sin (Complex.arg ⟨a, b⟩ / 2) * Real.cos (Complex.arg ⟨a, b⟩ / 2) = b
  have habs : Complex.abs ⟨a, b⟩ = 1 := by
    rw [Complex.abs_apply, Complex.normSq_mk, h, Real.sqrt_one]
  have hne : (⟨a, b⟩ : ℂ) ≠ 0 := by
    intro h0
    rw [h0, map_zero] at habs
    exact zero_ne_one habs
  have hcos := Complex.cos_arg hne
  have hsin := Complex.sin_arg (⟨a, b⟩ : ℂ)
  rw [habs, div_one] at hcos hsin
  have hc2 := Real.cos_add (Complex.arg ⟨a, b⟩ / 2) (Complex.arg ⟨a, b⟩ / 2)
  have hs2 := Real.sin_add (Complex.arg ⟨a, b⟩ / 2) (Complex.arg ⟨a, b⟩ / 2)
  rw [add_halves] at hc2 hs2
  constructor
  · rw [← hc2, hcos]
  · rw [← hcos] at *
    linarith [hs2, hsin]

/-- The algebra of the 2D decomposition: the orthogonalized second vector is the
normalized first one turned by a quarter, times plus or minus its length, and
the flip test tells the sign. -/
theorem decompose_2d_algebra (A B C D s a b sh0 C1 D1 sy : ℝ)
    (hs : s * s = A * A + B * B) (hs0 : 0 < s) (ha : a = A / s) (hb : b = B / s)
    (hsh : sh0 = a * C + b * D) (hC1 : C1 = C - a * sh0) (hD1 : D1 = D - b * sh0)
    (hsy : sy * sy = C1 * C1 + D1 * D1) (hsy0 : 0 < sy) :
    a * a + b * b = 1 ∧
    (¬ (a * (D1 / sy) < b * (C1 / sy)) → C1 = -(sy * b) ∧ D1 = sy * a) ∧
    (a * (D1 / sy) < b * (C1 / sy) → C1 = sy * b ∧ D1 = -(sy * a)) := by
  have hab : a * a + b * b = 1 := by
    rw [ha, hb]
    field_simp
    linarith
  have horth : a * C1 + b * D1 = 0 := by
    rw [hC1, hD1, hsh]
    linear_combination (-(a * C + b * D)) * hab
  have hdelta : a * D1 - b * C1 = (A * D - B * C) / s := by
    rw [hC1, hD1, hsh, ha, hb]
    field_simp
    ring
  have hC : C1 = -(b * (a * D1 - b * C1)) := by
    linear_combination a * horth - C1 * hab
  have hD : D1 = a * (a * D1 - b * C1) := by
    linear_combination b * horth - D1 * hab
  have hsq : sy * sy = (a * D1 - b * C1) * (a * D1 - b * C1) := by
    rw [hsy]
    linear_combination (a * C1 + b * D1) * horth - (C1 * C1 + D1 * D1) * hab
  have hcases : a * D1 - b * C1 = sy ∨ a * D1 - b * C1 = -sy := by
    rcases mul_self_eq_mul_self_iff.mp hsq with h1 | h1
    · left; exact h1.symm
    · right; linarith
  have hquot : a * (D1 / sy) - b * (C1 / sy) = (a * D1 - b * C1) / sy := by
    field_simp
  refine ⟨hab, ?_, ?_⟩
  · intro hnf
    rcases hcases with h1 | h1
    · rw [h1] at hC hD
      exact ⟨by rw [hC]; ring, by rw [hD]; ring⟩
    · exfalso
      apply hnf
      have : a * (D1 / sy) - b * (C1 / sy) = -1 := by
        rw [hquot, h1, neg_div, div_self hsy0.ne.symm]
      linarith
  · intro hf
    rcases hcases with h1 | h1
    · exfalso
      have : a * (D1 / sy) - b * (C1 / sy) = 1 := by
        rw [hquot, h1, div_self hsy0.ne.symm]
      linarith
    · rw [h1] at hC hD
      exact ⟨by rw [hC]; ring, by rw [hD]; ring⟩

/-- C27: for a real matrix with A*D different from B*C, the outputs of
`matrix_decompose_2d` factor the matrix, also when the flip test fires: with
scale (sx, sy, 1), XY shear sh, rotation (0, 0, qz, qw), c = qw*qw - qz*qz and
s = 2*qz*qw, m[0][0] = sx*c, m[1][0] = sx*s, m[0][1] = sy*(sh*c - s) and
m[1][1] = sy*(sh*s + c); the quaternion has norm 1. -/
theorem decompose_2d_factorization (m : graphene_matrix_t ℝ) (o : decompose_2d_out ℝ)
    (h : m.value.x.x * m.value.y.y ≠ m.value.y.x * m.value.x.y) :
    let d := (matrix_decompose_2d libm_real m o).2
    let c := d.rotate_r.w * d.rotate_r.w - d.rotate_r.z * d.rotate_r.z
    let s := 2 * d.rotate_r.z * d.rotate_r.w
    (matrix_decompose_2d libm_real m o).1 = true ∧
    d.scale_r.z = 1 ∧ d.rotate_r.x = 0 ∧ d.rotate_r.y = 0 ∧
    m.value.x.x = d.scale_r.x * c ∧
    m.value.y.x = d.scale_r.x * s ∧
    m.value.x.y = d.scale_r.y * (d.shear_r.xy_shear * c - s) ∧
    m.value.y.y = d.scale_r.y * (d.shear_r.xy_shear * s + c) ∧
    d.rotate_r.x * d.rotate_r.x + d.rotate_r.y * d.rotate_r.y + d.rotate_r.z * d.rotate_r.z +
      d.rotate_r.w * d.rotate_r.w = 1 := by
  intro d c s
  obtain ⟨hA, hB, hC, hD⟩ := get_value_upper_left m
  obtain ⟨hp1, hp2⟩ := decompose_2d_divisors_pos _ _ _ _ h
  simp only [c, s, d]
  clear s c d
  unfold matrix_decompose_2d
  simp only [hA, hB, hC, hD, h, if_false, libm_real, graphene_quaternion_init,
    graphene_point3d_init, decide_eq_true_eq, true_and]
  have hs := Real.mul_self_sqrt
    (add_nonneg (mul_self_nonneg m.value.x.x) (mul_self_nonneg m.value.y.x))
  generalize Real.sqrt (m.value.x.x * m.value.x.x + m.value.y.x * m.value.y.x) = s0
    at hs hp1 hp2 ⊢
  have hAa : m.value.x.x = s0 * (m.value.x.x / s0) := by field_simp
  have hBb : m.value.y.x = s0 * (m.value.y.x / s0) := by field_simp
  generalize ha : m.value.x.x / s0 = a at hp2 hAa ⊢
  generalize hb : m.value.y.x / s0 = b at hp2 hBb ⊢
  generalize hsh : a * m.value.x.y + b * m.value.y.y = sh0 at hp2 ⊢
  generalize hC1 : m.value.x.y - a * sh0 = C1 at hp2 ⊢
  generalize hD1 : m.value.y.y - b * sh0 = D1 at hp2 ⊢
  have hsy := Real.mul_self_sqrt (add_nonneg (mul_self_nonneg C1) (mul_self_nonneg D1))
  generalize Real.sqrt (C1 * C1 + D1 * D1) = sy at hsy hp2 ⊢
  obtain ⟨hab, hnf, hf⟩ := decompose_2d_algebra m.value.x.x m.value.y.x m.value.x.y m.value.y.y
    s0 a b sh0 C1 D1 sy hs hp1 ha.symm hb.symm hsh.symm hC1.symm hD1.symm hsy hp2
  have hCe : m.value.x.y = C1 + a * sh0 := by rw [← hC1]; ring
  have hDe : m.value.y.y = D1 + b * sh0 := by rw [← hD1]; ring
  have hnorm : ∀ t : ℝ, 0 * 0 + 0 * 0 + Real.sin t * Real.sin t + Real.cos t * Real.cos t = 1 := by
    intro t
    linear_combination Real.sin_sq_add_cos_sq t
  by_cases hflip : a * (D1 / sy) < b * (C1 / sy)
  · obtain ⟨e1, e2⟩ := hf hflip
    have hab2 : -a * -a + -b * -b = 1 := by rw [← hab]; ring
    obtain ⟨t1, t2⟩ := half_angle_of_unit (-a) (-b) hab2
    simp only [libm_real] at t1 t2
    simp only [hflip, if_true, t1, t2, hnorm, and_true]
    refine ⟨?_, ?_, ?_, ?_⟩
    · rw [hAa]; ring
    · rw [hBb]; ring
    · rw [hCe, e1]; field_simp; ring
    · rw [hDe, e2]; field_simp; ring
  · obtain ⟨e1, e2⟩ := hnf hflip
    obtain ⟨t1, t2⟩ := half_angle_of_unit a b hab
    simp only [libm_real] at t1 t2
    simp only [hflip, if_false, t1, t2, hnorm, and_true]
    refine ⟨?_, ?_, ?_, ?_⟩
    · rw [hAa]
    · rw [hBb]
    · rw [hCe, e1]; field_simp; ring
    · rw [hDe, e2]; field_simp; ring

/-- The instance of C27 at the reflection that swaps the x and y axes, where the
flip test fires. -/
theorem decompose_2d_factorization_witness :
    (swap_example : graphene_matrix_t ℝ).value.x.x * (swap_example : graphene_matrix_t ℝ).value.y.y ≠
      (swap_example : graphene_matrix_t ℝ).value.y.x *
        (swap_example : graphene_matrix_t ℝ).value.x.y ∧
    (matrix_decompose_2d libm_real swap_example
      ⟨⟨5, 6, 7⟩, ⟨1, 2, 3⟩, ⟨1, 0, 0, 0⟩, ⟨5, 6, 7⟩⟩).1 = true :=
  ⟨by norm_num [swap_example],
   (decompose_2d_factorization swap_example ⟨⟨5, 6, 7⟩, ⟨1, 2, 3⟩, ⟨1, 0, 0, 0⟩, ⟨5, 6, 7⟩⟩
      (by norm_num [swap_example])).1⟩

/-- The instance of C28 at `graphene_matrix_init_scale 2 3 1` interpolated with
itself at factor 1/2, with the textbook quaternion module and a result matrix
that holds the identity before the call: the result is the identity matrix, not
the input. -/
theorem interpolate_2d_never_scales_witness :
    graphene_matrix_is_2d (graphene_matrix_init_scale (2 : ℝ) 3 1) = true ∧
    graphene_matrix_interpolate libm_real quaternion_real (graphene_matrix_init_scale 2 3 1)
      (graphene_matrix_init_scale 2 3 1) (1 / 2)
      (stale_frame.with_res graphene_matrix_init_identity) = graphene_matrix_init_identity ∧
    graphene_matrix_interpolate libm_real quaternion_real (graphene_matrix_init_scale 2 3 1)
      (graphene_matrix_init_scale 2 3 1) (1 / 2)
      (stale_frame.with_res graphene_matrix_init_identity) ≠ graphene_matrix_init_scale 2 3 1 := by
  have h := (interpolate_2d_never_scales libm_real quaternion_real
    (graphene_matrix_init_scale 2 3 1) (graphene_matrix_init_scale 2 3 1) (1 / 2)
    (stale_frame.with_res graphene_matrix_init_identity) (is_2d_init_scale 2 3)
    (is_2d_init_scale 2 3)).2.2.2.1
  rw [interpolate_decompose_init_scale quaternion_real 2 3 2 3 two_pos three_pos two_pos
    three_pos] at h
  rw [interpolate_unscaled_plain quaternion_real _ _ _ _ (quaternion_real_identity (1 / 2))] at h
  have h2 : graphene_matrix_interpolate libm_real quaternion_real
      (graphene_matrix_init_scale 2 3 1) (graphene_matrix_init_scale 2 3 1) (1 / 2)
      (stale_frame.with_res graphene_matrix_init_identity) = graphene_matrix_init_identity := h
  refine ⟨is_2d_init_scale 2 3, h2, ?_⟩
  rw [h2]
  simp [graphene_matrix_init_identity, graphene_simd4x4f_init_identity, graphene_simd4x4f_init,
    graphene_simd4f_init, graphene_matrix_init_scale]

/-- Gram-Schmidt on three real rows that, with (0, 0, 0, 1) as fourth row, have a
determinant different from 0, in the order and with the operations of
`matrix_decompose_3d`: the three lengths are positive and the three rows
obtained are orthonormal. -/
theorem gram_schmidt_real (x y z : graphene_simd4f_t ℝ)
    (hdet : det4 ⟨x, y, z, ⟨0, 0, 0, 1⟩⟩ ≠ 0) :
    let sx := Real.sqrt (dot4 x x)
    let lx := graphene_simd4f_div x (graphene_simd4f_splat sx)
    let shxy := dot4 lx y
    let y1 := graphene_simd4f_sub y (graphene_simd4f_mul lx (graphene_simd4f_splat shxy))
    let sy := Real.sqrt (dot4 y1 y1)
    let ly := graphene_simd4f_div y1 (graphene_simd4f_splat sy)
    let shxz := dot4 lx z
    let z1 := graphene_simd4f_sub z (graphene_simd4f_mul lx (graphene_simd4f_splat shxz))
    let shyz := dot4 ly z1
    let z2 := graphene_simd4f_sub z1 (graphene_simd4f_mul ly (graphene_simd4f_splat shyz))
    let sz := Real.sqrt (dot4 z2 z2)
    let lz := graphene_simd4f_div z2 (graphene_simd4f_splat sz)
    (0 < sx ∧ 0 < sy ∧ 0 < sz) ∧
    (dot4 lx lx = 1 ∧ dot4 ly ly = 1 ∧ dot4 lz lz = 1) ∧
    (dot4 lx ly = 0 ∧ dot4 lx lz = 0 ∧ dot4 ly lz = 0) := by
  intro sx lx shxy y1 sy ly shxz z1 shyz z2 sz lz
  have pos_of_ne : ∀ v : graphene_simd4f_t ℝ, v ≠ ⟨0, 0, 0, 0⟩ → 0 < Real.sqrt (dot4 v v) := by
    intro v hv
    apply Real.sqrt_pos.mpr
    rcases (dot4_self_nonneg v).lt_or_eq with h | h
    · exact h
    · exact absurd (eq_zero_of_dot4_self v h.symm) hv
  have unit_of_pos : ∀ v : graphene_simd4f_t ℝ, 0 < Real.sqrt (dot4 v v) →
      dot4 (graphene_simd4f_div v (graphene_simd4f_splat (Real.sqrt (dot4 v v))))
        (graphene_simd4f_div v (graphene_simd4f_splat (Real.sqrt (dot4 v v)))) = 1 := by
    intro v hv
    rw [dot4_div_left, dot4_comm, dot4_div_left, div_div,
      Real.mul_self_sqrt (dot4_self_nonneg v)]
    have hne : dot4 v v ≠ 0 := by
      intro h0
      rw [h0, Real.sqrt_zero] at hv
      exact lt_irrefl 0 hv
    exact div_self hne
  have hsx : 0 < sx := by
    apply pos_of_ne
    intro h0
    rw [h0] at hdet
    exact hdet (det4_zero_row_x _ _ _)
  have hsy : 0 < sy := by
    apply pos_of_ne
    intro h0
    exact hdet (det4_zero_of_parallel x y z _ sx shxy h0)
  have hsz : 0 < sz := by
    apply pos_of_ne
    intro h0
    exact hdet (det4_zero_of_span x y z _ sx sy shxz shyz shxy h0)
  have hxx : dot4 lx lx = 1 := unit_of_pos x hsx
  have hyy : dot4 ly ly = 1 := unit_of_pos y1 hsy
  have hzz : dot4 lz lz = 1 := unit_of_pos z2 hsz
  have hxy1 : dot4 lx y1 = 0 := by
    show dot4 lx (graphene_simd4f_sub y (graphene_simd4f_mul lx (graphene_simd4f_splat shxy))) = 0
    rw [dot4_comm, dot4_sub_left, dot4_mul_left, hxx, dot4_comm y lx]
    show shxy - shxy * 1 = 0
    ring
  have hxy : dot4 lx ly = 0 := by
    show dot4 lx (graphene_simd4f_div y1 (graphene_simd4f_splat sy)) = 0
    rw [dot4_comm, dot4_div_left, dot4_comm, hxy1, zero_div]
  have hxz1 : dot4 lx z1 = 0 := by
    show dot4 lx (graphene_simd4f_sub z (graphene_simd4f_mul lx (graphene_simd4f_splat shxz))) = 0
    rw [dot4_comm, dot4_sub_left, dot4_mul_left, hxx, dot4_comm z lx]
    show shxz - shxz * 1 = 0
    ring
  have hxz2 : dot4 lx z2 = 0 := by
    show dot4 lx (graphene_simd4f_sub z1 (graphene_simd4f_mul ly (graphene_simd4f_splat shyz))) = 0
    rw [dot4_comm, dot4_sub_left, dot4_mul_left, dot4_comm z1 lx, hxz1, dot4_comm ly lx, hxy]
    ring
  have hyz2 : dot4 ly z2 = 0 := by
    show dot4 ly (graphene_simd4f_sub z1 (graphene_simd4f_mul ly (graphene_simd4f_splat shyz))) = 0
    rw [dot4_comm, dot4_sub_left, dot4_mul_left, hyy, dot4_comm z1 ly]
    show shyz - shyz * 1 = 0
    ring
  have hxz : dot4 lx lz = 0 := by
    show dot4 lx (graphene_simd4f_div z2 (graphene_simd4f_splat sz)) = 0
    rw [dot4_comm, dot4_div_left, dot4_comm, hxz2, zero_div]
  have hyz : dot4 ly lz = 0 := by
    show dot4 ly (graphene_simd4f_div z2 (graphene_simd4f_splat sz)) = 0
    rw [dot4_comm, dot4_div_left, dot4_comm, hyz2, zero_div]
  exact ⟨⟨hsx, hsy, hsz⟩, ⟨hxx, hyy, hzz⟩, ⟨hxy, hxz, hyz⟩⟩

/-- The locals of `matrix_decompose_3d` over the real numbers, for a matrix that
passes the determinant test: the three scale factors are positive and the rows
x, y, z of `local` are orthonormal. -/
theorem decompose_3d_locals_real (m : graphene_matrix_t ℝ)
    (h2 : graphene_matrix_determinant (perspectiveCheck m) ≠ 0) :
    let l := matrix_decompose_3d_locals libm_real m
    (0 < l.scale_x ∧ 0 < l.scale_y ∧ 0 < l.scale_z) ∧
    (dot4 l.local_x l.local_x = 1 ∧ dot4 l.local_y l.local_y = 1 ∧
      dot4 l.local_z l.local_z = 1) ∧
    (dot4 l.local_x l.local_y = 0 ∧ dot4 l.local_x l.local_z = 0 ∧
      dot4 l.local_y l.local_z = 0) := by
  have hdet : det4 ⟨(graphene_matrix_normalize m).value.x, (graphene_matrix_normalize m).value.y,
      (graphene_matrix_normalize m).value.z, ⟨0, 0, 0, 1⟩⟩ ≠ 0 := h2
  exact gram_schmidt_real _ _ _ hdet

/-- The triple product of the orthonormalized rows of the mirror matrix
diag(1, 1, -1, 1) is negative. -/
theorem mirror_example_triple_product :
    triple_product (matrix_decompose_3d_locals libm_real mirror_example).local_x
      (matrix_decompose_3d_locals libm_real mirror_example).local_y
      (matrix_decompose_3d_locals libm_real mirror_example).local_z < 0 := by
  norm_num [triple_product, matrix_decompose_3d_locals, graphene_matrix_normalize,
    graphene_matrix_get_value, get_value_outcome.val, graphene_simd4f_length4,
    graphene_simd4f_dot4, graphene_simd4f_sum, graphene_simd4f_mul, graphene_simd4f_div,
    graphene_simd4f_sub, graphene_simd4f_splat, graphene_simd4f_cross3, graphene_simd4f_get_x,
    graphene_simd4f_get_w, libm_real, mirror_example]

/-- C24 as amended: for a real matrix that `matrix_decompose_3d` accepts, the
rows x, y, z of `local` after the Gram-Schmidt step, which are the rows handed
to the quaternion module, are orthonormal for the 4-component dot product; the
step computes scaleX as the length of row x, which is positive, and the shears
stored are dot(x^, y) / scaleY, dot(x^, z) / scaleZ and dot(y^, z') / scaleZ with
z' = z - dot(x^, z) x^.  The x scale stored is scaleX when the triple product of
the orthonormal rows is not negative, and -scaleX when it is negative. -/
theorem decompose_3d_gram_schmidt (Q : quaternion_ops ℝ) (m : graphene_matrix_t ℝ)
    (o : decompose_3d_out ℝ) (h1 : m.value.w.w ≠ 0)
    (h2 : graphene_matrix_determinant (perspectiveCheck m) ≠ 0) :
    let n := graphene_matrix_normalize m
    let l := matrix_decompose_3d_locals libm_real m
    let d := (matrix_decompose_3d libm_real Q m o).2
    (dot4 l.local_x l.local_x = 1 ∧ dot4 l.local_y l.local_y = 1 ∧
      dot4 l.local_z l.local_z = 1) ∧
    (dot4 l.local_x l.local_y = 0 ∧ dot4 l.local_x l.local_z = 0 ∧
      dot4 l.local_y l.local_z = 0) ∧
    d.rotate_r = Q.graphene_quaternion_init_from_matrix
      ⟨⟨l.local_x, l.local_y, l.local_z, l.local_w⟩⟩ ∧
    l.scale_x = Real.sqrt (dot4 n.value.x n.value.x) ∧
    0 < l.scale_x ∧
    l.local_x = graphene_simd4f_div n.value.x (graphene_simd4f_splat l.scale_x) ∧
    d.shear_r.xy_shear = dot4 l.local_x n.value.y / l.scale_y ∧
    d.shear_r.xz_shear = dot4 l.local_x n.value.z / l.scale_z ∧
    d.shear_r.yz_shear =
      dot4 l.local_y
        (graphene_simd4f_sub n.value.z
          (graphene_simd4f_mul l.local_x (graphene_simd4f_splat (dot4 l.local_x n.value.z)))) /
        l.scale_z ∧
    (0 ≤ triple_product l.local_x l.local_y l.local_z → d.scale_r.x = l.scale_x) ∧
    (triple_product l.local_x l.local_y l.local_z < 0 → d.scale_r.x = -l.scale_x) := by
  intro n l d
  obtain ⟨⟨hpos, -, -⟩, hn, ho⟩ := decompose_3d_locals_real m h2
  obtain ⟨-, hs, hsh, hr⟩ := decompose_3d_outputs_of_locals libm_real Q m o h1 h2
  refine ⟨hn, ho, hr, rfl, hpos, rfl, ?_, ?_, ?_, ?_, ?_⟩
  · show (matrix_decompose_3d libm_real Q m o).2.shear_r.xy_shear = _
    rw [hsh]
    rfl
  · show (matrix_decompose_3d libm_real Q m o).2.shear_r.xz_shear = _
    rw [hsh]
    rfl
  · show (matrix_decompose_3d libm_real Q m o).2.shear_r.yz_shear = _
    rw [hsh]
    rfl
  · intro ht
    show (matrix_decompose_3d libm_real Q m o).2.scale_r.x = _
    rw [hs]
    exact if_neg (not_lt.mpr ht)
  · intro ht
    show (matrix_decompose_3d libm_real Q m o).2.scale_r.x = _
    rw [hs]
    show (if _ then _ else _) = _
    rw [if_pos ht]
    ring

/-- The instance of C24 at the mirror matrix diag(1, 1, -1, 1): rows x and y of
`local` are orthogonal, and the x scale stored is -scaleX because the triple
product is negative. -/
theorem decompose_3d_gram_schmidt_witness :
    (mirror_example : graphene_matrix_t ℝ).value.w.w ≠ 0 ∧
    graphene_matrix_determinant (perspectiveCheck (mirror_example : graphene_matrix_t ℝ)) ≠ 0 ∧
    dot4 (matrix_decompose_3d_locals libm_real mirror_example).local_x
      (matrix_decompose_3d_locals libm_real mirror_example).local_y = 0 ∧
    (matrix_decompose_3d libm_real quaternion_real mirror_example
      identity_components).2.scale_r.x =
      -(matrix_decompose_3d_locals libm_real mirror_example).scale_x :=
  ⟨by norm_num [mirror_example],
   by norm_num [graphene_matrix_determinant, graphene_simd4x4f_determinant, det4, minors_xy,
     minors_zw, graphene_simd4f_splat, graphene_simd4f_get_x, perspectiveCheck, mirror_example],
   (decompose_3d_gram_schmidt quaternion_real mirror_example identity_components
      (by norm_num [mirror_example])
      (by norm_num [graphene_matrix_determinant, graphene_simd4x4f_determinant, det4, minors_xy,
        minors_zw, graphene_simd4f_splat, graphene_simd4f_get_x, perspectiveCheck,
        mirror_example])).2.1.1,
   (decompose_3d_gram_schmidt quaternion_real mirror_example identity_components
      (by norm_num [mirror_example])
      (by norm_num [graphene_matrix_determinant, graphene_simd4x4f_determinant, det4, minors_xy,
        minors_zw, graphene_simd4f_splat, graphene_simd4f_get_x, perspectiveCheck,
        mirror_example])).2.2.2.2.2.2.2.2.2.2 mirror_example_triple_product⟩

/-- C24 fails for the mirror matrix diag(1, 1, -1, 1), which `matrix_decompose_3d`
accepts: row x has length 1, and the x scale stored is -1. -/
theorem decompose_3d_scale_x_negated :
    (matrix_decompose_3d libm_real quaternion_real mirror_example identity_components).1 = true ∧
    libm_real.sqrtf (dot4 (graphene_matrix_normalize (mirror_example : graphene_matrix_t ℝ)).value.x
      (graphene_matrix_normalize (mirror_example : graphene_matrix_t ℝ)).value.x) = 1 ∧
    (matrix_decompose_3d_locals libm_real mirror_example).scale_x = 1 ∧
    (matrix_decompose_3d libm_real quaternion_real mirror_example
      identity_components).2.scale_r.x = -1 := by
  have h1 : (mirror_example : graphene_matrix_t ℝ).value.w.w ≠ 0 := by norm_num [mirror_example]
  have h2 : graphene_matrix_determinant (perspectiveCheck (mirror_example : graphene_matrix_t ℝ))
      ≠ 0 := by
    norm_num [graphene_matrix_determinant, graphene_simd4x4f_determinant, det4, minors_xy,
      minors_zw, graphene_simd4f_splat, graphene_simd4f_get_x, perspectiveCheck, mirror_example]
  obtain ⟨hacc, hs, -, -⟩ :=
    decompose_3d_outputs_of_locals libm_real quaternion_real mirror_example identity_components
      h1 h2
  have hx : (matrix_decompose_3d_locals libm_real mirror_example).scale_x = 1 := by
    norm_num [matrix_decompose_3d_locals, graphene_matrix_normalize,
      graphene_matrix_get_value, get_value_outcome.val, graphene_simd4f_length4,
      graphene_simd4f_dot4, graphene_simd4f_sum, graphene_simd4f_mul, graphene_simd4f_div,
      graphene_simd4f_splat, graphene_simd4f_get_x, graphene_simd4f_get_w, libm_real,
      mirror_example]
  refine ⟨hacc, ?_, hx, ?_⟩
  · norm_num [graphene_matrix_normalize, dot4,
      graphene_matrix_get_value, get_value_outcome.val, graphene_simd4f_div,
      graphene_simd4f_splat, graphene_simd4f_get_w, libm_real, mirror_example]
  · rw [hs]
    show (if _ then _ else _) = (-1 : ℝ)
    rw [if_pos mirror_example_triple_product, hx]
    norm_num

/-- C30: `matrix_decompose_3d` does not divide by zero once its two checks have
passed: for a real matrix with m[3][3] different from 0 and a determinant of
`perspectiveCheck` different from 0, the function returns TRUE and the three
row lengths scale_x, scale_y and scale_z by which it divides are not 0, nor are
the three scales it stores. -/
theorem decompose_3d_no_division_by_zero (Q : quaternion_ops ℝ) (m : graphene_matrix_t ℝ)
    (o : decompose_3d_out ℝ) (h1 : m.value.w.w ≠ 0)
    (h2 : graphene_matrix_determinant (perspectiveCheck m) ≠ 0) :
    let l := matrix_decompose_3d_locals libm_real m
    let d := (matrix_decompose_3d libm_real Q m o).2
    (matrix_decompose_3d libm_real Q m o).1 = true ∧
    (l.scale_x ≠ 0 ∧ l.scale_y ≠ 0 ∧ l.scale_z ≠ 0) ∧
    (d.scale_r.x ≠ 0 ∧ d.scale_r.y ≠ 0 ∧ d.scale_r.z ≠ 0) := by
  intro l d
  obtain ⟨⟨hx, hy, hz⟩, -, -⟩ := decompose_3d_locals_real m h2
  obtain ⟨hacc, hs, -, -⟩ := decompose_3d_outputs_of_locals libm_real Q m o h1 h2
  refine ⟨hacc, ⟨hx.ne.symm, hy.ne.symm, hz.ne.symm⟩, ?_⟩
  show (matrix_decompose_3d libm_real Q m o).2.scale_r.x ≠ 0 ∧
    (matrix_decompose_3d libm_real Q m o).2.scale_r.y ≠ 0 ∧
    (matrix_decompose_3d libm_real Q m o).2.scale_r.z ≠ 0
  rw [hs]
  refine ⟨?_, ?_, ?_⟩
  · show (if _ then _ else _) ≠ (0 : ℝ)
    split_ifs
    · exact mul_ne_zero hx.ne.symm (by norm_num)
    · exact hx.ne.symm
  · show (if _ then _ else _) ≠ (0 : ℝ)
    split_ifs
    · exact mul_ne_zero hy.ne.symm (by norm_num)
    · exact hy.ne.symm
  · show (if _ then _ else _) ≠ (0 : ℝ)
    split_ifs
    · exact mul_ne_zero hz.ne.symm (by norm_num)
    · exact hz.ne.symm

/-- The instance of C30 at the mirror matrix diag(1, 1, -1, 1). -/
theorem decompose_3d_no_division_by_zero_witness :
    (mirror_example : graphene_matrix_t ℝ).value.w.w ≠ 0 ∧
    graphene_matrix_determinant (perspectiveCheck (mirror_example : graphene_matrix_t ℝ)) ≠ 0 ∧
    (matrix_decompose_3d libm_real quaternion_real mirror_example identity_components).1 = true :=
  ⟨by norm_num [mirror_example],
   by norm_num [graphene_matrix_determinant, graphene_simd4x4f_determinant, det4, minors_xy,
     minors_zw, graphene_simd4f_splat, graphene_simd4f_get_x, perspectiveCheck, mirror_example],
   (decompose_3d_no_division_by_zero quaternion_real mirror_example identity_components
      (by norm_num [mirror_example])
      (by norm_num [graphene_matrix_determinant, graphene_simd4x4f_determinant, det4, minors_xy,
        minors_zw, graphene_simd4f_splat, graphene_simd4f_get_x, perspectiveCheck,
        mirror_example])).1⟩

/-! ### Results on memory and in binary32 arithmetic -/

/-- C22 fails for the call in place, as `matrix_decompose_3d` makes it: with the
matrix diag(2, 2, 2, 2) as input and as result matrix, the input holds the
identity matrix after the call and so is modified. -/
theorem normalize_in_place_overwrites_input :
    (graphene_matrix_normalize_call true double_example double_example).1 =
      graphene_matrix_init_identity ∧
    (graphene_matrix_normalize_call true double_example double_example).1 ≠ double_example := by
  constructor <;>
  norm_num [graphene_matrix_normalize_call, graphene_matrix_get_value, get_value_outcome.val,
    graphene_simd4f_div, graphene_simd4f_splat, graphene_simd4f_get_w, double_example,
    graphene_matrix_init_identity, graphene_simd4x4f_init_identity, graphene_simd4x4f_init,
    graphene_simd4f_init]

/-- With the identity as rounding function, the functions of the namespace
`rounded` are those of the exact embedding. -/
theorem rounded_id {K : Type} [LinearOrderedField K] (m : graphene_matrix_t K)
    (r : graphene_rect_t K) (p : graphene_point_t K) (f : K) :
    rounded.graphene_matrix_transform_point id m p = graphene_matrix_transform_point m p ∧
    rounded.graphene_matrix_transform_rect id m r = graphene_matrix_transform_rect m r ∧
    rounded.graphene_matrix_transform_bounds id m r = graphene_matrix_transform_bounds m r ∧
    rounded.graphene_matrix_skew_xz id m f = graphene_matrix_skew_xz m f ∧
    rounded.graphene_matrix_skew_yz id m f = graphene_matrix_skew_yz m f :=
  ⟨rfl, rfl, rfl, rfl, rfl⟩

/-- Values of `round_f32`: floats are kept; 1/10, 1/5 and 2/5 go to the nearest
float; 2^24 + 1 and 2^24 + 3 lie halfway between two floats and go to the one
with the even significand; below 2^-126 the spacing of the floats stays 2^-149,
and half of 2^-149 goes to 0. -/
theorem round_f32_values :
    round_f32 0 = 0 ∧ round_f32 1 = 1 ∧ round_f32 (-3) = -3 ∧ round_f32 (5 / 2) = 5 / 2 ∧
    round_f32 (1 / 10) = 13421773 / 134217728 ∧
    round_f32 (13421773 / 134217728) = 13421773 / 134217728 ∧
    round_f32 (1 / 5) = 13421773 / 67108864 ∧
    round_f32 (2 / 5) = 13421773 / 33554432 ∧
    round_f32 (-1 / 10) = -13421773 / 134217728 ∧
    round_f32 16777217 = 16777216 ∧ round_f32 16777219 = 16777220 ∧
    round_f32 (1 / 2 ^ 149) = 1 / 2 ^ 149 ∧ round_f32 (1 / 2 ^ 150) = 0 ∧
    round_f32 (3 / 2 ^ 150) = 2 / 2 ^ 149 ∧
    round_f32 (2 ^ 127) = 2 ^ 127 := by
  decide!

/-- C15 fails in binary32 arithmetic for `graphene_matrix_init_scale (0.1f, 1, 1)`
and the rectangle of origin (-3, 0) and size (2.5, 1): vertex TR of the quad of
`graphene_matrix_transform_rect` has x = -13421773 / 2^28, about -0.0500000007;
the bounds of `graphene_matrix_transform_bounds` have origin.x = -5033165 / 2^24
and width 1/4, the rounded difference of the largest and the least x; and
origin.x + width, about -0.0500000119, lies below the x of the vertex, whether
the sum is exact or rounded. -/
theorem transform_bounds_vertex_outside :
    is_f32_matrix scale_tenth_example = true ∧ is_f32_rect bounds_rect_example = true ∧
    (rounded.graphene_matrix_transform_rect round_f32 scale_tenth_example
      bounds_rect_example).p1 = ⟨-13421773 / 268435456, 0⟩ ∧
    rounded.graphene_matrix_transform_bounds round_f32 scale_tenth_example bounds_rect_example =
      ⟨⟨-5033165 / 16777216, 0⟩, ⟨1 / 4, 1⟩⟩ ∧
    (rounded.graphene_matrix_transform_bounds round_f32 scale_tenth_example
        bounds_rect_example).origin.x +
      (rounded.graphene_matrix_transform_bounds round_f32 scale_tenth_example
        bounds_rect_example).size.width <
      (rounded.graphene_matrix_transform_rect round_f32 scale_tenth_example
        bounds_rect_example).p1.x ∧
    round_f32 ((rounded.graphene_matrix_transform_bounds round_f32 scale_tenth_example
        bounds_rect_example).origin.x +
      (rounded.graphene_matrix_transform_bounds round_f32 scale_tenth_example
        bounds_rect_example).size.width) <
      (rounded.graphene_matrix_transform_rect round_f32 scale_tenth_example
        bounds_rect_example).p1.x := by
  decide!

/-- C21: in binary32 arithmetic `graphene_matrix_skew_xz` and
`graphene_matrix_skew_yz` are order-sensitive: for some matrix and factors, all
of them floats, the two orders give different rows z.  On the matrix with rows
x = (1, 0, 0, 0), y = (1, 1, 0, 0) and z = (0.1f, 0, 1, 0), with factors 0.2f
and 0.4f, the skew XZ followed by the skew YZ leaves 2936013 / 2^22, about
0.70000005, in the first entry of row z, and the skew YZ followed by the skew
XZ leaves 11744051 / 2^24, about 0.69999999. -/
theorem skew_xz_yz_order_sensitive :
    (rounded.graphene_matrix_skew_yz round_f32
      (rounded.graphene_matrix_skew_xz round_f32 skew_order_example (round_f32 (1 / 5)))
      (round_f32 (2 / 5))).value.z = ⟨2936013 / 4194304, 13421773 / 33554432, 1, 0⟩ ∧
    (rounded.graphene_matrix_skew_xz round_f32
      (rounded.graphene_matrix_skew_yz round_f32 skew_order_example (round_f32 (2 / 5)))
      (round_f32 (1 / 5))).value.z = ⟨11744051 / 16777216, 13421773 / 33554432, 1, 0⟩ ∧
    ∃ (m : graphene_matrix_t ℚ) (f g : ℚ),
      is_f32_matrix m = true ∧ is_f32 f = true ∧ is_f32 g = true ∧
      (rounded.graphene_matrix_skew_yz round_f32
        (rounded.graphene_matrix_skew_xz round_f32 m f) g).value.z ≠
      (rounded.graphene_matrix_skew_xz round_f32
        (rounded.graphene_matrix_skew_yz round_f32 m g) f).value.z := by
  refine ⟨by decide!, by decide!, skew_order_example, round_f32 (1 / 5), round_f32 (2 / 5), ?_⟩
  decide!

end Graphene
